import Mathlib

/-!
Verification of the graphology core (node/edge store + structure index).

The embedding follows the two source files:
  * `src/unnamed/part_000` — the Graph class (mutation engine, degree and
    existence queries, index driver methods);
  * `src/src/indices.js` — the structure-index functions
    (`updateStructureIndex`, `clearEdgeFromStructureIndex`,
    `clearStructureIndex`, `upgradeStructureIndexToMulti`).

JavaScript objects are modelled as association lists (`alookup` / `aput` /
`aerase` mirror property read / assignment / `delete`).  Shared mutable
adjacency entries ("the same Set seen from both endpoints") are modelled with
an explicit arena: node adjacency slots store integer handles into a heap of
entry values, so that reference identity in JS becomes handle equality here.
Attribute containers are modelled the same way with a second arena, so that
"fresh shallow copy" is expressible.  JS `NaN` arising from reading an absent
degree counter is modelled by `Option Int` with `none` poisoning sums.
-/

namespace Graphology

/-! ### Association-list primitives (JS object semantics) -/

/-- Property read `obj[key]`: first binding for the key, if any. -/
def alookup {κ α : Type} [DecidableEq κ] : List (κ × α) → κ → Option α
  | [], _ => none
  | (k, v) :: rest, key => if key = k then some v else alookup rest key

/-- Property assignment `obj[key] = val`: replace the binding if present,
otherwise append (JS insertion order for new keys). -/
def aput {κ α : Type} [DecidableEq κ] : List (κ × α) → κ → α → List (κ × α)
  | [], key, val => [(key, val)]
  | (k, v) :: rest, key, val =>
      if key = k then (key, val) :: rest else (k, v) :: aput rest key val

/-- Property deletion `delete obj[key]`: drop the first binding for the key. -/
def aerase {κ α : Type} [DecidableEq κ] : List (κ × α) → κ → List (κ × α)
  | [], _ => []
  | (k, v) :: rest, key => if key = k then rest else (k, v) :: aerase rest key

/-- The keys of an association list are pairwise distinct. -/
def keysND {κ α : Type} (l : List (κ × α)) : Prop := (l.map Prod.fst).Nodup

/-! ### Data model -/

/-- Graph `type` option: one of `'directed'`, `'undirected'`, `'mixed'`. -/
inductive GType : Type
  | directed
  | undirected
  | mixed
deriving DecidableEq

/-- An adjacency entry as stored (behind a handle) in the structure index.
`simple` is the bare edge record itself (identified by its key, since the Edge
Table maps each key to exactly one record object); `multi` is a JS `Set` of
edge records, kept in insertion order without duplicates. -/
inductive EntryVal : Type
  | simple (edge : String)
  | multi (edges : List String)
deriving DecidableEq

/-- Edge record, from `_addEdge` in `src/unnamed/part_000`:
`{undirected, attributes, source, target}`.  `attributes` is a handle into
the attribute arena (the object created by `assign({}, attributes)`). -/
structure EdgeData : Type where
  undirected : Bool
  attributes : Nat
  source : String
  target : String
deriving DecidableEq

/-- Node record, from `addNode` in `src/unnamed/part_000` plus the adjacency
slots written by `src/src/indices.js`.  The degree counters `inDegree`,
`outDegree`, `undirectedDegree` are `Option Int`: `none` models the field
being absent (`undefined`) — `addNode` only creates the fields allowed by the
graph type — or the `NaN` this produces when summed.  The adjacency slots
`out`/`in`/`undirected` map a neighbour key to an arena handle of the shared
entry; an always-present empty list models the slot being absent or empty
(the index code only ever distinguishes entries per key, never slot-object
presence, once the graph admits the corresponding edge kind). -/
structure NodeData : Type where
  attributes : Nat
  selfLoops : Int
  inDegree : Option Int
  outDegree : Option Int
  undirectedDegree : Option Int
  out : List (String × Nat)
  «in» : List (String × Nat)
  undirected : List (String × Nat)
deriving DecidableEq

/-- Whole-graph state: options fixed at construction, the Node and Edge
Tables, the `_order`/`_size` counters, the `structure` index descriptor's
`computed` flag, and the two arenas (`heap` for shared adjacency entries,
`attrHeap` for attribute containers).  `nextRef` is the allocation counter
for both arenas — a fresh JS object is a fresh handle. -/
structure Graph : Type where
  type : GType
  multi : Bool
  allowSelfLoops : Bool
  map : Bool
  nodes : List (String × NodeData)
  edges : List (String × EdgeData)
  order : Int
  size : Int
  structureComputed : Bool
  heap : List (Nat × EntryVal)
  attrHeap : List (Nat × List (String × String))
  nextRef : Nat
deriving DecidableEq

/-- Error kinds, from `src/errors` usage in `part_000`. -/
inductive GErr : Type
  | invalidArguments
  | notFound
  | usage
deriving DecidableEq

/-- Attribute argument of the add operations: omitted (or falsy), a plain
object (a reference into the attribute arena), or a truthy non-object value
(rejected with `InvalidArgument`). -/
inductive AttrArg : Type
  | missing
  | obj (ref : Nat)
  | invalid
deriving DecidableEq

/-- Boolean-typed JS argument: either an actual boolean or some value whose
`typeof` is not `'boolean'` (used by the degree queries' self-loop flag). -/
inductive BoolArg : Type
  | bool (b : Bool)
  | nonBool
deriving DecidableEq

/-- JS numeric addition over possibly-absent counters: adding `undefined`
(or `NaN`) to anything yields `NaN` (`none`). -/
def jsAdd : Option Int → Option Int → Option Int
  | some a, some b => some (a + b)
  | _, _ => none

/-- A new empty graph with the given options (the constructor of `part_000`
after option validation, with no hydration data). -/
def emptyGraph (t : GType) (multi allowSelfLoops map : Bool) : Graph :=
  { type := t, multi := multi, allowSelfLoops := allowSelfLoops, map := map,
    nodes := [], edges := [], order := 0, size := 0,
    structureComputed := false, heap := [], attrHeap := [], nextRef := 0 }

/-! ### Read methods (`part_000`) -/

/-- `hasNode` (part_000 l.166): key present in the Node Table.  Map mode and
object mode perform the same membership test in this model. -/
def hasNode (g : Graph) (node : String) : Bool :=
  (alookup g.nodes node).isSome

/-- Arity-1 `hasEdge` (part_000 l.419): key present in the Edge Table. -/
def hasEdgeKey (g : Graph) (edge : String) : Bool :=
  (alookup g.edges edge).isSome

/-- Arity-1 `hasDirectedEdge` (part_000 l.303).  The source reads
`this.map ? this._edges.has(edge) : edge in this._edges && this.directed(edge)`;
by JS precedence the conditional's third operand is the whole conjunction, so
in map mode only membership is tested and the `directed` check is skipped. -/
def hasDirectedEdgeK (g : Graph) (edge : String) : Bool :=
  if g.map then (alookup g.edges edge).isSome
  else
    match alookup g.edges edge with
    | some d => !d.undirected
    | none => false

/-- Arity-1 `hasUndirectedEdge` (part_000 l.358), with the same precedence
shape as `hasDirectedEdgeK`. -/
def hasUndirectedEdgeK (g : Graph) (edge : String) : Bool :=
  if g.map then (alookup g.edges edge).isSome
  else
    match alookup g.edges edge with
    | some d => d.undirected
    | none => false

/-! ### Structure index (`src/src/indices.js`) -/

/-- `Set#add` on the arena entry at handle `h` (JS sets keep insertion order
and ignore re-added members).  A `simple` entry is left unchanged: JS would
throw calling `.add` on an edge record, but every entry of a multi graph is a
`Set`, so this branch is unreachable from the call sites. -/
def heapAdd (heap : List (Nat × EntryVal)) (h : Nat) (k : String) :
    List (Nat × EntryVal) :=
  match alookup heap h with
  | some (EntryVal.multi s) => aput heap h (EntryVal.multi (if k ∈ s then s else s ++ [k]))
  | _ => heap

/-- Write handle `h` into the target node's `in`/`undirected` slot under the
source key, only if that slot has no entry for the key yet (indices.js
l.49-50). -/
def mirrorIfAbsent (g : Graph) (undirected : Bool) (source target : String)
    (h : Nat) : Graph :=
  match alookup g.nodes target with
  | none => g
  | some td =>
      let inslot := if undirected then td.undirected else td.«in»
      if (alookup inslot source).isSome then g
      else
        let td' :=
          if undirected then { td with undirected := aput td.undirected source h }
          else { td with «in» := aput td.«in» source h }
        { g with nodes := aput g.nodes target td' }

/-- `updateStructureIndex` (indices.js l.18-51).  Looks up the source's
`out`/`undirected` entry for the target; if absent allocates it (`new Set()`
in multi mode, the edge record itself in simple mode) and in multi mode adds
the edge to the set; for a self-loop stops there; otherwise stores the very
same entry on the target side if absent. -/
def updateStructureIndex (g : Graph) (undirected : Bool) (edgeKey : String)
    (source target : String) : Graph :=
  match alookup g.nodes source with
  | none => g
  | some sd =>
      let slot := if undirected then sd.undirected else sd.out
      match alookup slot target with
      | some h =>
          let g1 := if g.multi then { g with heap := heapAdd g.heap h edgeKey } else g
          if source = target then g1
          else mirrorIfAbsent g1 undirected source target h
      | none =>
          let h := g.nextRef
          let entry := if g.multi then EntryVal.multi [edgeKey]
                       else EntryVal.simple edgeKey
          let sd' :=
            if undirected then { sd with undirected := aput sd.undirected target h }
            else { sd with out := aput sd.out target h }
          let g1 := { g with nodes := aput g.nodes source sd',
                             heap := aput g.heap h entry,
                             nextRef := g.nextRef + 1 }
          if source = target then g1
          else mirrorIfAbsent g1 undirected source target h

/-- The `delete targetData[inKey][source]` step of
`clearEdgeFromStructureIndex`: erase the source key from the target's
`in`/`undirected` slot (looked up in the current state, since the JS object
mutated is the one held by the Node Table). -/
def deleteInSide (g : Graph) (undirected : Bool) (source target : String) :
    Graph :=
  match alookup g.nodes target with
  | none => g
  | some td =>
      { g with nodes := (aput g.nodes target
          (if undirected then { td with undirected := aerase td.undirected source }
           else { td with «in» := aerase td.«in» source })) }

/-- The `if (target in sourceIndex) { ... }` block of
`clearEdgeFromStructureIndex` (indices.js l.74-89): in multi mode delete
both sides when the set has one member, else just remove the edge from the
set; in simple mode delete the source-side entry outright. -/
def clearEdgeSourceSide (g : Graph) (undirected : Bool)
    (edgeKey source target : String) : Graph :=
  match alookup g.nodes source with
  | none => g
  | some sd =>
      match alookup (if undirected then sd.undirected else sd.out) target with
      | none => g
      | some h =>
          if g.multi then
            match alookup g.heap h with
            | some (EntryVal.multi s) =>
                if s.length = 1 then
                  deleteInSide
                    { g with nodes := (aput g.nodes source
                        (if undirected then { sd with undirected := aerase sd.undirected target }
                         else { sd with out := aerase sd.out target })) }
                    undirected source target
                else
                  { g with heap := aput g.heap h (EntryVal.multi (s.erase edgeKey)) }
            | _ => g
          else
            { g with nodes := (aput g.nodes source
                (if undirected then { sd with undirected := aerase sd.undirected target }
                 else { sd with out := aerase sd.out target })) }

/-- `clearEdgeFromStructureIndex` (indices.js l.59-97).  The edge record of
this indices.js version stores node-data references; `part_000` edge records
store the keys, and only the keys (`sourceData.key`, `targetData.key`) and
the slot objects are used, so the function is parameterized by the keys.
After the source-side block, multi mode returns (the set is shared, one side
suffices); simple mode unconditionally deletes the mirrored target-side
entry. -/
def clearEdgeFromStructureIndex (g : Graph) (undirected : Bool)
    (edgeKey source target : String) : Graph :=
  if g.multi then clearEdgeSourceSide g undirected edgeKey source target
  else deleteInSide (clearEdgeSourceSide g undirected edgeKey source target)
    undirected source target

/-- `clearStructureIndex` (indices.js l.104-117): reset every node's
adjacency maps to empty. -/
def clearStructureIndex (g : Graph) : Graph :=
  { g with nodes := g.nodes.map (fun p =>
      (p.1, { p.2 with out := [], «in» := [], undirected := [] })) }

/-! ### Index driver methods (`part_000`) -/

/-- `_updateIndex` for the `structure` index (part_000 l.1541-1557): no-op
unless the index is computed, else delegate to `updateStructureIndex`.
Modelled from the spec: the version of `_updateIndex` in `part_000` passes
`(graph, edge, data)` while the `updateStructureIndex` kept in `src` takes
`(graph, undirected, edgeData, source, target, sourceData, targetData)`; the
matching caller is not among the sources, so the argument adaptation follows
the spec's `updateOnAdd(edgeKey, edgeRecord)` description (§4.2), which reads
`undirected`, `source` and `target` off the edge record. -/
def updateIndex (g : Graph) (edgeKey : String) (d : EdgeData) : Graph :=
  if !g.structureComputed then g
  else updateStructureIndex g d.undirected edgeKey d.source d.target

/-- `_clearEdgeFromIndex` for the `structure` index (part_000 l.1569-1583),
with the same argument adaptation as `updateIndex`. -/
def clearEdgeFromIndex (g : Graph) (edgeKey : String) (d : EdgeData) : Graph :=
  if !g.structureComputed then g
  else clearEdgeFromStructureIndex g d.undirected edgeKey d.source d.target

/-- `computeIndex('structure')` (part_000 l.1507-1530): idempotent; otherwise
set `computed` and push every Edge Table record through the incremental
updater. -/
def computeIndex (g : Graph) : Graph :=
  if g.structureComputed then g
  else
    let g0 := { g with structureComputed := true }
    g.edges.foldl (fun acc p => updateIndex acc p.1 p.2) g0

/-- `clearIndex('structure')` (part_000 l.1593-1608): no-op if not computed;
else empty all adjacency maps and reset the flag. -/
def clearIndex (g : Graph) : Graph :=
  if !g.structureComputed then g
  else { clearStructureIndex g with structureComputed := false }

/-! ### Pair-form existence queries

Modelled from the spec: the pair-form `hasDirectedEdge`/`hasUndirectedEdge`
bodies in `part_000` predate the index layout of `src/src/indices.js` (they
read `undirectedOut`/`undirectedIn` slots and assume set-valued entries,
which that indices.js version never writes), and the matching newer graph
file is not among the sources.  Per the spec (§4.2-§4.3) the pair form
"forces `computeIndex()` then does an O(1) index lookup, returning false if
either node is absent": the lookup consults the source node's `out`
(resp. `undirected`) slot for the target and reports a non-empty entry —
the shape `part_000` uses for its directed lookup (`register = nodeData.out`,
`!!edges.size`). -/

/-- A present adjacency entry is non-empty (`!!edges.size` on a set; a bare
edge record in simple mode stands for exactly that one edge). -/
def entryNonEmpty (g : Graph) (h : Nat) : Bool :=
  match alookup g.heap h with
  | some (EntryVal.simple _) => true
  | some (EntryVal.multi s) => !s.isEmpty
  | none => false

/-- Modelled from the spec: pair-form `hasDirectedEdge(source, target)` —
compute the index, return false if either node is absent, else test the
source's `out` entry for the target.  Returns the (possibly just
materialized) graph together with the answer. -/
def hasDirectedEdgeP (g : Graph) (source target : String) : Graph × Bool :=
  let g' := computeIndex g
  match alookup g'.nodes source, alookup g'.nodes target with
  | some sd, some _ =>
      (g', match alookup sd.out target with
           | some h => entryNonEmpty g' h
           | none => false)
  | _, _ => (g', false)

/-- Modelled from the spec: pair-form `hasUndirectedEdge(source, target)`,
looking in the source's `undirected` slot (the index mirrors each
non-self-loop undirected edge on both endpoints, so one side suffices). -/
def hasUndirectedEdgeP (g : Graph) (source target : String) : Graph × Bool :=
  let g' := computeIndex g
  match alookup g'.nodes source, alookup g'.nodes target with
  | some sd, some _ =>
      (g', match alookup sd.undirected target with
           | some h => entryNonEmpty g' h
           | none => false)
  | _, _ => (g', false)

/-! ### Degree queries (`part_000` l.446-553) -/

/-- `inDegree(node, selfLoops = true)`: `InvalidArgument` if the flag is not
boolean, `NotFound` if the node is absent, else
`data.inDegree + (selfLoops ? data.selfLoops : 0)` with JS addition. -/
def inDegreeQ (g : Graph) (node : String) (selfLoops : BoolArg) :
    Except GErr (Option Int) :=
  match selfLoops with
  | BoolArg.nonBool => Except.error GErr.invalidArguments
  | BoolArg.bool b =>
      match alookup g.nodes node with
      | none => Except.error GErr.notFound
      | some d => Except.ok (jsAdd d.inDegree (some (if b then d.selfLoops else 0)))

/-- `outDegree(node, selfLoops = true)`. -/
def outDegreeQ (g : Graph) (node : String) (selfLoops : BoolArg) :
    Except GErr (Option Int) :=
  match selfLoops with
  | BoolArg.nonBool => Except.error GErr.invalidArguments
  | BoolArg.bool b =>
      match alookup g.nodes node with
      | none => Except.error GErr.notFound
      | some d => Except.ok (jsAdd d.outDegree (some (if b then d.selfLoops else 0)))

/-- `directedDegree(node, selfLoops = true)`:
`data.outDegree + data.inDegree + (selfLoops ? data.selfLoops : 0)`. -/
def directedDegreeQ (g : Graph) (node : String) (selfLoops : BoolArg) :
    Except GErr (Option Int) :=
  match selfLoops with
  | BoolArg.nonBool => Except.error GErr.invalidArguments
  | BoolArg.bool b =>
      match alookup g.nodes node with
      | none => Except.error GErr.notFound
      | some d =>
          Except.ok (jsAdd (jsAdd d.outDegree d.inDegree)
            (some (if b then d.selfLoops else 0)))

/-- `undirectedDegree(node, selfLoops = true)`:
`data.undirectedDegree + (selfLoops ? data.selfLoops : 0)`. -/
def undirectedDegreeQ (g : Graph) (node : String) (selfLoops : BoolArg) :
    Except GErr (Option Int) :=
  match selfLoops with
  | BoolArg.nonBool => Except.error GErr.invalidArguments
  | BoolArg.bool b =>
      match alookup g.nodes node with
      | none => Except.error GErr.notFound
      | some d =>
          Except.ok (jsAdd d.undirectedDegree (some (if b then d.selfLoops else 0)))

/-- `degree(node, selfLoops = true)`:
`data.outDegree + data.inDegree + data.undirectedDegree +
(selfLoops ? data.selfLoops : 0)`. -/
def degreeQ (g : Graph) (node : String) (selfLoops : BoolArg) :
    Except GErr (Option Int) :=
  match selfLoops with
  | BoolArg.nonBool => Except.error GErr.invalidArguments
  | BoolArg.bool b =>
      match alookup g.nodes node with
      | none => Except.error GErr.notFound
      | some d =>
          Except.ok (jsAdd (jsAdd (jsAdd d.outDegree d.inDegree) d.undirectedDegree)
            (some (if b then d.selfLoops else 0)))

/-! ### Mutation engine (`part_000`) -/

/-- The attribute-container contents the add operations copy:
`assign({}, attributes)` — the argument's entries at call time, `[]` when the
argument is omitted or its reference is dangling. -/
def attrContents (g : Graph) : AttrArg → List (String × String)
  | AttrArg.missing => []
  | AttrArg.invalid => []
  | AttrArg.obj r => (alookup g.attrHeap r).getD []

/-- `addNode(node, attributes)` (part_000 l.678-711).  Fails
`InvalidArgument` on a non-object attributes argument and `Usage` on a
duplicate key; otherwise copies the attributes into a fresh container,
creates the record with the degree fields selected by the graph type, stores
it and increments `order`.  Returns the post-state and the error, if any
(on an error the graph is returned unchanged, as the source throws before
mutating). -/
def addNode (g : Graph) (node : String) (attributes : AttrArg) :
    Graph × Option GErr :=
  if attributes = AttrArg.invalid then (g, some GErr.invalidArguments)
  else if hasNode g node then (g, some GErr.usage)
  else
    let h := g.nextRef
    let data : NodeData :=
      { attributes := h
        selfLoops := 0
        inDegree := if g.type = GType.mixed ∨ g.type = GType.directed then some 0 else none
        outDegree := if g.type = GType.mixed ∨ g.type = GType.directed then some 0 else none
        undirectedDegree :=
          if g.type = GType.mixed ∨ g.type = GType.undirected then some 0 else none
        out := [], «in» := [], undirected := [] }
    ({ g with attrHeap := aput g.attrHeap h (attrContents g attributes)
              nextRef := g.nextRef + 1
              nodes := aput g.nodes node data
              order := g.order + 1 }, none)

/-- Increment a possibly-absent counter (`undefined++` would store `NaN`,
which this model conflates with absence). -/
def incOpt (o : Option Int) : Option Int := o.map (· + 1)

/-- Decrement a possibly-absent counter. -/
def decOpt (o : Option Int) : Option Int := o.map (· - 1)

/-- `sourceData.selfLoops += delta` (the self-loop branch of the counter
updates; `delta` is `1` on add and `-1` on drop). -/
def bumpSelf (g : Graph) (delta : Int) (node : String) : Graph :=
  match alookup g.nodes node with
  | none => g
  | some sd =>
      { g with nodes := aput g.nodes node { sd with selfLoops := sd.selfLoops + delta } }

/-- `sourceData.undirectedDegree++` / `sourceData.outDegree++`. -/
def bumpSourceAdd (g : Graph) (undirected : Bool) (source : String) : Graph :=
  match alookup g.nodes source with
  | none => g
  | some sd =>
      { g with nodes := (aput g.nodes source
          (if undirected then { sd with undirectedDegree := incOpt sd.undirectedDegree }
           else { sd with outDegree := incOpt sd.outDegree })) }

/-- `targetData.undirectedDegree++` / `targetData.inDegree++`. -/
def bumpTargetAdd (g : Graph) (undirected : Bool) (target : String) : Graph :=
  match alookup g.nodes target with
  | none => g
  | some td =>
      { g with nodes := (aput g.nodes target
          (if undirected then { td with undirectedDegree := incOpt td.undirectedDegree }
           else { td with inDegree := incOpt td.inDegree })) }

/-- `sourceData.undirectedDegree--` / `sourceData.outDegree--`. -/
def bumpSourceDrop (g : Graph) (undirected : Bool) (source : String) : Graph :=
  match alookup g.nodes source with
  | none => g
  | some sd =>
      { g with nodes := (aput g.nodes source
          (if undirected then { sd with undirectedDegree := decOpt sd.undirectedDegree }
           else { sd with outDegree := decOpt sd.outDegree })) }

/-- `targetData.undirectedDegree--` / `targetData.inDegree--`. -/
def bumpTargetDrop (g : Graph) (undirected : Bool) (target : String) : Graph :=
  match alookup g.nodes target with
  | none => g
  | some td =>
      { g with nodes := (aput g.nodes target
          (if undirected then { td with undirectedDegree := decOpt td.undirectedDegree }
           else { td with inDegree := decOpt td.inDegree })) }

/-- The node-counter updates of `_addEdge` (part_000 l.800-816): self-loops
bump `selfLoops` on the shared node, otherwise the kind-appropriate degree
pair (source side first, each read from the current state, matching the JS
object mutations). -/
def bumpDegreesAdd (g : Graph) (undirected : Bool) (source target : String) :
    Graph :=
  if source = target then bumpSelf g 1 source
  else bumpTargetAdd (bumpSourceAdd g undirected source) undirected target

/-- The counter updates of `dropEdge` (part_000 l.1029-1041). -/
def bumpDegreesDrop (g : Graph) (undirected : Bool) (source target : String) :
    Graph :=
  if source = target then bumpSelf g (-1) source
  else bumpTargetDrop (bumpSourceDrop g undirected source) undirected target

/-- The pure checks of `_addEdge` (part_000 l.750-769), in source order:
kind vs graph type (`Usage`), attributes (`InvalidArgument`), endpoints
(`NotFound`), duplicate edge key (`Usage`), self-loop policy (`Usage`).
None of these touches the state. -/
def addEdgePrecheck (g : Graph) (undirected : Bool) (edge source target : String)
    (attributes : AttrArg) : Option GErr :=
  if !undirected ∧ g.type = GType.undirected then some GErr.usage
  else if undirected ∧ g.type = GType.directed then some GErr.usage
  else if attributes = AttrArg.invalid then some GErr.invalidArguments
  else if !hasNode g source then some GErr.notFound
  else if !hasNode g target then some GErr.notFound
  else if hasEdgeKey g edge then some GErr.usage
  else if !g.allowSelfLoops ∧ source = target then some GErr.usage
  else none

/-- The committing tail of `_addEdge` (part_000 l.781-821): copy the
attributes into a fresh container, store the edge record, increment `size`,
bump the counters and push the edge into the index (a no-op when the index is
not materialized). -/
def addEdgeCommit (g : Graph) (undirected : Bool) (edge source target : String)
    (attributes : AttrArg) : Graph :=
  let h := g.nextRef
  let g2 := { g with attrHeap := aput g.attrHeap h (attrContents g attributes)
                     nextRef := g.nextRef + 1 }
  let data : EdgeData :=
    { undirected := undirected, attributes := h, source := source, target := target }
  let g3 := { g2 with edges := aput g2.edges edge data, size := g2.size + 1 }
  let g4 := bumpDegreesAdd g3 undirected source target
  updateIndex g4 edge data

/-- `_addEdge` (part_000 l.748-822).  After the pure checks, and only when
`multi` is false, the same-kind duplicate check runs through the pair-form
existence query, which computes the structure index on demand; a failure
there returns the graph with the index materialized, exactly as the JS throw
leaves it.  On success the commit tail runs on that state. -/
def addEdgeCore (g : Graph) (undirected : Bool) (edge source target : String)
    (attributes : AttrArg) : Graph × Option GErr :=
  match addEdgePrecheck g undirected edge source target attributes with
  | some e => (g, some e)
  | none =>
      let checked : Graph × Bool :=
        if g.multi then (g, false)
        else if undirected then hasUndirectedEdgeP g source target
        else hasDirectedEdgeP g source target
      if checked.2 then (checked.1, some GErr.usage)
      else (addEdgeCommit checked.1 undirected edge source target attributes, none)

/-- `addEdgeWithKey` (part_000 l.834): kind is the graph type's
(`undirected` exactly for undirected-only graphs). -/
def addEdgeWithKey (g : Graph) (edge source target : String) (a : AttrArg) :
    Graph × Option GErr :=
  addEdgeCore g (g.type = GType.undirected) edge source target a

/-- `addDirectedEdgeWithKey` (part_000 l.854). -/
def addDirectedEdgeWithKey (g : Graph) (edge source target : String) (a : AttrArg) :
    Graph × Option GErr :=
  addEdgeCore g false edge source target a

/-- `addUndirectedEdgeWithKey` (part_000 l.874). -/
def addUndirectedEdgeWithKey (g : Graph) (edge source target : String) (a : AttrArg) :
    Graph × Option GErr :=
  addEdgeCore g true edge source target a

/-- The injected edge-key generator: `(isUndirected, source, target,
attributes) -> edgeKey`. -/
def KeyGen : Type := Bool → String → String → AttrArg → String

/-- `addEdge` (part_000 l.895-911): generates a key with
`edgeKeyGenerator(this.type === 'undirected', source, target, attributes)`
and follows the explicit-key path. -/
def addEdgeAuto (gen : KeyGen) (g : Graph) (source target : String) (a : AttrArg) :
    Graph × Option GErr :=
  let edge := gen (g.type = GType.undirected) source target a
  addEdgeCore g (g.type = GType.undirected) edge source target a

/-- `addDirectedEdge` (part_000 l.922-940): generator is called with
`false`. -/
def addDirectedEdgeAuto (gen : KeyGen) (g : Graph) (source target : String)
    (a : AttrArg) : Graph × Option GErr :=
  let edge := gen false source target a
  addEdgeCore g false edge source target a

/-- `addUndirectedEdge` (part_000 l.951-969): the source calls the generator
with `false` as its first argument (l.954-959) even though the edge being
added is undirected. -/
def addUndirectedEdgeAuto (gen : KeyGen) (g : Graph) (source target : String)
    (a : AttrArg) : Graph × Option GErr :=
  let edge := gen false source target a
  addEdgeCore g true edge source target a

/-- `dropEdge` (part_000 l.1008-1047): `NotFound` if absent; else remove the
record, decrement `size`, adjust the counters and clear the index entry. -/
def dropEdge (g : Graph) (edge : String) : Graph × Option GErr :=
  match alookup g.edges edge with
  | none => (g, some GErr.notFound)
  | some data =>
      let g1 := { g with edges := aerase g.edges edge, size := g.size - 1 }
      let g2 := bumpDegreesDrop g1 data.undirected data.source data.target
      (clearEdgeFromIndex g2 edge data, none)

/-- Modelled from the spec: `this.edges(node)` in `dropNode` comes from the
edge-iteration module (`./iteration/edges`, not among the sources).  Per the
spec (§4.3) `dropNode` drops "every edge incident to the node"; this
enumerates, in Edge Table order, the keys of edges having the node as source
or target. -/
def incidentEdges (g : Graph) (node : String) : List String :=
  (g.edges.filter (fun p => p.2.source = node ∨ p.2.target = node)).map Prod.fst

/-- `dropNode` (part_000 l.979-998): `NotFound` if absent; else drop each
incident edge through `dropEdge`, remove the record and decrement `order`. -/
def dropNode (g : Graph) (node : String) : Graph × Option GErr :=
  if !hasNode g node then (g, some GErr.notFound)
  else
    let g1 := (incidentEdges g node).foldl (fun acc e => (dropEdge acc e).1) g
    ({ g1 with nodes := aerase g1.nodes node, order := g1.order - 1 }, none)

/-- `clear` (part_000 l.1110-1126): empty both tables, reset the counters,
mark every index uncomputed. -/
def clearGraph (g : Graph) : Graph :=
  { g with edges := [], nodes := [], order := 0, size := 0,
           structureComputed := false }

/-- Modelled from the spec: an external collaborator (an attribute helper,
outside the core) mutating the attribute container referenced by `r` —
used to express that stored containers are unaffected by later writes to the
caller's object. -/
def setAttrRef (g : Graph) (r : Nat) (k v : String) : Graph :=
  match alookup g.attrHeap r with
  | none => g
  | some m => { g with attrHeap := aput g.attrHeap r (aput m k v) }

/-! ### `upgradeStructureIndexToMulti` (indices.js l.124-151) -/

/-- Wrap a simple entry into a fresh singleton set (`new Set();
edges.add(entry)`).  On an already-multi entry the source would create a set
nesting the previous set object — outside the function's contract of
upgrading a *simple* index and unreachable in the claims; the previous set is
kept. -/
def wrapEntry : EntryVal → EntryVal
  | EntryVal.simple e => EntryVal.multi [e]
  | EntryVal.multi s => EntryVal.multi s

/-- One step of the directed loop of `upgradeStructureIndexToMulti`: wrap
`node.out[neighbor]` into a fresh set and store the same set in
`neighbor.in[node]`. -/
def upgradeOutAt (node neighbor : String) (g : Graph) : Graph :=
  match alookup g.nodes node with
  | none => g
  | some d =>
      match alookup d.out neighbor with
      | none => g
      | some h =>
          let old := (alookup g.heap h).getD (EntryVal.multi [])
          let h' := g.nextRef
          let g1 := { g with heap := aput g.heap h' (wrapEntry old)
                             nextRef := g.nextRef + 1
                             nodes := aput g.nodes node { d with out := aput d.out neighbor h' } }
          match alookup g1.nodes neighbor with
          | none => g1
          | some nd =>
              { g1 with nodes := aput g1.nodes neighbor { nd with «in» := aput nd.«in» node h' } }

/-- Lexicographic comparison of character lists (JS string `<`/`>` compares
code units left to right, shorter prefix first). -/
def charListLt : List Char → List Char → Bool
  | [], [] => false
  | [], _ :: _ => true
  | _ :: _, [] => false
  | c :: cs, d :: ds => if c < d then true else if d < c then false else charListLt cs ds

/-- JS string comparison `a < b`. -/
def jsStrLt (a b : String) : Bool := charListLt a.data b.data

/-- One step of the undirected loop: skipped when `neighbor > node` (JS
string comparison; the pair is processed only from the side where the
neighbour does not exceed the node), else wrap the shared entry and
re-establish it on both endpoints. -/
def upgradeUndAt (node neighbor : String) (g : Graph) : Graph :=
  if jsStrLt node neighbor then g
  else
    match alookup g.nodes node with
    | none => g
    | some d =>
        match alookup d.undirected neighbor with
        | none => g
        | some h =>
            let old := (alookup g.heap h).getD (EntryVal.multi [])
            let h' := g.nextRef
            let g1 := { g with heap := aput g.heap h' (wrapEntry old)
                               nextRef := g.nextRef + 1
                               nodes := (aput g.nodes node
                                 { d with undirected := aput d.undirected neighbor h' }) }
            match alookup g1.nodes neighbor with
            | none => g1
            | some nd =>
                { g1 with nodes := (aput g1.nodes neighbor
                    { nd with undirected := aput nd.undirected node h' }) }

/-- The per-node body of `upgradeStructureIndexToMulti`: iterate the `out`
keys, then the `undirected` keys (key sets captured at loop start; the
bodies never add or remove keys on the slot being iterated). -/
def upgradeNode (g : Graph) (node : String) : Graph :=
  let gOut :=
    match alookup g.nodes node with
    | none => g
    | some d => (d.out.map Prod.fst).foldl (fun acc nb => upgradeOutAt node nb acc) g
  match alookup gOut.nodes node with
  | none => gOut
  | some d =>
      (d.undirected.map Prod.fst).foldl (fun acc nb => upgradeUndAt node nb acc) gOut

/-- `upgradeStructureIndexToMulti` (indices.js l.124-151): per-node upgrade
over the Node Table in insertion order. -/
def upgradeStructureIndexToMulti (g : Graph) : Graph :=
  (g.nodes.map Prod.fst).foldl upgradeNode g

/-! ### Invariants and reachable states -/

/-- The C4 counters invariant: `order` and `size` track the number of keys
live in the Node and Edge Tables. -/
def CountsOk (g : Graph) : Prop :=
  g.order = (g.nodes.length : Int) ∧ g.size = (g.edges.length : Int)

/-- Everything a structure-index manipulation leaves untouched: the options,
both tables' contents where relevant (the Edge Table entirely, the Node
Table's key sequence), the counters and the attribute arena; the allocation
counter may only grow. -/
structure SameShape (g g' : Graph) : Prop where
  type : g'.type = g.type
  multi : g'.multi = g.multi
  allowSelfLoops : g'.allowSelfLoops = g.allowSelfLoops
  map : g'.map = g.map
  edges : g'.edges = g.edges
  order : g'.order = g.order
  size : g'.size = g.size
  attrHeap : g'.attrHeap = g.attrHeap
  nodesKeys : g'.nodes.map Prod.fst = g.nodes.map Prod.fst
  nextRefLe : g.nextRef ≤ g'.nextRef

/-- Graph states reachable from a fresh `Graph` instance through the public
mutation operations.  The key-less add variants factor through `addEdgeCore`
with an arbitrary key (the generator's output is just a key), so they are
covered by the `addEdge` constructor. -/
inductive Reachable : Graph → Prop
  | empty (t : GType) (m sl mp : Bool) : Reachable (emptyGraph t m sl mp)
  | addNode {g : Graph} (n : String) (a : AttrArg) :
      Reachable g → Reachable (addNode g n a).1
  | addEdge {g : Graph} (u : Bool) (k s t : String) (a : AttrArg) :
      Reachable g → Reachable (addEdgeCore g u k s t a).1
  | dropEdge {g : Graph} (k : String) :
      Reachable g → Reachable (dropEdge g k).1
  | dropNode {g : Graph} (n : String) :
      Reachable g → Reachable (dropNode g n).1
  | clear {g : Graph} : Reachable g → Reachable (clearGraph g)
  | computeIdx {g : Graph} : Reachable g → Reachable (computeIndex g)
  | clearIdx {g : Graph} : Reachable g → Reachable (clearIndex g)

/-- The keys of the edge-list entries satisfying `P`, in table order. -/
def fKeys (P : String × EdgeData → Bool) (E : List (String × EdgeData)) :
    List String :=
  (E.filter P).map Prod.fst

/-- The entry is a directed edge from `A` to `B`. -/
def dPred (A B : String) (q : String × EdgeData) : Bool :=
  decide (q.2.undirected = false ∧ q.2.source = A ∧ q.2.target = B)

/-- The entry is an undirected edge between `A` and `B` (either
orientation). -/
def uPred (A B : String) (q : String × EdgeData) : Bool :=
  decide (q.2.undirected = true ∧
    ((q.2.source = A ∧ q.2.target = B) ∨ (q.2.source = B ∧ q.2.target = A)))

/-- The directed edges from `A` to `B` (keys, in Edge Table order), drawn
from an arbitrary edge list. -/
def dKeys (E : List (String × EdgeData)) (A B : String) : List String :=
  fKeys (dPred A B) E

/-- The undirected edges between `A` and `B` (either orientation). -/
def uKeys (E : List (String × EdgeData)) (A B : String) : List String :=
  fKeys (uPred A B) E

/-- Correctness of one adjacency entry against the list `es` of edge keys it
must represent: an absent entry means no such edges; a present handle leads
to a live heap value of the representation dictated by the `multi` option
whose members are exactly `es`. -/
def entryOk (multi : Bool) (heap : List (Nat × EntryVal)) (o : Option Nat)
    (es : List String) : Prop :=
  match o with
  | none => es = []
  | some h =>
      es ≠ [] ∧
      match alookup heap h with
      | some (EntryVal.simple e) => multi = false ∧ ∀ k, k ∈ es ↔ k = e
      | some (EntryVal.multi s) => multi = true ∧ s.Nodup ∧ ∀ k, k ∈ s ↔ k ∈ es
      | none => False

/-- Full correctness of the materialized structure index against the edge
list `E`: every node's `out` and `undirected` entries represent exactly the
edges of `E` for the pair, the `in` slot mirrors the other endpoint's `out`
entry (and is empty at the node's own key: a directed self-loop has no
mirrored side), and the `undirected` slots of two distinct nodes alias the
very same handle. -/
def IndexOkOn (g : Graph) (E : List (String × EdgeData)) : Prop :=
  ∀ A dA, alookup g.nodes A = some dA →
    (∀ B, entryOk g.multi g.heap (alookup dA.out B) (dKeys E A B)) ∧
    (∀ B, entryOk g.multi g.heap (alookup dA.undirected B) (uKeys E A B)) ∧
    (∀ B, alookup dA.«in» B =
      (if B = A then none
       else
         match alookup g.nodes B with
         | some dB => alookup dB.out A
         | none => none)) ∧
    (∀ B, B ≠ A →
      alookup dA.undirected B =
        (match alookup g.nodes B with
         | some dB => alookup dB.undirected A
         | none => none))

/-- The structure index in its dormant state: every adjacency map empty. -/
def SlotsEmpty (g : Graph) : Prop :=
  ∀ A dA, alookup g.nodes A = some dA →
    dA.out = [] ∧ dA.«in» = [] ∧ dA.undirected = []

/-- Handle `h` is the directed adjacency entry from `A` to `B`. -/
def OwnerD (g : Graph) (h : Nat) (A B : String) : Prop :=
  ∃ dA, alookup g.nodes A = some dA ∧ alookup dA.out B = some h

/-- Handle `h` is the undirected adjacency entry stored on `A`'s side for
`B`. -/
def OwnerU (g : Graph) (h : Nat) (A B : String) : Prop :=
  ∃ dA, alookup g.nodes A = some dA ∧ alookup dA.undirected B = some h

/-- Each heap handle belongs to a single logical adjacency entry: a directed
pair owns its handle exclusively, an undirected entry is owned by one
unordered pair (visible from both endpoints), and the two kinds never share
a handle.  (`in` slots are not tracked separately: the mirror clause of
`IndexOkOn` pins them to the other endpoint's `out` entry.) -/
def HandleSep (g : Graph) : Prop :=
  (∀ h A B A' B', OwnerD g h A B → OwnerD g h A' B' → A = A' ∧ B = B') ∧
  (∀ h A B A' B', OwnerU g h A B → OwnerU g h A' B' →
    (A = A' ∧ B = B') ∨ (A = B' ∧ B = A')) ∧
  (∀ h A B A' B', OwnerD g h A B → OwnerU g h A' B' → False)

/-- The global invariant of reachable graphs: distinct table keys, distinct
slot keys, edge endpoints resolve to live nodes, heap handles are below the
allocation counter, handles are not shared between distinct logical entries,
simple graphs never hold two same-kind edges on a pair, and the structure
index is either dormant and empty or correct for the current Edge Table. -/
def GInv (g : Graph) : Prop :=
  keysND g.nodes ∧ keysND g.edges ∧
  (∀ k e, alookup g.edges k = some e →
    (alookup g.nodes e.source).isSome ∧ (alookup g.nodes e.target).isSome) ∧
  (∀ A dA, alookup g.nodes A = some dA →
    keysND dA.out ∧ keysND dA.«in» ∧ keysND dA.undirected) ∧
  (∀ h, (alookup g.heap h).isSome → h < g.nextRef) ∧
  HandleSep g ∧
  (g.multi = false → ∀ A B,
    (dKeys g.edges A B).length ≤ 1 ∧ (uKeys g.edges A B).length ≤ 1) ∧
  (if g.structureComputed then IndexOkOn g g.edges else SlotsEmpty g)

/-- The index-related portion of the invariant, relative to an accounted
edge list `E` (during `computeIndex` the accounted list is the processed
prefix; in steady state it is the Edge Table). -/
def IdxInv (g : Graph) (E : List (String × EdgeData)) : Prop :=
  keysND g.nodes ∧
  (∀ A dA, alookup g.nodes A = some dA →
    keysND dA.out ∧ keysND dA.«in» ∧ keysND dA.undirected) ∧
  (∀ h, (alookup g.heap h).isSome → h < g.nextRef) ∧
  HandleSep g ∧
  IndexOkOn g E

/-- `g'` differs from `g` only outside the structure index: same heap, same
`multi` flag, and every node key resolves to a record with the same three
adjacency slots (the counter updates of the mutation engine are of this
shape). -/
def SlotPreserving (g g' : Graph) : Prop :=
  g'.heap = g.heap ∧ g'.multi = g.multi ∧
  ∀ A, (alookup g'.nodes A).map NodeData.out = (alookup g.nodes A).map NodeData.out ∧
    (alookup g'.nodes A).map NodeData.«in» = (alookup g.nodes A).map NodeData.«in» ∧
    (alookup g'.nodes A).map NodeData.undirected =
      (alookup g.nodes A).map NodeData.undirected

/-- The allocation branch of `updateStructureIndex` (entry absent on the
source side): a fresh handle for the new entry (`new Set()` holding the edge
in multi mode, the edge record itself otherwise), stored in the source's
slot. -/
def updAlloc (g : Graph) (u : Bool) (k S T : String) (sd : NodeData) : Graph :=
  { g with nodes := (aput g.nodes S
             (if u then { sd with undirected := aput sd.undirected T g.nextRef }
              else { sd with out := aput sd.out T g.nextRef })),
           heap := (aput g.heap g.nextRef
             (if g.multi then EntryVal.multi [k] else EntryVal.simple k)),
           nextRef := g.nextRef + 1 }

/-- `updAlloc` specialized to a directed entry. -/
def updAllocD (g : Graph) (k S T : String) (sd : NodeData) : Graph :=
  { g with nodes := (aput g.nodes S { sd with out := aput sd.out T g.nextRef }),
           heap := (aput g.heap g.nextRef
             (if g.multi then EntryVal.multi [k] else EntryVal.simple k)),
           nextRef := g.nextRef + 1 }

/-- `updAlloc` specialized to an undirected entry. -/
def updAllocU (g : Graph) (k S T : String) (sd : NodeData) : Graph :=
  { g with nodes := (aput g.nodes S { sd with undirected := aput sd.undirected T g.nextRef }),
           heap := (aput g.heap g.nextRef
             (if g.multi then EntryVal.multi [k] else EntryVal.simple k)),
           nextRef := g.nextRef + 1 }

/-- The combined effect of the allocation branch followed by the mirroring
step on a distinct target (`mirrorIfAbsent` finding the target side empty):
the fresh handle is stored in the source node's `out` slot and in the target
node's `in` slot. -/
def updAllocDM (g : Graph) (k S T : String) (sd td : NodeData) : Graph :=
  { g with nodes := (aput (aput g.nodes S { sd with out := aput sd.out T g.nextRef })
             T { td with «in» := aput td.«in» S g.nextRef }),
           heap := (aput g.heap g.nextRef
             (if g.multi then EntryVal.multi [k] else EntryVal.simple k)),
           nextRef := g.nextRef + 1 }

/-- Undirected analogue of `updAllocDM`: the fresh shared handle is stored
in the `undirected` slot of both endpoints. -/
def updAllocUM (g : Graph) (k S T : String) (sd td : NodeData) : Graph :=
  { g with nodes := (aput (aput g.nodes S { sd with undirected := aput sd.undirected T g.nextRef })
             T { td with undirected := aput td.undirected S g.nextRef }),
           heap := (aput g.heap g.nextRef
             (if g.multi then EntryVal.multi [k] else EntryVal.simple k)),
           nextRef := g.nextRef + 1 }

/-! ### Concrete scenarios used by the claims -/

deriving instance DecidableEq for Except

/-- C2 scenario: `type=directed, multi=false, allowSelfLoops=false`. -/
def c2g0 : Graph := emptyGraph GType.directed false false false

/-- C2: after `addNode('a')`. -/
def c2s1 : Graph × Option GErr := addNode c2g0 "a" AttrArg.missing

/-- C2: after `addNode('b')`. -/
def c2s2 : Graph × Option GErr := addNode c2s1.1 "b" AttrArg.missing

/-- C2: `addDirectedEdgeWithKey('e1','a','b')`. -/
def c2s3 : Graph × Option GErr := addDirectedEdgeWithKey c2s2.1 "e1" "a" "b" AttrArg.missing

/-- C2: `addDirectedEdgeWithKey('e2','a','b')` (duplicate pair). -/
def c2s4 : Graph × Option GErr := addDirectedEdgeWithKey c2s3.1 "e2" "a" "b" AttrArg.missing

/-- C2: `addDirectedEdgeWithKey('e3','a','a')` (self-loop). -/
def c2s5 : Graph × Option GErr := addDirectedEdgeWithKey c2s4.1 "e3" "a" "a" AttrArg.missing

/-- C2: `dropNode('a')`. -/
def c2s6 : Graph × Option GErr := dropNode c2s5.1 "a"

/-- C5 counterexample state: a directed-only graph with one node, whose
record therefore has no `undirectedDegree` field. -/
def c5g : Graph := (addNode (emptyGraph GType.directed false false false) "a" AttrArg.missing).1

/-- C1 counterexample: a directed multi graph on `a`, `b`. -/
def c1g : Graph :=
  (addEdgeCore
    (addEdgeCore
      (addNode (addNode (emptyGraph GType.directed true true false) "a" AttrArg.missing).1
        "b" AttrArg.missing).1
      false "e1" "a" "b" AttrArg.missing).1
    false "e2" "a" "b" AttrArg.missing).1

/-- C6 counterexample pre-state: a simple directed graph holding edge `e1`
from `a` to `b` whose structure index has been cleared, so that the failing
duplicate add will re-materialize it. -/
def c6g : Graph := clearIndex c2s3.1

/-- C7 failing input: a map-mode mixed graph with one undirected edge `e`. -/
def c7g : Graph :=
  (addUndirectedEdgeWithKey
    (addNode (addNode (emptyGraph GType.mixed false true true) "a" AttrArg.missing).1
      "b" AttrArg.missing).1
    "e" "a" "b" AttrArg.missing).1

/-- The same graph in object mode, where the kind is validated. -/
def c7gObj : Graph :=
  (addUndirectedEdgeWithKey
    (addNode (addNode (emptyGraph GType.mixed false true false) "a" AttrArg.missing).1
      "b" AttrArg.missing).1
    "e" "a" "b" AttrArg.missing).1

/-- C9 probe generator: returns a key that records the `isUndirected`
argument it was given. -/
def c9gen : KeyGen := fun isUndirected _ _ _ => if isUndirected then "u" else "d"

/-- C9 base graph: mixed, nodes `a` and `b`. -/
def c9g : Graph :=
  (addNode (addNode (emptyGraph GType.mixed false true false) "a" AttrArg.missing).1
    "b" AttrArg.missing).1

/-- C10 witness base: a mixed graph with an attribute object `#0 = [(x, 1)]`
living in the arena as the caller's object. -/
def c10g : Graph :=
  { emptyGraph GType.mixed false true false with
      attrHeap := [(0, [("x", "1")])], nextRef := 1 }

/-- The kind-matching pair-form existence query for an edge record: the
undirected query for an undirected record, the directed one otherwise. -/
def matchKindQuery (g : Graph) (e : EdgeData) : Graph × Bool :=
  if e.undirected then hasUndirectedEdgeP g e.source e.target
  else hasDirectedEdgeP g e.source e.target

/-- The keys of the same-kind edges on the record's endpoint pair. -/
def matchKindKeys (E : List (String × EdgeData)) (e : EdgeData) : List String :=
  if e.undirected then uKeys E e.source e.target else dKeys E e.source e.target

/-- The handle stored in `n`'s `undirected` slot for `m`. -/
def undEntry (g : Graph) (n m : String) : Option Nat :=
  match alookup g.nodes n with
  | none => none
  | some d => alookup d.undirected m

/-- The handle stored in `n`'s `out` slot for `m`. -/
def outEntry (g : Graph) (n m : String) : Option Nat :=
  match alookup g.nodes n with
  | none => none
  | some d => alookup d.out m

/-- The handle stored in `n`'s `in` slot for `m`. -/
def inEntry (g : Graph) (n m : String) : Option Nat :=
  match alookup g.nodes n with
  | none => none
  | some d => alookup d.«in» m

/-- C8 scenario: a simple (`multi=false`) mixed graph on `a`, `b` with one
directed edge `d` and one undirected edge `u` between them, its structure
index computed. -/
def c8g : Graph :=
  computeIndex
    (addUndirectedEdgeWithKey
      (addDirectedEdgeWithKey
        (addNode (addNode (emptyGraph GType.mixed false true false) "a" AttrArg.missing).1
          "b" AttrArg.missing).1
        "d" "a" "b" AttrArg.missing).1
      "u" "a" "b" AttrArg.missing).1

/-! ## Theorems

### Association-list lemmas -/

@[simp] theorem alookup_nil {κ α : Type} [DecidableEq κ] (k : κ) :
    alookup ([] : List (κ × α)) k = none := rfl

@[simp] theorem alookup_cons {κ α : Type} [DecidableEq κ] (k k' : κ) (v : α)
    (l : List (κ × α)) :
    alookup ((k, v) :: l) k' = if k' = k then some v else alookup l k' := rfl

theorem alookup_isSome_iff_mem_keys {κ α : Type} [DecidableEq κ]
    (l : List (κ × α)) (k : κ) : (alookup l k).isSome ↔ k ∈ l.map Prod.fst := by
  induction l with
  | nil => simp [alookup]
  | cons p rest ih =>
      obtain ⟨a, b⟩ := p
      by_cases hk : k = a
      · subst hk; simp [alookup]
      · simp [alookup, hk, ih]

theorem mem_keys_of_alookup {κ α : Type} [DecidableEq κ] {l : List (κ × α)} {k : κ}
    {v : α} (h : alookup l k = some v) : k ∈ l.map Prod.fst :=
  (alookup_isSome_iff_mem_keys l k).mp (by simp [h])

theorem alookup_eq_none_of_not_mem {κ α : Type} [DecidableEq κ] {l : List (κ × α)}
    {k : κ} (h : k ∉ l.map Prod.fst) : alookup l k = none := by
  have := mt (alookup_isSome_iff_mem_keys l k).mp h
  simpa [Option.not_isSome_iff_eq_none] using this

theorem alookup_aput {κ α : Type} [DecidableEq κ] (l : List (κ × α)) (k : κ) (v : α)
    (k' : κ) :
    alookup (aput l k v) k' = if k' = k then some v else alookup l k' := by
  induction l with
  | nil => by_cases h : k' = k <;> simp [aput, alookup, h]
  | cons p rest ih =>
      obtain ⟨a, b⟩ := p
      by_cases hka : k = a
      · subst hka
        by_cases h : k' = k <;> simp [aput, alookup, h]
      · by_cases h : k' = a
        · subst h
          have hne : ¬ (k' = k) := fun hh => hka hh.symm
          simp [aput, hka, alookup, hne]
        · simp [aput, hka, alookup, h, ih]

theorem map_fst_aput {κ α : Type} [DecidableEq κ] (l : List (κ × α)) (k : κ) (v : α) :
    (aput l k v).map Prod.fst =
      if k ∈ l.map Prod.fst then l.map Prod.fst else l.map Prod.fst ++ [k] := by
  induction l with
  | nil => simp [aput]
  | cons p rest ih =>
      obtain ⟨a, b⟩ := p
      by_cases hka : k = a
      · subst hka; simp [aput]
      · simp only [aput, if_neg hka, List.map_cons, ih]
        by_cases hm : k ∈ rest.map Prod.fst <;> simp [hm, hka]

theorem keysND_aput {κ α : Type} [DecidableEq κ] {l : List (κ × α)}
    (hnd : keysND l) (k : κ) (v : α) : keysND (aput l k v) := by
  unfold keysND at *
  rw [map_fst_aput]
  by_cases hm : k ∈ l.map Prod.fst
  · simp only [if_pos hm]; exact hnd
  · simp only [hm, if_false]
    rw [List.nodup_append]
    exact ⟨hnd, List.nodup_singleton k, by simpa using hm⟩

theorem length_aput {κ α : Type} [DecidableEq κ] (l : List (κ × α)) (k : κ) (v : α) :
    (aput l k v).length =
      if (alookup l k).isSome then l.length else l.length + 1 := by
  induction l with
  | nil => simp [aput, alookup]
  | cons p rest ih =>
      obtain ⟨a, b⟩ := p
      by_cases hka : k = a
      · subst hka; simp [aput, alookup]
      · simp [aput, alookup, hka, ih]
        by_cases hs : (alookup rest k).isSome <;> simp [hs]

theorem map_fst_aerase_sublist {κ α : Type} [DecidableEq κ] (l : List (κ × α)) (k : κ) :
    ((aerase l k).map Prod.fst).Sublist (l.map Prod.fst) := by
  induction l with
  | nil => simp [aerase]
  | cons p rest ih =>
      obtain ⟨a, b⟩ := p
      by_cases hka : k = a
      · subst hka
        simp only [aerase, if_pos rfl]
        exact List.sublist_cons_self k (rest.map Prod.fst)
      · simpa [aerase, hka] using ih.cons₂ a

theorem keysND_aerase {κ α : Type} [DecidableEq κ] {l : List (κ × α)}
    (hnd : keysND l) (k : κ) : keysND (aerase l k) :=
  List.Nodup.sublist (map_fst_aerase_sublist l k) hnd

theorem alookup_aerase {κ α : Type} [DecidableEq κ] {l : List (κ × α)}
    (hnd : keysND l) (k k' : κ) :
    alookup (aerase l k) k' = if k' = k then none else alookup l k' := by
  induction l with
  | nil => simp [aerase, alookup]
  | cons p rest ih =>
      obtain ⟨a, b⟩ := p
      have hnd' : keysND rest := by
        simpa [keysND] using (List.nodup_cons.mp hnd).2
      have ha : a ∉ rest.map Prod.fst := by
        simpa [keysND] using (List.nodup_cons.mp hnd).1
      by_cases hka : k = a
      · subst hka
        by_cases hk' : k' = k
        · subst hk'
          simp [aerase, alookup_eq_none_of_not_mem ha]
        · simp [aerase, alookup, hk']
      · by_cases hk' : k' = a
        · subst hk'
          have hne : ¬ (k' = k) := fun hh => hka hh.symm
          simp [aerase, alookup, hka, hne]
        · simp [aerase, alookup, hka, hk', ih hnd']

theorem aerase_eq_of_not_mem {κ α : Type} [DecidableEq κ] {l : List (κ × α)} {k : κ}
    (h : k ∉ l.map Prod.fst) : aerase l k = l := by
  induction l with
  | nil => rfl
  | cons p rest ih =>
      obtain ⟨a, b⟩ := p
      have hka : ¬ k = a := by
        intro hh; exact h (by simp [hh])
      have hrest : k ∉ rest.map Prod.fst := by
        intro hm; exact h (by simp [hm])
      simp [aerase, hka, ih hrest]

theorem length_aerase {κ α : Type} [DecidableEq κ] (l : List (κ × α)) (k : κ) :
    (aerase l k).length =
      if (alookup l k).isSome then l.length - 1 else l.length := by
  induction l with
  | nil => simp [aerase, alookup]
  | cons p rest ih =>
      obtain ⟨a, b⟩ := p
      by_cases hka : k = a
      · subst hka; simp [aerase, alookup]
      · simp [aerase, alookup, hka, ih]
        by_cases hs : (alookup rest k).isSome
        · simp [hs]
          have : 1 ≤ rest.length := by
            rcases rest with _ | ⟨q, qs⟩
            · simp [alookup] at hs
            · simp
          omega
        · simp [hs]

/-! ### C2: the concrete directed/simple/no-self-loop scenario -/

/-- C2: on `type=directed, multi=false, allowSelfLoops=false`, `addNode('a')`
and `addNode('b')` succeed, `addDirectedEdgeWithKey('e1','a','b')` succeeds,
`addDirectedEdgeWithKey('e2','a','b')` fails with `Usage`,
`addDirectedEdgeWithKey('e3','a','a')` fails with `Usage`, and
`dropNode('a')` removes edge `e1` and node `a`, leaving `order = 1` and
`size = 0`. -/
theorem claim_C2 :
    c2s1.2 = none ∧ c2s2.2 = none ∧ c2s3.2 = none ∧
    c2s4.2 = some GErr.usage ∧ c2s5.2 = some GErr.usage ∧
    c2s6.2 = none ∧ alookup c2s6.1.edges "e1" = none ∧
    hasNode c2s6.1 "a" = false ∧ hasNode c2s6.1 "b" = true ∧
    c2s6.1.order = 1 ∧ c2s6.1.size = 0 := by decide

/-! ### C5: degree queries -/

/-- C5 counterexample: in a directed-only graph the node record stores
`inDegree = outDegree = 0` and `selfLoops = 0` but no `undirectedDegree`
field, so `degree('a')` does not return the sum of the stored counters
(which would be `0`) — it returns `NaN` (the `undefined` field poisons the
JS addition). -/
theorem claim_C5_counterexample :
    degreeQ c5g "a" (BoolArg.bool true) = Except.ok none ∧
    degreeQ c5g "a" (BoolArg.bool true) ≠ Except.ok (some 0) ∧
    undirectedDegreeQ c5g "a" (BoolArg.bool true) = Except.ok none := by decide

/-- C5 (amended): every degree query raises `InvalidArgument` when the flag
is not boolean-typed and `NotFound` when the node is absent; otherwise it
returns the sum of the counters it reads plus `selfLoops` when the flag is
set — *provided every counter the query reads is stored on the record*
(always the case in mixed graphs; for `inDegree`/`outDegree`/
`directedDegree` in directed graphs; for `undirectedDegree` in undirected
graphs).  A query reading a counter absent for the graph's type returns
`NaN` instead of a sum (see the counterexample). -/
theorem claim_C5 (g : Graph) (node : String) (d : NodeData)
    (hd : alookup g.nodes node = some d) :
    (∀ (b : Bool) (i : Int), d.inDegree = some i →
      inDegreeQ g node (BoolArg.bool b) =
        Except.ok (some (i + (if b then d.selfLoops else 0)))) ∧
    (∀ (b : Bool) (o : Int), d.outDegree = some o →
      outDegreeQ g node (BoolArg.bool b) =
        Except.ok (some (o + (if b then d.selfLoops else 0)))) ∧
    (∀ (b : Bool) (i o : Int), d.inDegree = some i → d.outDegree = some o →
      directedDegreeQ g node (BoolArg.bool b) =
        Except.ok (some (o + i + (if b then d.selfLoops else 0)))) ∧
    (∀ (b : Bool) (u : Int), d.undirectedDegree = some u →
      undirectedDegreeQ g node (BoolArg.bool b) =
        Except.ok (some (u + (if b then d.selfLoops else 0)))) ∧
    (∀ (b : Bool) (i o u : Int),
      d.inDegree = some i → d.outDegree = some o → d.undirectedDegree = some u →
      degreeQ g node (BoolArg.bool b) =
        Except.ok (some (o + i + u + (if b then d.selfLoops else 0)))) ∧
    (inDegreeQ g node BoolArg.nonBool = Except.error GErr.invalidArguments ∧
     outDegreeQ g node BoolArg.nonBool = Except.error GErr.invalidArguments ∧
     directedDegreeQ g node BoolArg.nonBool = Except.error GErr.invalidArguments ∧
     undirectedDegreeQ g node BoolArg.nonBool = Except.error GErr.invalidArguments ∧
     degreeQ g node BoolArg.nonBool = Except.error GErr.invalidArguments) ∧
    (∀ n : String, alookup g.nodes n = none → ∀ b : Bool,
      inDegreeQ g n (BoolArg.bool b) = Except.error GErr.notFound ∧
      outDegreeQ g n (BoolArg.bool b) = Except.error GErr.notFound ∧
      directedDegreeQ g n (BoolArg.bool b) = Except.error GErr.notFound ∧
      undirectedDegreeQ g n (BoolArg.bool b) = Except.error GErr.notFound ∧
      degreeQ g n (BoolArg.bool b) = Except.error GErr.notFound) := by
  refine ⟨?_, ?_, ?_, ?_, ?_, ?_, ?_⟩
  · intro b i hi
    simp [inDegreeQ, hd, hi, jsAdd]
  · intro b o ho
    simp [outDegreeQ, hd, ho, jsAdd]
  · intro b i o hi ho
    simp [directedDegreeQ, hd, hi, ho, jsAdd]
  · intro b u hu
    simp [undirectedDegreeQ, hd, hu, jsAdd]
  · intro b i o u hi ho hu
    simp [degreeQ, hd, hi, ho, hu, jsAdd]
  · exact ⟨rfl, rfl, rfl, rfl, rfl⟩
  · intro n hn b
    exact ⟨by simp [inDegreeQ, hn], by simp [outDegreeQ, hn],
           by simp [directedDegreeQ, hn], by simp [undirectedDegreeQ, hn],
           by simp [degreeQ, hn]⟩

/-- A mixed graph, where every counter exists: witness base for C5. -/
def c5w : Graph := (addNode (emptyGraph GType.mixed false true false) "a" AttrArg.missing).1

/-- The node record `addNode` creates for `a` in `c5w`. -/
def c5wd : NodeData :=
  { attributes := 0, selfLoops := 0, inDegree := some 0, outDegree := some 0,
    undirectedDegree := some 0, out := [], «in» := [], undirected := [] }

/-- C5 witness: the amended theorem applied to the concrete mixed graph. -/
theorem claim_C5_witness :
    degreeQ c5w "a" (BoolArg.bool true) = Except.ok (some 0) ∧
    inDegreeQ c5w "a" BoolArg.nonBool = Except.error GErr.invalidArguments ∧
    degreeQ c5w "z" (BoolArg.bool true) = Except.error GErr.notFound := by
  obtain ⟨h1, h2, h3, h4, h5, h6, h7⟩ := claim_C5 c5w "a" c5wd (by decide)
  refine ⟨?_, h6.1, ?_⟩
  · have := h5 true 0 0 0 rfl rfl rfl
    simpa using this
  · exact ((h7 "z" (by decide) true).2.2.2.2)

/-! ### C7: arity-1 kind-checked existence queries -/

/-- C7 is contradicted by the code in map mode: by JS operator precedence,
`this.map ? this._edges.has(edge) : edge in this._edges && this.directed(edge)`
parses the conjunction into the non-map branch only, so in map mode
`hasDirectedEdge('e')` returns `true` for the stored *undirected* edge `e`,
while the claim (and the object-mode branch, shown alongside) requires the
stored record's `undirected` field to be `false`. -/
theorem claim_C7_bug :
    c7g.map = true ∧
    (alookup c7g.edges "e").map EdgeData.undirected = some true ∧
    hasDirectedEdgeK c7g "e" = true ∧
    c7gObj.map = false ∧
    hasDirectedEdgeK c7gObj "e" = false ∧
    hasUndirectedEdgeK c7gObj "e" = true := by decide

/-! ### C9: key-less add variants and the generator contract -/

/-- C9 is contradicted by `addUndirectedEdge` (part_000 l.954): it invokes
the generator with first argument `false` although the edge being added is
undirected, so the probe generator returns `"d"` (recording `false`) rather
than `"u"`; the stored edge is nevertheless undirected.  `addDirectedEdge`
and the collision path behave as claimed: with key `"d"` now taken, the
directed variant's generated key collides and raises the normal `Usage`
failure. -/
theorem claim_C9_bug :
    (addUndirectedEdgeAuto c9gen c9g "a" "b" AttrArg.missing).2 = none ∧
    (alookup (addUndirectedEdgeAuto c9gen c9g "a" "b" AttrArg.missing).1.edges "d").map
      EdgeData.undirected = some true ∧
    alookup (addUndirectedEdgeAuto c9gen c9g "a" "b" AttrArg.missing).1.edges "u" = none ∧
    (addDirectedEdgeAuto c9gen
      (addUndirectedEdgeAuto c9gen c9g "a" "b" AttrArg.missing).1
      "a" "b" AttrArg.missing).2 = some GErr.usage := by decide

/-! ### Frame lemmas: what the index machinery leaves untouched -/

theorem map_fst_aput_of_lookup {κ α : Type} [DecidableEq κ] {l : List (κ × α)} {k : κ}
    {v : α} (h : alookup l k = some v) (w : α) :
    (aput l k w).map Prod.fst = l.map Prod.fst := by
  rw [map_fst_aput, if_pos (mem_keys_of_alookup h)]

theorem sameShape_refl (g : Graph) : SameShape g g :=
  ⟨rfl, rfl, rfl, rfl, rfl, rfl, rfl, rfl, rfl, le_refl _⟩

theorem sameShape_trans {g1 g2 g3 : Graph} (h12 : SameShape g1 g2)
    (h23 : SameShape g2 g3) : SameShape g1 g3 :=
  ⟨h23.type.trans h12.type, h23.multi.trans h12.multi,
   h23.allowSelfLoops.trans h12.allowSelfLoops, h23.map.trans h12.map,
   h23.edges.trans h12.edges, h23.order.trans h12.order, h23.size.trans h12.size,
   h23.attrHeap.trans h12.attrHeap, h23.nodesKeys.trans h12.nodesKeys,
   le_trans h12.nextRefLe h23.nextRefLe⟩

theorem sameShape_nodes_aput {g : Graph} {x : String} {v : NodeData}
    (hs : alookup g.nodes x = some v) (w : NodeData) :
    SameShape g { g with nodes := aput g.nodes x w } :=
  ⟨rfl, rfl, rfl, rfl, rfl, rfl, rfl, rfl, map_fst_aput_of_lookup hs w, le_refl _⟩

theorem sameShape_heap (g : Graph) (H : List (Nat × EntryVal)) :
    SameShape g { g with heap := H } :=
  ⟨rfl, rfl, rfl, rfl, rfl, rfl, rfl, rfl, rfl, le_refl _⟩

theorem sameShape_mirrorIfAbsent (g : Graph) (u : Bool) (s t : String) (h : Nat) :
    SameShape g (mirrorIfAbsent g u s t h) := by
  unfold mirrorIfAbsent
  cases ht : alookup g.nodes t with
  | none => exact sameShape_refl g
  | some td =>
      dsimp only
      by_cases hp : (alookup (if u = true then td.undirected else td.«in») s).isSome = true
      · rw [if_pos hp]
        exact sameShape_refl g
      · rw [if_neg hp]
        exact sameShape_nodes_aput ht _

theorem sameShape_updateStructureIndex (g : Graph) (u : Bool) (k s t : String) :
    SameShape g (updateStructureIndex g u k s t) := by
  simp only [updateStructureIndex]
  cases hs : alookup g.nodes s with
  | none => exact sameShape_refl g
  | some sd =>
      dsimp only
      cases hslot : alookup (if u = true then sd.undirected else sd.out) t with
      | some h =>
          dsimp only
          have hbase : SameShape g
              (if g.multi = true then { g with heap := heapAdd g.heap h k } else g) := by
            by_cases hm : g.multi = true
            · rw [if_pos hm]; exact sameShape_heap g _
            · rw [if_neg hm]; exact sameShape_refl g
          by_cases hst : s = t
          · rw [if_pos hst]
            exact hbase
          · rw [if_neg hst]
            exact sameShape_trans hbase (sameShape_mirrorIfAbsent _ u s t h)
      | none =>
          dsimp only
          have halloc : SameShape g { g with
              nodes := (aput g.nodes s
                (if u = true then { sd with undirected := aput sd.undirected t g.nextRef }
                 else { sd with out := aput sd.out t g.nextRef })),
              heap := (aput g.heap g.nextRef
                (if g.multi = true then EntryVal.multi [k] else EntryVal.simple k)),
              nextRef := g.nextRef + 1 } :=
            ⟨rfl, rfl, rfl, rfl, rfl, rfl, rfl, rfl,
             map_fst_aput_of_lookup hs _, Nat.le_succ _⟩
          by_cases hst : s = t
          · rw [if_pos hst]
            exact halloc
          · rw [if_neg hst]
            exact sameShape_trans halloc (sameShape_mirrorIfAbsent _ u s t g.nextRef)

theorem sameShape_updateIndex (g : Graph) (k : String) (d : EdgeData) :
    SameShape g (updateIndex g k d) := by
  unfold updateIndex
  split
  · exact sameShape_refl g
  · exact sameShape_updateStructureIndex g d.undirected k d.source d.target

theorem sameShape_foldl_updateIndex (E : List (String × EdgeData)) (g : Graph) :
    SameShape g (E.foldl (fun acc p => updateIndex acc p.1 p.2) g) := by
  induction E generalizing g with
  | nil => exact sameShape_refl g
  | cons p rest ih =>
      exact sameShape_trans (sameShape_updateIndex g p.1 p.2) (ih _)

theorem sameShape_computeIndex (g : Graph) : SameShape g (computeIndex g) := by
  unfold computeIndex
  split
  · exact sameShape_refl g
  · exact sameShape_trans
      (⟨rfl, rfl, rfl, rfl, rfl, rfl, rfl, rfl, rfl, le_refl _⟩ :
        SameShape g { g with structureComputed := true })
      (sameShape_foldl_updateIndex _ _)

theorem sameShape_deleteInSide (g : Graph) (u : Bool) (s t : String) :
    SameShape g (deleteInSide g u s t) := by
  unfold deleteInSide
  cases ht : alookup g.nodes t with
  | none => exact sameShape_refl g
  | some td =>
      dsimp only
      exact sameShape_nodes_aput ht _

theorem sameShape_clearEdgeSourceSide (g : Graph) (u : Bool) (k s t : String) :
    SameShape g (clearEdgeSourceSide g u k s t) := by
  unfold clearEdgeSourceSide
  cases hs : alookup g.nodes s with
  | none => exact sameShape_refl g
  | some sd =>
      dsimp only
      cases hslot : alookup (if u = true then sd.undirected else sd.out) t with
      | none => exact sameShape_refl g
      | some h =>
          dsimp only
          by_cases hm : g.multi = true
          · rw [if_pos hm]
            cases hh : alookup g.heap h with
            | none => exact sameShape_refl g
            | some ev =>
                cases ev with
                | simple e => exact sameShape_refl g
                | multi ms =>
                    dsimp only
                    by_cases hlen : ms.length = 1
                    · rw [if_pos hlen]
                      exact sameShape_trans (sameShape_nodes_aput hs _)
                        (sameShape_deleteInSide _ u s t)
                    · rw [if_neg hlen]
                      exact sameShape_heap g _
          · rw [if_neg hm]
            exact sameShape_nodes_aput hs _

theorem sameShape_clearEdgeFromStructureIndex (g : Graph) (u : Bool)
    (k s t : String) : SameShape g (clearEdgeFromStructureIndex g u k s t) := by
  unfold clearEdgeFromStructureIndex
  by_cases hm : g.multi = true
  · rw [if_pos hm]
    exact sameShape_clearEdgeSourceSide g u k s t
  · rw [if_neg hm]
    exact sameShape_trans (sameShape_clearEdgeSourceSide g u k s t)
      (sameShape_deleteInSide _ u s t)

theorem sameShape_clearEdgeFromIndex (g : Graph) (k : String) (d : EdgeData) :
    SameShape g (clearEdgeFromIndex g k d) := by
  unfold clearEdgeFromIndex
  split
  · exact sameShape_refl g
  · exact sameShape_clearEdgeFromStructureIndex g d.undirected k d.source d.target

theorem sameShape_bumpSelf (g : Graph) (d : Int) (s : String) :
    SameShape g (bumpSelf g d s) := by
  unfold bumpSelf
  cases hs : alookup g.nodes s with
  | none => exact sameShape_refl g
  | some sd =>
      dsimp only
      exact sameShape_nodes_aput hs _

theorem sameShape_bumpSourceAdd (g : Graph) (u : Bool) (s : String) :
    SameShape g (bumpSourceAdd g u s) := by
  unfold bumpSourceAdd
  cases hs : alookup g.nodes s with
  | none => exact sameShape_refl g
  | some sd =>
      dsimp only
      exact sameShape_nodes_aput hs _

theorem sameShape_bumpTargetAdd (g : Graph) (u : Bool) (t : String) :
    SameShape g (bumpTargetAdd g u t) := by
  unfold bumpTargetAdd
  cases ht : alookup g.nodes t with
  | none => exact sameShape_refl g
  | some td =>
      dsimp only
      exact sameShape_nodes_aput ht _

theorem sameShape_bumpSourceDrop (g : Graph) (u : Bool) (s : String) :
    SameShape g (bumpSourceDrop g u s) := by
  unfold bumpSourceDrop
  cases hs : alookup g.nodes s with
  | none => exact sameShape_refl g
  | some sd =>
      dsimp only
      exact sameShape_nodes_aput hs _

theorem sameShape_bumpTargetDrop (g : Graph) (u : Bool) (t : String) :
    SameShape g (bumpTargetDrop g u t) := by
  unfold bumpTargetDrop
  cases ht : alookup g.nodes t with
  | none => exact sameShape_refl g
  | some td =>
      dsimp only
      exact sameShape_nodes_aput ht _

theorem sameShape_bumpDegreesAdd (g : Graph) (u : Bool) (s t : String) :
    SameShape g (bumpDegreesAdd g u s t) := by
  unfold bumpDegreesAdd
  by_cases hst : s = t
  · rw [if_pos hst]
    exact sameShape_bumpSelf g 1 s
  · rw [if_neg hst]
    exact sameShape_trans (sameShape_bumpSourceAdd g u s) (sameShape_bumpTargetAdd _ u t)

theorem sameShape_bumpDegreesDrop (g : Graph) (u : Bool) (s t : String) :
    SameShape g (bumpDegreesDrop g u s t) := by
  unfold bumpDegreesDrop
  by_cases hst : s = t
  · rw [if_pos hst]
    exact sameShape_bumpSelf g (-1) s
  · rw [if_neg hst]
    exact sameShape_trans (sameShape_bumpSourceDrop g u s) (sameShape_bumpTargetDrop _ u t)

/-! ### C6: failure atomicity -/

theorem hasDirectedEdgeP_fst (g : Graph) (s t : String) :
    (hasDirectedEdgeP g s t).1 = computeIndex g := by
  unfold hasDirectedEdgeP
  dsimp only
  cases alookup (computeIndex g).nodes s <;>
    cases alookup (computeIndex g).nodes t <;> rfl

theorem hasUndirectedEdgeP_fst (g : Graph) (s t : String) :
    (hasUndirectedEdgeP g s t).1 = computeIndex g := by
  unfold hasUndirectedEdgeP
  dsimp only
  cases alookup (computeIndex g).nodes s <;>
    cases alookup (computeIndex g).nodes t <;> rfl

/-- C6 counterexample: on a simple directed graph holding `e1 : a → b` whose
structure index is *not* materialized (`c6g`, obtained by `clearIndex`), the
failing `addDirectedEdgeWithKey('e9','a','b')` (duplicate pair, `Usage`)
leaves the graph with the index computed — the state is not "exactly as it
was before the call", contradicting the claim's inclusion of the structure
index. -/
theorem claim_C6_counterexample :
    (addDirectedEdgeWithKey c6g "e9" "a" "b" AttrArg.missing).2 = some GErr.usage ∧
    c6g.structureComputed = false ∧
    (addDirectedEdgeWithKey c6g "e9" "a" "b" AttrArg.missing).1.structureComputed = true ∧
    (addDirectedEdgeWithKey c6g "e9" "a" "b" AttrArg.missing).1 ≠ c6g := by decide

/-- C6 (amended): when a mutation operation raises, the Node Table, Edge
Table, `order`, `size`, the degree and self-loop counters and the attribute
arena are exactly as before the call; the only possible difference is that a
failing duplicate-pair check inside an add-edge operation may have
materialized the structure index (the add's same-kind check computes it on
demand), i.e. the failing state is either the pre-state or exactly
`computeIndex` of it.  `addNode`, `dropEdge` and `dropNode` never touch the
index before raising and return the pre-state itself. -/
theorem claim_C6 :
    (∀ (g : Graph) (n : String) (a : AttrArg) (e : GErr),
      (addNode g n a).2 = some e → (addNode g n a).1 = g) ∧
    (∀ (g : Graph) (u : Bool) (k s t : String) (a : AttrArg) (e : GErr),
      (addEdgeCore g u k s t a).2 = some e →
        (addEdgeCore g u k s t a).1 = g ∨
        (addEdgeCore g u k s t a).1 = computeIndex g) ∧
    (∀ (g : Graph) (k : String) (e : GErr),
      (dropEdge g k).2 = some e → (dropEdge g k).1 = g) ∧
    (∀ (g : Graph) (n : String) (e : GErr),
      (dropNode g n).2 = some e → (dropNode g n).1 = g) := by
  refine ⟨?_, ?_, ?_, ?_⟩
  · intro g n a e h
    unfold addNode at h ⊢
    split_ifs at h ⊢ <;> simp_all
  · intro g u k s t a e h
    unfold addEdgeCore at h ⊢
    cases hp : addEdgePrecheck g u k s t a with
    | some e0 => left; rfl
    | none =>
        rw [hp] at h
        dsimp only at h ⊢
        by_cases hm : g.multi = true
        · rw [if_pos hm] at h
          simp at h
        · rw [if_neg hm] at h ⊢
          by_cases hu : u = true
          · rw [if_pos hu] at h ⊢
            by_cases hq : (hasUndirectedEdgeP g s t).2 = true
            · rw [if_pos hq]
              right
              exact hasUndirectedEdgeP_fst g s t
            · rw [if_neg hq] at h
              simp at h
          · rw [if_neg hu] at h ⊢
            by_cases hq : (hasDirectedEdgeP g s t).2 = true
            · rw [if_pos hq]
              right
              exact hasDirectedEdgeP_fst g s t
            · rw [if_neg hq] at h
              simp at h
  · intro g k e h
    unfold dropEdge at h ⊢
    cases hm : alookup g.edges k with
    | none => rfl
    | some d => rw [hm] at h; simp at h
  · intro g n e h
    unfold dropNode at h ⊢
    split_ifs at h ⊢
    simp_all

/-- C6 witness: the amended atomicity theorem applied at concrete failing
calls — a duplicate `addNode`, the index-materializing duplicate add of the
counterexample, and `dropEdge`/`dropNode` on a missing key. -/
theorem claim_C6_witness :
    (addNode c5w "a" AttrArg.missing).1 = c5w ∧
    ((addEdgeCore c6g false "e9" "a" "b" AttrArg.missing).1 = c6g ∨
     (addEdgeCore c6g false "e9" "a" "b" AttrArg.missing).1 = computeIndex c6g) ∧
    (dropEdge c2g0 "x").1 = c2g0 ∧
    (dropNode c2g0 "x").1 = c2g0 := by
  obtain ⟨h1, h2, h3, h4⟩ := claim_C6
  exact ⟨h1 c5w "a" AttrArg.missing GErr.usage (by decide),
         h2 c6g false "e9" "a" "b" AttrArg.missing GErr.usage (by decide),
         h3 c2g0 "x" GErr.notFound (by decide),
         h4 c2g0 "x" GErr.notFound (by decide)⟩

/-! ### C10: attribute containers are fresh shallow copies -/

theorem addEdgeCommit_parts (g : Graph) (u : Bool) (k s t : String) (a : AttrArg) :
    alookup (addEdgeCommit g u k s t a).edges k =
      some { undirected := u, attributes := g.nextRef, source := s, target := t } ∧
    (addEdgeCommit g u k s t a).attrHeap =
      aput g.attrHeap g.nextRef (attrContents g a) := by
  unfold addEdgeCommit
  dsimp only
  constructor
  · rw [(sameShape_updateIndex _ _ _).edges, (sameShape_bumpDegreesAdd _ _ _ _).edges]
    dsimp only
    rw [alookup_aput]
    simp
  · rw [(sameShape_updateIndex _ _ _).attrHeap, (sameShape_bumpDegreesAdd _ _ _ _).attrHeap]

/-- The attribute-freshness core for the edge commit: starting from any
state `g1` whose attribute arena is key-bounded by `nextRef` and holds the
caller's object `r ↦ m`, the committed edge record's container is a fresh
handle distinct from `r`, holds `m` (the argument's value at commit time),
and is untouched by later external writes to `r`. -/
theorem addEdgeCommit_attrs (g1 : Graph) (u : Bool) (k s t : String) (r : Nat)
    (m : List (String × String))
    (hfresh : ∀ hh, (alookup g1.attrHeap hh).isSome → hh < g1.nextRef)
    (hr : alookup g1.attrHeap r = some m) :
    ∃ ed : EdgeData,
      alookup (addEdgeCommit g1 u k s t (AttrArg.obj r)).edges k = some ed ∧
      ed.attributes ≠ r ∧
      alookup (addEdgeCommit g1 u k s t (AttrArg.obj r)).attrHeap ed.attributes = some m ∧
      ∀ (k' v : String),
        alookup (setAttrRef (addEdgeCommit g1 u k s t (AttrArg.obj r)) r k' v).attrHeap
          ed.attributes = some m := by
  obtain ⟨he, ha⟩ := addEdgeCommit_parts g1 u k s t (AttrArg.obj r)
  have hrlt : r < g1.nextRef := hfresh r (by simp [hr])
  have hne : g1.nextRef ≠ r := fun hh => absurd (hh ▸ hrlt) (lt_irrefl _)
  have hcontents : attrContents g1 (AttrArg.obj r) = m := by
    simp [attrContents, hr]
  refine ⟨{ undirected := u, attributes := g1.nextRef, source := s, target := t },
          he, hne, ?_, ?_⟩
  · rw [ha, alookup_aput, if_pos rfl, hcontents]
  · intro k' v
    unfold setAttrRef
    rw [ha]
    rw [show alookup (aput g1.attrHeap g1.nextRef (attrContents g1 (AttrArg.obj r))) r
          = some m by rw [alookup_aput, if_neg (fun hh => hne hh.symm)]; exact hr]
    dsimp only
    rw [alookup_aput, if_neg hne, alookup_aput, if_pos rfl, hcontents]

/-- An attribute arena whose keys are all below `n` is key-bounded by `n`. -/
theorem fresh_of_keys_lt {l : List (Nat × List (String × String))} {n : Nat}
    (h : ∀ p ∈ l, p.1 < n) : ∀ hh, (alookup l hh).isSome → hh < n := by
  induction l with
  | nil =>
      intro hh hhs
      simp [alookup] at hhs
  | cons p rest ih =>
      obtain ⟨a, b⟩ := p
      intro hh hhs
      rw [alookup_cons] at hhs
      by_cases hk : hh = a
      · rw [hk]
        exact h (a, b) (List.mem_cons_self _ _)
      · rw [if_neg hk] at hhs
        exact ih (fun q hq => h q (List.mem_cons_of_mem _ hq)) hh hhs

/-- The omitted-attributes analogue of `addEdgeCommit_attrs`: the committed
edge record's container is a fresh handle holding the empty object. -/
theorem addEdgeCommit_attrs_missing (g1 : Graph) (u : Bool) (k s t : String) :
    ∃ ed : EdgeData,
      alookup (addEdgeCommit g1 u k s t AttrArg.missing).edges k = some ed ∧
      alookup (addEdgeCommit g1 u k s t AttrArg.missing).attrHeap ed.attributes
        = some [] := by
  obtain ⟨he, ha⟩ := addEdgeCommit_parts g1 u k s t AttrArg.missing
  refine ⟨{ undirected := u, attributes := g1.nextRef, source := s, target := t }, he, ?_⟩
  rw [ha, alookup_aput, if_pos rfl]
  rfl

/-- C10: for `addNode` and (through `addEdgeCore`) every add-edge variant,
the stored attribute container is a fresh shallow copy of the supplied
object — a new container holding the argument's entries at call time, never
the caller's reference — and an empty container when attributes are omitted;
later external writes to the caller's object do not change the stored
attributes. -/
theorem claim_C10 (g : Graph) (r : Nat) (m : List (String × String))
    (hfresh : ∀ hh, (alookup g.attrHeap hh).isSome → hh < g.nextRef)
    (hr : alookup g.attrHeap r = some m) :
    (∀ n : String, (addNode g n (AttrArg.obj r)).2 = none →
      ∃ d : NodeData, alookup (addNode g n (AttrArg.obj r)).1.nodes n = some d ∧
        d.attributes ≠ r ∧
        alookup (addNode g n (AttrArg.obj r)).1.attrHeap d.attributes = some m ∧
        ∀ (k v : String),
          alookup (setAttrRef (addNode g n (AttrArg.obj r)).1 r k v).attrHeap d.attributes
            = some m) ∧
    (∀ n : String, (addNode g n AttrArg.missing).2 = none →
      ∃ d : NodeData, alookup (addNode g n AttrArg.missing).1.nodes n = some d ∧
        alookup (addNode g n AttrArg.missing).1.attrHeap d.attributes = some []) ∧
    (∀ (u : Bool) (k s t : String), (addEdgeCore g u k s t (AttrArg.obj r)).2 = none →
      ∃ ed : EdgeData, alookup (addEdgeCore g u k s t (AttrArg.obj r)).1.edges k = some ed ∧
        ed.attributes ≠ r ∧
        alookup (addEdgeCore g u k s t (AttrArg.obj r)).1.attrHeap ed.attributes = some m ∧
        ∀ (k' v : String),
          alookup (setAttrRef (addEdgeCore g u k s t (AttrArg.obj r)).1 r k' v).attrHeap
            ed.attributes = some m) ∧
    (∀ (u : Bool) (k s t : String), (addEdgeCore g u k s t AttrArg.missing).2 = none →
      ∃ ed : EdgeData, alookup (addEdgeCore g u k s t AttrArg.missing).1.edges k = some ed ∧
        alookup (addEdgeCore g u k s t AttrArg.missing).1.attrHeap ed.attributes
          = some []) := by
  have hrlt : r < g.nextRef := hfresh r (by simp [hr])
  refine ⟨?_, ?_, ?_, ?_⟩
  · intro n hsucc
    unfold addNode at hsucc ⊢
    rw [if_neg (show ¬(AttrArg.obj r = AttrArg.invalid) by simp)] at hsucc ⊢
    by_cases h2 : hasNode g n = true
    · rw [if_pos h2] at hsucc
      simp at hsucc
    · rw [if_neg h2] at hsucc ⊢
      dsimp only
      have hne : g.nextRef ≠ r := fun hh => absurd (hh ▸ hrlt) (lt_irrefl _)
      refine ⟨_, by rw [alookup_aput, if_pos rfl], hne, ?_, ?_⟩
      · dsimp only
        rw [alookup_aput, if_pos rfl]
        simp [attrContents, hr]
      · intro k v
        unfold setAttrRef
        dsimp only
        rw [show alookup (aput g.attrHeap g.nextRef (attrContents g (AttrArg.obj r))) r
              = some m by rw [alookup_aput, if_neg (fun hh => hne hh.symm)]; exact hr]
        dsimp only
        rw [alookup_aput, if_neg hne, alookup_aput, if_pos rfl]
        simp [attrContents, hr]
  · intro n hsucc
    unfold addNode at hsucc ⊢
    rw [if_neg (show ¬(AttrArg.missing = AttrArg.invalid) by simp)] at hsucc ⊢
    by_cases h2 : hasNode g n = true
    · rw [if_pos h2] at hsucc
      simp at hsucc
    · rw [if_neg h2] at hsucc ⊢
      dsimp only
      refine ⟨_, by rw [alookup_aput, if_pos rfl], ?_⟩
      dsimp only
      rw [alookup_aput, if_pos rfl]
      simp [attrContents]
  · intro u k s t hsucc
    unfold addEdgeCore at hsucc ⊢
    cases hp : addEdgePrecheck g u k s t (AttrArg.obj r) with
    | some e0 =>
        rw [hp] at hsucc
        simp at hsucc
    | none =>
        rw [hp] at hsucc
        dsimp only at hsucc ⊢
        by_cases hm : g.multi = true
        · rw [if_pos hm] at hsucc ⊢
          exact addEdgeCommit_attrs g u k s t r m hfresh hr
        · rw [if_neg hm] at hsucc ⊢
          have hci := sameShape_computeIndex g
          have hfresh' : ∀ hh, (alookup (computeIndex g).attrHeap hh).isSome →
              hh < (computeIndex g).nextRef := by
            intro hh hhs
            rw [hci.attrHeap] at hhs
            exact lt_of_lt_of_le (hfresh hh hhs) hci.nextRefLe
          have hr' : alookup (computeIndex g).attrHeap r = some m := by
            rw [hci.attrHeap]; exact hr
          by_cases hu : u = true
          · rw [if_pos hu] at hsucc ⊢
            by_cases hq : (hasUndirectedEdgeP g s t).2 = true
            · rw [if_pos hq] at hsucc
              simp at hsucc
            · rw [if_neg hq]
              rw [hasUndirectedEdgeP_fst]
              exact addEdgeCommit_attrs (computeIndex g) u k s t r m hfresh' hr'
          · rw [if_neg hu] at hsucc ⊢
            by_cases hq : (hasDirectedEdgeP g s t).2 = true
            · rw [if_pos hq] at hsucc
              simp at hsucc
            · rw [if_neg hq]
              rw [hasDirectedEdgeP_fst]
              exact addEdgeCommit_attrs (computeIndex g) u k s t r m hfresh' hr'
  · intro u k s t hsucc
    unfold addEdgeCore at hsucc ⊢
    cases hp : addEdgePrecheck g u k s t AttrArg.missing with
    | some e0 =>
        rw [hp] at hsucc
        simp at hsucc
    | none =>
        rw [hp] at hsucc
        dsimp only at hsucc ⊢
        by_cases hm : g.multi = true
        · rw [if_pos hm] at hsucc ⊢
          exact addEdgeCommit_attrs_missing g u k s t
        · rw [if_neg hm] at hsucc ⊢
          by_cases hu : u = true
          · rw [if_pos hu] at hsucc ⊢
            by_cases hq : (hasUndirectedEdgeP g s t).2 = true
            · rw [if_pos hq] at hsucc
              simp at hsucc
            · rw [if_neg hq]
              rw [hasUndirectedEdgeP_fst]
              exact addEdgeCommit_attrs_missing (computeIndex g) u k s t
          · rw [if_neg hu] at hsucc ⊢
            by_cases hq : (hasDirectedEdgeP g s t).2 = true
            · rw [if_pos hq] at hsucc
              simp at hsucc
            · rw [if_neg hq]
              rw [hasDirectedEdgeP_fst]
              exact addEdgeCommit_attrs_missing (computeIndex g) u k s t

/-- C10 witness: the theorem applied to the concrete graph `c10g` holding
the caller's container `#0 = [(x, 1)]`: adding node `n` with that object
stores a fresh copy unaffected by later writes to `#0`; and on the same
arena extended with nodes `a`, `b`, adding edge `e` with the attributes
argument omitted stores a fresh empty container. -/
theorem claim_C10_witness :
    (∃ d : NodeData, alookup (addNode c10g "n" (AttrArg.obj 0)).1.nodes "n" = some d ∧
      d.attributes ≠ 0 ∧
      alookup (addNode c10g "n" (AttrArg.obj 0)).1.attrHeap d.attributes = some [("x", "1")] ∧
      ∀ (k v : String),
        alookup (setAttrRef (addNode c10g "n" (AttrArg.obj 0)).1 0 k v).attrHeap d.attributes
          = some [("x", "1")]) ∧
    (∃ ed : EdgeData,
      alookup (addEdgeCore (addNode (addNode c10g "a" AttrArg.missing).1
          "b" AttrArg.missing).1 false "e" "a" "b" AttrArg.missing).1.edges "e" = some ed ∧
      alookup (addEdgeCore (addNode (addNode c10g "a" AttrArg.missing).1
          "b" AttrArg.missing).1 false "e" "a" "b" AttrArg.missing).1.attrHeap
        ed.attributes = some []) := by
  constructor
  · obtain ⟨h1, -, -, -⟩ := claim_C10 c10g 0 [("x", "1")]
      (fresh_of_keys_lt (by decide)) (by decide)
    exact h1 "n" (by decide)
  · obtain ⟨-, -, -, h4⟩ := claim_C10
      (addNode (addNode c10g "a" AttrArg.missing).1 "b" AttrArg.missing).1 0 [("x", "1")]
      (fresh_of_keys_lt (by decide)) (by decide)
    exact h4 false "e" "a" "b" (by decide)

/-! ### C4: `order`/`size` track the live table keys -/

theorem nodesLen_of_sameShape {g g' : Graph} (h : SameShape g g') :
    g'.nodes.length = g.nodes.length := by
  have := congrArg List.length h.nodesKeys
  simpa using this

theorem countsOk_of_sameShape {g g' : Graph} (h : SameShape g g')
    (hc : CountsOk g) : CountsOk g' := by
  obtain ⟨h1, h2⟩ := hc
  refine ⟨?_, ?_⟩
  · rw [h.order, nodesLen_of_sameShape h, h1]
  · rw [h.size, h.edges, h2]

theorem countsOk_addNode (g : Graph) (n : String) (a : AttrArg)
    (hc : CountsOk g) : CountsOk (addNode g n a).1 := by
  unfold addNode
  by_cases h1 : a = AttrArg.invalid
  · rw [if_pos h1]; exact hc
  rw [if_neg h1]
  by_cases h2 : hasNode g n = true
  · rw [if_pos h2]; exact hc
  rw [if_neg h2]
  dsimp only
  obtain ⟨ho, hs⟩ := hc
  have hnone : (alookup g.nodes n).isSome = false := by
    unfold hasNode at h2
    simpa using h2
  constructor
  · show g.order + 1 = _
    rw [length_aput, hnone, if_neg (show ¬(false = true) by simp)]
    omega
  · exact hs

theorem addEdgePrecheck_none {g : Graph} {u : Bool} {k s t : String} {a : AttrArg}
    (hp : addEdgePrecheck g u k s t a = none) :
    hasNode g s = true ∧ hasNode g t = true ∧ hasEdgeKey g k = false := by
  unfold addEdgePrecheck at hp
  split_ifs at hp with c1 c2 c3 c4 c5 c6 c7
  refine ⟨?_, ?_, ?_⟩
  · simpa using c4
  · simpa using c5
  · simpa using c6

theorem countsOk_addEdgeCommit (g : Graph) (u : Bool) (k s t : String) (a : AttrArg)
    (hk : hasEdgeKey g k = false) (hc : CountsOk g) :
    CountsOk (addEdgeCommit g u k s t a) := by
  unfold addEdgeCommit
  dsimp only
  refine countsOk_of_sameShape
    (sameShape_trans (sameShape_bumpDegreesAdd _ u s t) (sameShape_updateIndex _ k _)) ?_
  obtain ⟨ho, hs⟩ := hc
  have hnone : (alookup g.edges k).isSome = false := by
    unfold hasEdgeKey at hk
    simpa using hk
  constructor
  · exact ho
  · show g.size + 1 = _
    rw [length_aput, hnone, if_neg (show ¬(false = true) by simp)]
    omega

theorem countsOk_addEdgeCore (g : Graph) (u : Bool) (k s t : String) (a : AttrArg)
    (hc : CountsOk g) : CountsOk (addEdgeCore g u k s t a).1 := by
  unfold addEdgeCore
  cases hp : addEdgePrecheck g u k s t a with
  | some e0 => exact hc
  | none =>
      obtain ⟨hns, hnt, hke⟩ := addEdgePrecheck_none hp
      dsimp only
      by_cases hm : g.multi = true
      · rw [if_pos hm]
        dsimp only
        exact countsOk_addEdgeCommit g u k s t a hke hc
      · rw [if_neg hm]
        have hkey : ∀ g1 : Graph, SameShape g g1 → hasEdgeKey g1 k = false := by
          intro g1 hg1
          unfold hasEdgeKey at hke ⊢
          rw [hg1.edges]
          exact hke
        by_cases hu : u = true
        · rw [if_pos hu]
          by_cases hq : (hasUndirectedEdgeP g s t).2 = true
          · rw [if_pos hq]
            dsimp only
            rw [hasUndirectedEdgeP_fst]
            exact countsOk_of_sameShape (sameShape_computeIndex g) hc
          · rw [if_neg hq]
            dsimp only
            rw [hasUndirectedEdgeP_fst]
            exact countsOk_addEdgeCommit (computeIndex g) u k s t a
              (hkey _ (sameShape_computeIndex g))
              (countsOk_of_sameShape (sameShape_computeIndex g) hc)
        · rw [if_neg hu]
          by_cases hq : (hasDirectedEdgeP g s t).2 = true
          · rw [if_pos hq]
            dsimp only
            rw [hasDirectedEdgeP_fst]
            exact countsOk_of_sameShape (sameShape_computeIndex g) hc
          · rw [if_neg hq]
            dsimp only
            rw [hasDirectedEdgeP_fst]
            exact countsOk_addEdgeCommit (computeIndex g) u k s t a
              (hkey _ (sameShape_computeIndex g))
              (countsOk_of_sameShape (sameShape_computeIndex g) hc)

theorem dropEdge_nodesKeys (g : Graph) (k : String) :
    (dropEdge g k).1.nodes.map Prod.fst = g.nodes.map Prod.fst := by
  unfold dropEdge
  cases hm : alookup g.edges k with
  | none => rfl
  | some d =>
      dsimp only
      rw [(sameShape_clearEdgeFromIndex _ _ _).nodesKeys,
          (sameShape_bumpDegreesDrop _ _ _ _).nodesKeys]

theorem countsOk_dropEdge (g : Graph) (k : String) (hc : CountsOk g) :
    CountsOk (dropEdge g k).1 := by
  unfold dropEdge
  cases hm : alookup g.edges k with
  | none => exact hc
  | some d =>
      dsimp only
      refine countsOk_of_sameShape
        (sameShape_trans (sameShape_bumpDegreesDrop _ _ _ _)
          (sameShape_clearEdgeFromIndex _ _ _)) ?_
      obtain ⟨ho, hs⟩ := hc
      have hsome : (alookup g.edges k).isSome = true := by simp [hm]
      have hlen : 1 ≤ g.edges.length := by
        have hmem := mem_keys_of_alookup hm
        have hne : g.edges ≠ [] := by
          intro hnil
          rw [hnil] at hmem
          simp at hmem
        exact List.length_pos.mpr hne
      constructor
      · exact ho
      · show g.size - 1 = _
        rw [length_aerase, hsome, if_pos (show true = true from rfl)]
        omega

theorem countsOk_foldDrop (ks : List String) (g : Graph) (hc : CountsOk g) :
    CountsOk (ks.foldl (fun acc e => (dropEdge acc e).1) g) := by
  induction ks generalizing g with
  | nil => exact hc
  | cons e rest ih => exact ih _ (countsOk_dropEdge g e hc)

theorem foldDrop_nodesKeys (ks : List String) (g : Graph) :
    (ks.foldl (fun acc e => (dropEdge acc e).1) g).nodes.map Prod.fst =
      g.nodes.map Prod.fst := by
  induction ks generalizing g with
  | nil => rfl
  | cons e rest ih =>
      rw [List.foldl_cons, ih, dropEdge_nodesKeys]

theorem countsOk_dropNode (g : Graph) (n : String) (hc : CountsOk g) :
    CountsOk (dropNode g n).1 := by
  unfold dropNode
  by_cases hh : (!hasNode g n) = true
  · rw [if_pos hh]; exact hc
  rw [if_neg hh]
  dsimp only
  have hnode : (alookup g.nodes n).isSome = true := by
    unfold hasNode at hh
    rcases ho : alookup g.nodes n with _ | v
    · rw [ho] at hh
      simp at hh
    · simp
  set g1 := (incidentEdges g n).foldl (fun acc e => (dropEdge acc e).1) g with hg1
  have hc1 : CountsOk g1 := countsOk_foldDrop _ g hc
  have hkeys : g1.nodes.map Prod.fst = g.nodes.map Prod.fst := foldDrop_nodesKeys _ g
  have hsome : (alookup g1.nodes n).isSome = true := by
    rw [alookup_isSome_iff_mem_keys, hkeys]
    exact (alookup_isSome_iff_mem_keys _ _).mp hnode
  have hlen : 1 ≤ g1.nodes.length := by
    have hmem : n ∈ g1.nodes.map Prod.fst :=
      (alookup_isSome_iff_mem_keys _ _).mp hsome
    have hne : g1.nodes ≠ [] := by
      intro hnil
      rw [hnil] at hmem
      simp at hmem
    exact List.length_pos.mpr hne
  obtain ⟨ho, hs⟩ := hc1
  constructor
  · show g1.order - 1 = _
    rw [length_aerase, hsome, if_pos (show true = true from rfl)]
    omega
  · exact hs

theorem sameShape_clearIndex (g : Graph) : SameShape g (clearIndex g) := by
  unfold clearIndex
  by_cases hcp : (!g.structureComputed) = true
  · rw [if_pos hcp]; exact sameShape_refl g
  · rw [if_neg hcp]
    unfold clearStructureIndex
    refine ⟨rfl, rfl, rfl, rfl, rfl, rfl, rfl, rfl, ?_, le_refl _⟩
    simp

/-- C4: for every reachable graph — i.e. after any sequence of `addNode`,
add-edge, `dropEdge`, `dropNode`, `clear` (and index) operations starting
from a fresh instance — `order` equals the number of keys in the Node Table
and `size` the number of keys in the Edge Table.  Preservation by each
single operation is what the per-operation lemmas above state, so the
invariant holds before and after each step of any such sequence. -/
theorem claim_C4 (g : Graph) (h : Reachable g) :
    g.order = (g.nodes.length : Int) ∧ g.size = (g.edges.length : Int) := by
  induction h with
  | empty t m sl mp => exact ⟨rfl, rfl⟩
  | addNode n a _ ih => exact countsOk_addNode _ n a ih
  | addEdge u k s t a _ ih => exact countsOk_addEdgeCore _ u k s t a ih
  | dropEdge k _ ih => exact countsOk_dropEdge _ k ih
  | dropNode n _ ih => exact countsOk_dropNode _ n ih
  | clear _ _ => exact ⟨rfl, rfl⟩
  | computeIdx _ ih => exact countsOk_of_sameShape (sameShape_computeIndex _) ih
  | clearIdx _ ih => exact countsOk_of_sameShape (sameShape_clearIndex _) ih

/-- C4 witness: the invariant evaluated on a concrete reachable state (the
C2 scenario graph after its successful edge add). -/
theorem claim_C4_witness :
    c2s3.1.order = (c2s3.1.nodes.length : Int) ∧
    c2s3.1.size = (c2s3.1.edges.length : Int) := by
  have hr : Reachable c2s3.1 :=
    Reachable.addEdge false "e1" "a" "b" AttrArg.missing
      (Reachable.addNode "b" AttrArg.missing
        (Reachable.addNode "a" AttrArg.missing
          (Reachable.empty GType.directed false false false)))
  exact claim_C4 c2s3.1 hr

/-! ### Filtered-key lemmas for the index invariant -/

theorem alookup_mem {κ α : Type} [DecidableEq κ] {l : List (κ × α)} {k : κ} {v : α}
    (h : alookup l k = some v) : (k, v) ∈ l := by
  induction l with
  | nil => simp [alookup] at h
  | cons p rest ih =>
      obtain ⟨a, b⟩ := p
      by_cases hk : k = a
      · subst hk
        simp [alookup] at h
        simp [h]
      · simp [alookup, hk] at h
        exact List.mem_cons_of_mem _ (ih h)

theorem mem_alookup {κ α : Type} [DecidableEq κ] {l : List (κ × α)} {k : κ} {v : α}
    (hnd : keysND l) (h : (k, v) ∈ l) : alookup l k = some v := by
  induction l with
  | nil => simp at h
  | cons p rest ih =>
      obtain ⟨a, b⟩ := p
      have hnd' : keysND rest := by
        simpa [keysND] using (List.nodup_cons.mp hnd).2
      have ha : a ∉ rest.map Prod.fst := by
        simpa [keysND] using (List.nodup_cons.mp hnd).1
      rcases List.mem_cons.mp h with heq | hmem
      · obtain ⟨h1, h2⟩ := Prod.mk.injEq .. ▸ heq
        subst h1; subst h2
        simp [alookup]
      · have hka : ¬ k = a := by
          intro hk
          subst hk
          exact ha (List.mem_map.mpr ⟨(k, v), hmem, rfl⟩)
        simp [alookup, hka, ih hnd' hmem]

@[simp] theorem fKeys_nil (P : String × EdgeData → Bool) : fKeys P [] = [] := rfl

theorem fKeys_append (P : String × EdgeData → Bool) (E F : List (String × EdgeData)) :
    fKeys P (E ++ F) = fKeys P E ++ fKeys P F := by
  unfold fKeys
  rw [List.filter_append, List.map_append]

theorem fKeys_singleton (P : String × EdgeData → Bool) (k : String) (e : EdgeData) :
    fKeys P [(k, e)] = if P (k, e) then [k] else [] := by
  unfold fKeys
  by_cases hp : P (k, e) <;> simp [List.filter, hp]

theorem mem_fKeys {P : String × EdgeData → Bool} {E : List (String × EdgeData)}
    {x : String} : x ∈ fKeys P E ↔ ∃ e, (x, e) ∈ E ∧ P (x, e) = true := by
  unfold fKeys
  constructor
  · intro hx
    rcases List.mem_map.mp hx with ⟨q, hq, hfst⟩
    rcases List.mem_filter.mp hq with ⟨hmem, hP⟩
    refine ⟨q.2, ?_, ?_⟩
    · have hq2 : (q.1, q.2) ∈ E := by simpa using hmem
      rw [hfst] at hq2
      exact hq2
    · rw [← hfst]
      simpa using hP
  · rintro ⟨e, hmem, hP⟩
    exact List.mem_map.mpr ⟨(x, e), List.mem_filter.mpr ⟨hmem, hP⟩, rfl⟩

theorem fKeys_sublist_keys (P : String × EdgeData → Bool)
    (E : List (String × EdgeData)) : (fKeys P E).Sublist (E.map Prod.fst) := by
  unfold fKeys
  exact (List.filter_sublist E).map Prod.fst

theorem fKeys_nodup {P : String × EdgeData → Bool} {E : List (String × EdgeData)}
    (hnd : keysND E) : (fKeys P E).Nodup :=
  (fKeys_sublist_keys P E).nodup hnd

theorem fKeys_sublist_mono {P : String × EdgeData → Bool}
    {E F : List (String × EdgeData)} (h : E.Sublist F) :
    (fKeys P E).Sublist (fKeys P F) :=
  (h.filter P).map Prod.fst

theorem mem_fKeys_alookup {P : String × EdgeData → Bool} {E : List (String × EdgeData)}
    (hnd : keysND E) (x : String) :
    x ∈ fKeys P E ↔ ∃ e, alookup E x = some e ∧ P (x, e) = true := by
  rw [mem_fKeys]
  constructor
  · rintro ⟨e, hmem, hP⟩
    exact ⟨e, mem_alookup hnd hmem, hP⟩
  · rintro ⟨e, hl, hP⟩
    exact ⟨e, alookup_mem hl, hP⟩

theorem not_mem_fKeys_of_not_mem_keys {P : String × EdgeData → Bool}
    {E : List (String × EdgeData)} {x : String} (h : x ∉ E.map Prod.fst) :
    x ∉ fKeys P E := by
  intro hx
  rcases mem_fKeys.mp hx with ⟨e, hmem, _⟩
  exact h (List.mem_map.mpr ⟨(x, e), hmem, rfl⟩)

theorem fKeys_aerase {P : String × EdgeData → Bool} {E : List (String × EdgeData)}
    (hnd : keysND E) (k : String) :
    fKeys P (aerase E k) = (fKeys P E).erase k := by
  induction E with
  | nil => simp [aerase]
  | cons p rest ih =>
      obtain ⟨a, b⟩ := p
      have hnd' : keysND rest := by
        simpa [keysND] using (List.nodup_cons.mp hnd).2
      have ha : a ∉ rest.map Prod.fst := by
        simpa [keysND] using (List.nodup_cons.mp hnd).1
      by_cases hka : k = a
      · subst hka
        rw [show aerase ((k, b) :: rest) k = rest by simp [aerase]]
        by_cases hp : P (k, b)
        · rw [show fKeys P ((k, b) :: rest) = k :: fKeys P rest by
              unfold fKeys; simp [List.filter, hp]]
          simp
        · rw [show fKeys P ((k, b) :: rest) = fKeys P rest by
              unfold fKeys; simp [List.filter, hp]]
          rw [List.erase_of_not_mem (not_mem_fKeys_of_not_mem_keys ha)]
      · rw [show aerase ((a, b) :: rest) k = (a, b) :: aerase rest k by
            simp [aerase, hka]]
        by_cases hp : P (a, b)
        · rw [show fKeys P ((a, b) :: aerase rest k) = a :: fKeys P (aerase rest k) by
              unfold fKeys; simp [List.filter, hp]]
          rw [show fKeys P ((a, b) :: rest) = a :: fKeys P rest by
              unfold fKeys; simp [List.filter, hp]]
          rw [List.erase_cons_tail (by simpa using (fun h => hka h.symm : ¬a = k))]
          rw [ih hnd']
        · rw [show fKeys P ((a, b) :: aerase rest k) = fKeys P (aerase rest k) by
              unfold fKeys; simp [List.filter, hp]]
          rw [show fKeys P ((a, b) :: rest) = fKeys P rest by
              unfold fKeys; simp [List.filter, hp]]
          exact ih hnd'

theorem uPred_symm (A B : String) (q : String × EdgeData) :
    uPred A B q = uPred B A q := by
  unfold uPred
  by_cases h : q.2.undirected = true ∧
      ((q.2.source = A ∧ q.2.target = B) ∨ (q.2.source = B ∧ q.2.target = A))
  · rw [decide_eq_true h, decide_eq_true (by tauto)]
  · rw [decide_eq_false h, decide_eq_false (by tauto)]

theorem uKeys_symm (E : List (String × EdgeData)) (A B : String) :
    uKeys E A B = uKeys E B A := by
  unfold uKeys fKeys
  congr 1
  exact List.filter_congr (fun q _ => uPred_symm A B q)

/-! ### entryOk and predicate helpers -/

theorem dPred_iff (A B : String) (k : String) (e : EdgeData) :
    dPred A B (k, e) = true ↔
      e.undirected = false ∧ e.source = A ∧ e.target = B := by
  unfold dPred
  exact decide_eq_true_iff

theorem uPred_iff (A B : String) (k : String) (e : EdgeData) :
    uPred A B (k, e) = true ↔
      e.undirected = true ∧
        ((e.source = A ∧ e.target = B) ∨ (e.source = B ∧ e.target = A)) := by
  unfold uPred
  exact decide_eq_true_iff

theorem dKeys_append_single (E : List (String × EdgeData)) (k : String)
    (e : EdgeData) (A B : String) :
    dKeys (E ++ [(k, e)]) A B =
      dKeys E A B ++ (if dPred A B (k, e) then [k] else []) := by
  unfold dKeys
  rw [fKeys_append, fKeys_singleton]

theorem uKeys_append_single (E : List (String × EdgeData)) (k : String)
    (e : EdgeData) (A B : String) :
    uKeys (E ++ [(k, e)]) A B =
      uKeys E A B ++ (if uPred A B (k, e) then [k] else []) := by
  unfold uKeys
  rw [fKeys_append, fKeys_singleton]

theorem entryOk_congr_mem {m : Bool} {heap : List (Nat × EntryVal)} {o : Option Nat}
    {es es' : List String} (hmem : ∀ x, x ∈ es ↔ x ∈ es')
    (h : entryOk m heap o es) : entryOk m heap o es' := by
  cases o with
  | none =>
      unfold entryOk at h ⊢
      rw [List.eq_nil_iff_forall_not_mem] at h ⊢
      intro x hx
      exact h x ((hmem x).mpr hx)
  | some hh =>
      unfold entryOk at h ⊢
      obtain ⟨hne, hrest⟩ := h
      refine ⟨?_, ?_⟩
      · intro hnil
        rcases List.exists_mem_of_ne_nil es hne with ⟨x, hx⟩
        rw [hnil] at hmem
        exact absurd ((hmem x).mp hx) (by simp)
      · cases hl : alookup heap hh with
        | none => rw [hl] at hrest; exact hrest
        | some v =>
            rw [hl] at hrest
            cases v with
            | simple e' =>
                obtain ⟨hm, hiff⟩ := hrest
                exact ⟨hm, fun x => (hmem x).symm.trans (hiff x)⟩
            | multi s =>
                obtain ⟨hm, hnd, hiff⟩ := hrest
                exact ⟨hm, hnd, fun x => (hiff x).trans (hmem x)⟩

theorem entryOk_heap_congr {m : Bool} {heap heap' : List (Nat × EntryVal)}
    {o : Option Nat} {es : List String}
    (hh : ∀ x, o = some x → alookup heap' x = alookup heap x)
    (h : entryOk m heap o es) : entryOk m heap' o es := by
  cases o with
  | none => exact h
  | some x =>
      unfold entryOk at h ⊢
      dsimp only at h ⊢
      rw [hh x rfl]
      exact h

theorem entryOk_some_heap_isSome {m : Bool} {heap : List (Nat × EntryVal)}
    {x : Nat} {es : List String} (h : entryOk m heap (some x) es) :
    (alookup heap x).isSome = true := by
  unfold entryOk at h
  obtain ⟨-, hrest⟩ := h
  cases hl : alookup heap x with
  | none => rw [hl] at hrest; exact absurd hrest (by simp)
  | some v => simp

theorem entryOk_some_ne_nil {m : Bool} {heap : List (Nat × EntryVal)}
    {x : Nat} {es : List String} (h : entryOk m heap (some x) es) : es ≠ [] := by
  unfold entryOk at h
  exact h.1

/-! ### Branch equations for the index update and clear functions -/

theorem mirrorIfAbsent_none {g : Graph} {u : Bool} {S T : String} {h : Nat}
    (ht : alookup g.nodes T = none) : mirrorIfAbsent g u S T h = g := by
  unfold mirrorIfAbsent
  rw [ht]

theorem mirrorIfAbsent_present {g : Graph} {u : Bool} {S T : String} {h : Nat}
    {td : NodeData} (ht : alookup g.nodes T = some td)
    (hpres : (alookup (if u then td.undirected else td.«in») S).isSome = true) :
    mirrorIfAbsent g u S T h = g := by
  unfold mirrorIfAbsent
  rw [ht]
  dsimp only
  rw [if_pos hpres]

theorem mirrorIfAbsent_absent {g : Graph} {u : Bool} {S T : String} {h : Nat}
    {td : NodeData} (ht : alookup g.nodes T = some td)
    (habs : (alookup (if u then td.undirected else td.«in») S).isSome = false) :
    mirrorIfAbsent g u S T h =
      { g with nodes := (aput g.nodes T
          (if u then { td with undirected := aput td.undirected S h }
           else { td with «in» := aput td.«in» S h })) } := by
  unfold mirrorIfAbsent
  rw [ht]
  dsimp only
  rw [if_neg (by rw [habs]; simp)]

theorem updateStructureIndex_none {g : Graph} {u : Bool} {k S T : String}
    (hs : alookup g.nodes S = none) : updateStructureIndex g u k S T = g := by
  unfold updateStructureIndex
  rw [hs]

theorem updateStructureIndex_existing {g : Graph} {u : Bool} {k S T : String}
    {sd : NodeData} {h : Nat} (hsd : alookup g.nodes S = some sd)
    (hslot : alookup (if u then sd.undirected else sd.out) T = some h) :
    updateStructureIndex g u k S T =
      (if S = T then
        (if g.multi then { g with heap := heapAdd g.heap h k } else g)
       else
        mirrorIfAbsent (if g.multi then { g with heap := heapAdd g.heap h k } else g)
          u S T h) := by
  unfold updateStructureIndex
  rw [hsd]
  dsimp only
  rw [hslot]

theorem updateStructureIndex_alloc {g : Graph} {u : Bool} {k S T : String}
    {sd : NodeData} (hsd : alookup g.nodes S = some sd)
    (hslot : alookup (if u then sd.undirected else sd.out) T = none) :
    updateStructureIndex g u k S T =
      (if S = T then updAlloc g u k S T sd
       else mirrorIfAbsent (updAlloc g u k S T sd) u S T g.nextRef) := by
  unfold updateStructureIndex updAlloc
  rw [hsd]
  dsimp only
  rw [hslot]

theorem heapAdd_eq {heap : List (Nat × EntryVal)} {h : Nat} {s : List String}
    (hl : alookup heap h = some (EntryVal.multi s)) (k : String) (hk : k ∉ s) :
    heapAdd heap h k = aput heap h (EntryVal.multi (s ++ [k])) := by
  unfold heapAdd
  rw [hl]
  dsimp only
  rw [if_neg hk]

theorem mirrorIfAbsent_presentD {g : Graph} {S T : String} {h : Nat}
    {td : NodeData} (ht : alookup g.nodes T = some td)
    (hpres : (alookup td.«in» S).isSome = true) :
    mirrorIfAbsent g false S T h = g :=
  mirrorIfAbsent_present ht (by simpa using hpres)

theorem mirrorIfAbsent_presentU {g : Graph} {S T : String} {h : Nat}
    {td : NodeData} (ht : alookup g.nodes T = some td)
    (hpres : (alookup td.undirected S).isSome = true) :
    mirrorIfAbsent g true S T h = g :=
  mirrorIfAbsent_present ht (by simpa using hpres)

theorem mirrorIfAbsent_absentD {g : Graph} {S T : String} {h : Nat}
    {td : NodeData} (ht : alookup g.nodes T = some td)
    (habs : (alookup td.«in» S).isSome = false) :
    mirrorIfAbsent g false S T h =
      { g with nodes := (aput g.nodes T { td with «in» := aput td.«in» S h }) } := by
  rw [mirrorIfAbsent_absent ht (by simpa using habs)]
  rfl

theorem mirrorIfAbsent_absentU {g : Graph} {S T : String} {h : Nat}
    {td : NodeData} (ht : alookup g.nodes T = some td)
    (habs : (alookup td.undirected S).isSome = false) :
    mirrorIfAbsent g true S T h =
      { g with nodes := (aput g.nodes T { td with undirected := aput td.undirected S h }) } := by
  rw [mirrorIfAbsent_absent ht (by simpa using habs)]
  rfl

theorem updateStructureIndex_existingD {g : Graph} {k S T : String}
    {sd : NodeData} {h : Nat} (hsd : alookup g.nodes S = some sd)
    (hslot : alookup sd.out T = some h) :
    updateStructureIndex g false k S T =
      (if S = T then
        (if g.multi then { g with heap := heapAdd g.heap h k } else g)
       else
        mirrorIfAbsent (if g.multi then { g with heap := heapAdd g.heap h k } else g)
          false S T h) :=
  updateStructureIndex_existing hsd (by simpa using hslot)

theorem updateStructureIndex_existingU {g : Graph} {k S T : String}
    {sd : NodeData} {h : Nat} (hsd : alookup g.nodes S = some sd)
    (hslot : alookup sd.undirected T = some h) :
    updateStructureIndex g true k S T =
      (if S = T then
        (if g.multi then { g with heap := heapAdd g.heap h k } else g)
       else
        mirrorIfAbsent (if g.multi then { g with heap := heapAdd g.heap h k } else g)
          true S T h) :=
  updateStructureIndex_existing hsd (by simpa using hslot)

theorem updateStructureIndex_allocD {g : Graph} {k S T : String}
    {sd : NodeData} (hsd : alookup g.nodes S = some sd)
    (hslot : alookup sd.out T = none) :
    updateStructureIndex g false k S T =
      (if S = T then updAllocD g k S T sd
       else mirrorIfAbsent (updAllocD g k S T sd) false S T g.nextRef) := by
  rw [updateStructureIndex_alloc hsd (by simpa using hslot)]
  rfl

theorem updateStructureIndex_allocU {g : Graph} {k S T : String}
    {sd : NodeData} (hsd : alookup g.nodes S = some sd)
    (hslot : alookup sd.undirected T = none) :
    updateStructureIndex g true k S T =
      (if S = T then updAllocU g k S T sd
       else mirrorIfAbsent (updAllocU g k S T sd) true S T g.nextRef) := by
  rw [updateStructureIndex_alloc hsd (by simpa using hslot)]
  rfl

/-! ### Preservation of the index invariant by `updateStructureIndex` -/

theorem ownerD_heap_isSome {g : Graph} {E : List (String × EdgeData)} {h : Nat}
    {A B : String} (hIdx : IndexOkOn g E) (ho : OwnerD g h A B) :
    (alookup g.heap h).isSome = true := by
  obtain ⟨dA, hA, hB⟩ := ho
  have hout := (hIdx A dA hA).1 B
  rw [hB] at hout
  exact entryOk_some_heap_isSome hout

theorem ownerU_heap_isSome {g : Graph} {E : List (String × EdgeData)} {h : Nat}
    {A B : String} (hIdx : IndexOkOn g E) (ho : OwnerU g h A B) :
    (alookup g.heap h).isSome = true := by
  obtain ⟨dA, hA, hB⟩ := ho
  have hout := (hIdx A dA hA).2.1 B
  rw [hB] at hout
  exact entryOk_some_heap_isSome hout

theorem alookup_aput_ne {κ α : Type} [DecidableEq κ] {l : List (κ × α)} {k k' : κ}
    (h : ¬ k' = k) (v : α) : alookup (aput l k v) k' = alookup l k' := by
  rw [alookup_aput, if_neg h]

theorem alookup_aput_self {κ α : Type} [DecidableEq κ] (l : List (κ × α)) (k : κ)
    (v : α) : alookup (aput l k v) k = some v := by
  rw [alookup_aput, if_pos rfl]

theorem alookup_aput_fresh {l : List (Nat × EntryVal)} {h0 x : Nat}
    (hx : (alookup l x).isSome = true)
    (hfr : ∀ hh, (alookup l hh).isSome = true → hh < h0) (v : EntryVal) :
    alookup (aput l h0 v) x = alookup l x := by
  have hne : ¬ x = h0 := fun hE => absurd (hfr x hx) (hE ▸ lt_irrefl _)
  rw [alookup_aput, if_neg hne]

theorem entryOk_heap_fresh {m : Bool} {heap : List (Nat × EntryVal)} {o : Option Nat}
    {es : List String} (h : entryOk m heap o es) (h0 : Nat)
    (hfr : ∀ hh, (alookup heap hh).isSome = true → hh < h0) (v : EntryVal) :
    entryOk m (aput heap h0 v) o es := by
  refine entryOk_heap_congr ?_ h
  intro x hxo
  have hx : (alookup heap x).isSome = true := entryOk_some_heap_isSome (hxo ▸ h)
  exact alookup_aput_fresh hx hfr v

theorem entryOk_new_singleton (m : Bool) (heap : List (Nat × EntryVal)) (h0 : Nat)
    (k : String)
    (hl : alookup heap h0 =
      some (if m then EntryVal.multi [k] else EntryVal.simple k)) :
    entryOk m heap (some h0) [k] := by
  unfold entryOk
  dsimp only
  cases m with
  | false =>
      simp at hl
      rw [hl]
      dsimp only
      exact ⟨by simp, rfl, by simp⟩
  | true =>
      simp at hl
      rw [hl]
      dsimp only
      exact ⟨by simp, rfl, List.nodup_singleton k, by simp⟩

theorem idxInv_updAllocD_self (g : Graph) (E : List (String × EdgeData))
    (k : String) (att : Nat) (S : String) (sd : NodeData)
    (hndN : keysND g.nodes)
    (hndS : ∀ A dA, alookup g.nodes A = some dA →
      keysND dA.out ∧ keysND dA.«in» ∧ keysND dA.undirected)
    (hFresh : ∀ h, (alookup g.heap h).isSome = true → h < g.nextRef)
    (hSep : HandleSep g)
    (hIdx : IndexOkOn g E)
    (hsd : alookup g.nodes S = some sd)
    (hslot : alookup sd.out S = none)
    (hD : ∀ A B, dKeys (E ++ [(k,
        ({ undirected := false, attributes := att, source := S, target := S } : EdgeData))]) A B
      = dKeys E A B ++ (if S = A ∧ S = B then [k] else []))
    (hU : ∀ A B, uKeys (E ++ [(k,
        ({ undirected := false, attributes := att, source := S, target := S } : EdgeData))]) A B
      = uKeys E A B) :
    IdxInv (updAllocD g k S S sd)
      (E ++ [(k,
        ({ undirected := false, attributes := att, source := S, target := S } : EdgeData))]) := by
  have hest : dKeys E S S = [] := by
    have h1 := (hIdx S sd hsd).1 S
    rw [hslot] at h1
    exact h1
  have hfn : (updAllocD g k S S sd).nodes
      = aput g.nodes S { sd with out := aput sd.out S g.nextRef } := rfl
  have hNotOwn0D : ∀ A B, ¬ OwnerD g g.nextRef A B := fun A B ho =>
    absurd (hFresh _ (ownerD_heap_isSome hIdx ho)) (lt_irrefl _)
  have hNotOwn0U : ∀ A B, ¬ OwnerU g g.nextRef A B := fun A B ho =>
    absurd (hFresh _ (ownerU_heap_isSome hIdx ho)) (lt_irrefl _)
  unfold IdxInv
  refine ⟨?_, ?_, ?_, ?_, ?_⟩
  · unfold keysND
    rw [hfn, map_fst_aput_of_lookup hsd]
    exact hndN
  · intro A dA hA
    rw [hfn] at hA
    by_cases hAS : A = S
    · rw [hAS, alookup_aput_self] at hA
      obtain rfl := Option.some.inj hA
      obtain ⟨ho, hi, hu2⟩ := hndS S sd hsd
      exact ⟨keysND_aput ho S g.nextRef, hi, hu2⟩
    · rw [alookup_aput_ne hAS] at hA
      exact hndS A dA hA
  · intro x hx
    show x < g.nextRef + 1
    rw [show (updAllocD g k S S sd).heap = aput g.heap g.nextRef
        (if g.multi then EntryVal.multi [k] else EntryVal.simple k) from rfl] at hx
    by_cases hxh : x = g.nextRef
    · omega
    · rw [alookup_aput_ne hxh] at hx
      exact lt_trans (hFresh x hx) (Nat.lt_succ_self _)
  · -- handle separation
    have hOwnD : ∀ h A B, OwnerD (updAllocD g k S S sd) h A B ↔
        (OwnerD g h A B ∨ (h = g.nextRef ∧ A = S ∧ B = S)) := by
      intro h A B
      unfold OwnerD
      rw [hfn]
      constructor
      · rintro ⟨dA, hA, hB⟩
        by_cases hAS : A = S
        · rw [hAS, alookup_aput_self] at hA
          obtain rfl := Option.some.inj hA
          have hB' : alookup (aput sd.out S g.nextRef) B = some h := hB
          by_cases hBS : B = S
          · rw [hBS, alookup_aput_self] at hB'
            exact Or.inr ⟨(Option.some.inj hB').symm, hAS, hBS⟩
          · rw [alookup_aput_ne hBS] at hB'
            exact Or.inl ⟨sd, by rw [hAS]; exact hsd, hB'⟩
        · rw [alookup_aput_ne hAS] at hA
          exact Or.inl ⟨dA, hA, hB⟩
      · rintro (⟨dA, hA, hB⟩ | ⟨he, hA2, hB2⟩)
        · by_cases hAS : A = S
          · have hA' : alookup g.nodes S = some dA := by rw [← hAS]; exact hA
            rw [hsd] at hA'
            obtain rfl := Option.some.inj hA'
            have hBS : ¬ B = S := fun hE => by
              rw [hE, hslot] at hB
              exact absurd hB (by simp)
            refine ⟨{ sd with out := aput sd.out S g.nextRef }, ?_, ?_⟩
            · rw [hAS]
              exact alookup_aput_self _ _ _
            · show alookup (aput sd.out S g.nextRef) B = some h
              rw [alookup_aput_ne hBS]
              exact hB
          · exact ⟨dA, by rw [alookup_aput_ne hAS]; exact hA, hB⟩
        · refine ⟨{ sd with out := aput sd.out S g.nextRef }, ?_, ?_⟩
          · rw [hA2]
            exact alookup_aput_self _ _ _
          · show alookup (aput sd.out S g.nextRef) B = some h
            rw [hB2, he]
            exact alookup_aput_self _ _ _
    have hOwnU : ∀ h A B, OwnerU (updAllocD g k S S sd) h A B ↔ OwnerU g h A B := by
      intro h A B
      unfold OwnerU
      rw [hfn]
      constructor
      · rintro ⟨dA, hA, hB⟩
        by_cases hAS : A = S
        · rw [hAS, alookup_aput_self] at hA
          obtain rfl := Option.some.inj hA
          exact ⟨sd, by rw [hAS]; exact hsd, hB⟩
        · rw [alookup_aput_ne hAS] at hA
          exact ⟨dA, hA, hB⟩
      · rintro ⟨dA, hA, hB⟩
        by_cases hAS : A = S
        · have hA' : alookup g.nodes S = some dA := by rw [← hAS]; exact hA
          rw [hsd] at hA'
          obtain rfl := Option.some.inj hA'
          refine ⟨{ sd with out := aput sd.out S g.nextRef }, ?_, hB⟩
          rw [hAS]
          exact alookup_aput_self _ _ _
        · exact ⟨dA, by rw [alookup_aput_ne hAS]; exact hA, hB⟩
    refine ⟨?_, ?_, ?_⟩
    · intro h A B A' B' h1 h2
      rw [hOwnD h A B] at h1
      rw [hOwnD h A' B'] at h2
      rcases h1 with h1 | ⟨he, hA2, hB2⟩ <;> rcases h2 with h2 | ⟨he', hA2', hB2'⟩
      · exact hSep.1 h A B A' B' h1 h2
      · rw [he'] at h1
        exact absurd h1 (hNotOwn0D A B)
      · rw [he] at h2
        exact absurd h2 (hNotOwn0D A' B')
      · rw [hA2, hB2, hA2', hB2']
        exact ⟨rfl, rfl⟩
    · intro h A B A' B' h1 h2
      rw [hOwnU h A B] at h1
      rw [hOwnU h A' B'] at h2
      exact hSep.2.1 h A B A' B' h1 h2
    · intro h A B A' B' h1 h2
      rw [hOwnD h A B] at h1
      rw [hOwnU h A' B'] at h2
      rcases h1 with h1 | ⟨he, hA2, hB2⟩
      · exact hSep.2.2 h A B A' B' h1 h2
      · rw [he] at h2
        exact absurd h2 (hNotOwn0U A' B')
  · -- index correctness
    intro A dA hA
    rw [hfn] at hA
    by_cases hAS : A = S
    · rw [hAS, alookup_aput_self] at hA
      obtain rfl := Option.some.inj hA
      refine ⟨?_, ?_, ?_, ?_⟩
      · intro B
        rw [hAS, hD S B]
        by_cases hBS : B = S
        · rw [hBS, if_pos ⟨rfl, rfl⟩, hest, List.nil_append]
          show entryOk (updAllocD g k S S sd).multi (updAllocD g k S S sd).heap
            (alookup (aput sd.out S g.nextRef) S) [k]
          rw [alookup_aput_self]
          exact entryOk_new_singleton _ _ _ _ (alookup_aput_self _ _ _)
        · rw [if_neg (fun hc => hBS hc.2.symm), List.append_nil]
          show entryOk (updAllocD g k S S sd).multi (updAllocD g k S S sd).heap
            (alookup (aput sd.out S g.nextRef) B) (dKeys E S B)
          rw [alookup_aput_ne hBS]
          exact entryOk_heap_fresh ((hIdx S sd hsd).1 B) _ hFresh _
      · intro B
        rw [hAS, hU S B]
        exact entryOk_heap_fresh ((hIdx S sd hsd).2.1 B) _ hFresh _
      · rw [hfn, hAS]
        intro B
        have hold := (hIdx S sd hsd).2.2.1 B
        by_cases hBS : B = S
        · rw [if_pos hBS]
          rw [if_pos hBS] at hold
          exact hold
        · rw [if_neg hBS, alookup_aput_ne hBS]
          rw [if_neg hBS] at hold
          exact hold
      · rw [hfn, hAS]
        intro B hBS
        rw [alookup_aput_ne hBS]
        exact (hIdx S sd hsd).2.2.2 B hBS
    · rw [alookup_aput_ne hAS] at hA
      obtain ⟨hOutA, hUndA, hInA, hUMA⟩ := hIdx A dA hA
      refine ⟨?_, ?_, ?_, ?_⟩
      · intro B
        rw [hD A B, if_neg (fun hc => hAS hc.1.symm), List.append_nil]
        exact entryOk_heap_fresh (hOutA B) _ hFresh _
      · intro B
        rw [hU A B]
        exact entryOk_heap_fresh (hUndA B) _ hFresh _
      · rw [hfn]
        intro B
        have hold := hInA B
        by_cases hBA : B = A
        · rw [if_pos hBA]
          rw [if_pos hBA] at hold
          exact hold
        · rw [if_neg hBA]
          rw [if_neg hBA] at hold
          by_cases hBS : B = S
          · rw [hBS, alookup_aput_self]
            rw [hBS, hsd] at hold
            dsimp only at hold ⊢
            rw [alookup_aput_ne hAS]
            exact hold
          · rw [alookup_aput_ne hBS]
            exact hold
      · rw [hfn]
        intro B hBA
        have hold := hUMA B hBA
        by_cases hBS : B = S
        · rw [hBS, alookup_aput_self]
          rw [hBS, hsd] at hold
          dsimp only at hold ⊢
          exact hold
        · rw [alookup_aput_ne hBS]
          exact hold

theorem idxInv_updAllocD_mirror (g : Graph) (E : List (String × EdgeData))
    (k : String) (att : Nat) (S T : String) (sd td : NodeData)
    (hst : ¬ S = T)
    (hndN : keysND g.nodes)
    (hndS : ∀ A dA, alookup g.nodes A = some dA →
      keysND dA.out ∧ keysND dA.«in» ∧ keysND dA.undirected)
    (hFresh : ∀ h, (alookup g.heap h).isSome = true → h < g.nextRef)
    (hSep : HandleSep g)
    (hIdx : IndexOkOn g E)
    (hsd : alookup g.nodes S = some sd)
    (htd : alookup g.nodes T = some td)
    (hslot : alookup sd.out T = none)
    (hD : ∀ A B, dKeys (E ++ [(k,
        ({ undirected := false, attributes := att, source := S, target := T } : EdgeData))]) A B
      = dKeys E A B ++ (if S = A ∧ T = B then [k] else []))
    (hU : ∀ A B, uKeys (E ++ [(k,
        ({ undirected := false, attributes := att, source := S, target := T } : EdgeData))]) A B
      = uKeys E A B) :
    IdxInv (updAllocDM g k S T sd td)
      (E ++ [(k,
        ({ undirected := false, attributes := att, source := S, target := T } : EdgeData))]) := by
  have hts : ¬ T = S := fun hE => hst hE.symm
  have hest : dKeys E S T = [] := by
    have h1 := (hIdx S sd hsd).1 T
    rw [hslot] at h1
    exact h1
  have hfn : (updAllocDM g k S T sd td).nodes
      = aput (aput g.nodes S { sd with out := aput sd.out T g.nextRef })
          T { td with «in» := aput td.«in» S g.nextRef } := rfl
  have htd1 : alookup (aput g.nodes S { sd with out := aput sd.out T g.nextRef }) T
      = some td := by
    rw [alookup_aput_ne hts]
    exact htd
  have hNotOwn0D : ∀ A B, ¬ OwnerD g g.nextRef A B := fun A B ho =>
    absurd (hFresh _ (ownerD_heap_isSome hIdx ho)) (lt_irrefl _)
  have hNotOwn0U : ∀ A B, ¬ OwnerU g g.nextRef A B := fun A B ho =>
    absurd (hFresh _ (ownerU_heap_isSome hIdx ho)) (lt_irrefl _)
  unfold IdxInv
  refine ⟨?_, ?_, ?_, ?_, ?_⟩
  · unfold keysND
    rw [hfn, map_fst_aput_of_lookup htd1, map_fst_aput_of_lookup hsd]
    exact hndN
  · intro A dA hA
    rw [hfn] at hA
    by_cases hAT : A = T
    · rw [hAT, alookup_aput_self] at hA
      obtain rfl := Option.some.inj hA
      obtain ⟨ho, hi, hu2⟩ := hndS T td htd
      exact ⟨ho, keysND_aput hi S g.nextRef, hu2⟩
    · rw [alookup_aput_ne hAT] at hA
      by_cases hAS : A = S
      · rw [hAS, alookup_aput_self] at hA
        obtain rfl := Option.some.inj hA
        obtain ⟨ho, hi, hu2⟩ := hndS S sd hsd
        exact ⟨keysND_aput ho T g.nextRef, hi, hu2⟩
      · rw [alookup_aput_ne hAS] at hA
        exact hndS A dA hA
  · intro x hx
    show x < g.nextRef + 1
    rw [show (updAllocDM g k S T sd td).heap = aput g.heap g.nextRef
        (if g.multi then EntryVal.multi [k] else EntryVal.simple k) from rfl] at hx
    by_cases hxh : x = g.nextRef
    · omega
    · rw [alookup_aput_ne hxh] at hx
      exact lt_trans (hFresh x hx) (Nat.lt_succ_self _)
  · -- handle separation
    have hOwnD : ∀ h A B, OwnerD (updAllocDM g k S T sd td) h A B ↔
        (OwnerD g h A B ∨ (h = g.nextRef ∧ A = S ∧ B = T)) := by
      intro h A B
      unfold OwnerD
      rw [hfn]
      constructor
      · rintro ⟨dA, hA, hB⟩
        by_cases hAT : A = T
        · rw [hAT, alookup_aput_self] at hA
          obtain rfl := Option.some.inj hA
          exact Or.inl ⟨td, by rw [hAT]; exact htd, hB⟩
        · rw [alookup_aput_ne hAT] at hA
          by_cases hAS : A = S
          · rw [hAS, alookup_aput_self] at hA
            obtain rfl := Option.some.inj hA
            have hB' : alookup (aput sd.out T g.nextRef) B = some h := hB
            by_cases hBT : B = T
            · rw [hBT, alookup_aput_self] at hB'
              exact Or.inr ⟨(Option.some.inj hB').symm, hAS, hBT⟩
            · rw [alookup_aput_ne hBT] at hB'
              exact Or.inl ⟨sd, by rw [hAS]; exact hsd, hB'⟩
          · rw [alookup_aput_ne hAS] at hA
            exact Or.inl ⟨dA, hA, hB⟩
      · rintro (⟨dA, hA, hB⟩ | ⟨he, hA2, hB2⟩)
        · by_cases hAT : A = T
          · have hA' : alookup g.nodes T = some dA := by rw [← hAT]; exact hA
            rw [htd] at hA'
            obtain rfl := Option.some.inj hA'
            refine ⟨{ td with «in» := aput td.«in» S g.nextRef }, ?_, hB⟩
            rw [hAT]
            exact alookup_aput_self _ _ _
          · by_cases hAS : A = S
            · have hA' : alookup g.nodes S = some dA := by rw [← hAS]; exact hA
              rw [hsd] at hA'
              obtain rfl := Option.some.inj hA'
              have hBT : ¬ B = T := fun hE => by
                rw [hE, hslot] at hB
                exact absurd hB (by simp)
              refine ⟨{ sd with out := aput sd.out T g.nextRef }, ?_, ?_⟩
              · rw [hAS, alookup_aput_ne hst]
                exact alookup_aput_self _ _ _
              · show alookup (aput sd.out T g.nextRef) B = some h
                rw [alookup_aput_ne hBT]
                exact hB
            · refine ⟨dA, ?_, hB⟩
              rw [alookup_aput_ne hAT, alookup_aput_ne hAS]
              exact hA
        · refine ⟨{ sd with out := aput sd.out T g.nextRef }, ?_, ?_⟩
          · rw [hA2, alookup_aput_ne hst]
            exact alookup_aput_self _ _ _
          · show alookup (aput sd.out T g.nextRef) B = some h
            rw [hB2, he]
            exact alookup_aput_self _ _ _
    have hOwnU : ∀ h A B, OwnerU (updAllocDM g k S T sd td) h A B ↔ OwnerU g h A B := by
      intro h A B
      unfold OwnerU
      rw [hfn]
      constructor
      · rintro ⟨dA, hA, hB⟩
        by_cases hAT : A = T
        · rw [hAT, alookup_aput_self] at hA
          obtain rfl := Option.some.inj hA
          exact ⟨td, by rw [hAT]; exact htd, hB⟩
        · rw [alookup_aput_ne hAT] at hA
          by_cases hAS : A = S
          · rw [hAS, alookup_aput_self] at hA
            obtain rfl := Option.some.inj hA
            exact ⟨sd, by rw [hAS]; exact hsd, hB⟩
          · rw [alookup_aput_ne hAS] at hA
            exact ⟨dA, hA, hB⟩
      · rintro ⟨dA, hA, hB⟩
        by_cases hAT : A = T
        · have hA' : alookup g.nodes T = some dA := by rw [← hAT]; exact hA
          rw [htd] at hA'
          obtain rfl := Option.some.inj hA'
          refine ⟨{ td with «in» := aput td.«in» S g.nextRef }, ?_, hB⟩
          rw [hAT]
          exact alookup_aput_self _ _ _
        · by_cases hAS : A = S
          · have hA' : alookup g.nodes S = some dA := by rw [← hAS]; exact hA
            rw [hsd] at hA'
            obtain rfl := Option.some.inj hA'
            refine ⟨{ sd with out := aput sd.out T g.nextRef }, ?_, hB⟩
            rw [hAS, alookup_aput_ne hst]
            exact alookup_aput_self _ _ _
          · refine ⟨dA, ?_, hB⟩
            rw [alookup_aput_ne hAT, alookup_aput_ne hAS]
            exact hA
    refine ⟨?_, ?_, ?_⟩
    · intro h A B A' B' h1 h2
      rw [hOwnD h A B] at h1
      rw [hOwnD h A' B'] at h2
      rcases h1 with h1 | ⟨he, hA2, hB2⟩ <;> rcases h2 with h2 | ⟨he', hA2', hB2'⟩
      · exact hSep.1 h A B A' B' h1 h2
      · rw [he'] at h1
        exact absurd h1 (hNotOwn0D A B)
      · rw [he] at h2
        exact absurd h2 (hNotOwn0D A' B')
      · rw [hA2, hB2, hA2', hB2']
        exact ⟨rfl, rfl⟩
    · intro h A B A' B' h1 h2
      rw [hOwnU h A B] at h1
      rw [hOwnU h A' B'] at h2
      exact hSep.2.1 h A B A' B' h1 h2
    · intro h A B A' B' h1 h2
      rw [hOwnD h A B] at h1
      rw [hOwnU h A' B'] at h2
      rcases h1 with h1 | ⟨he, hA2, hB2⟩
      · exact hSep.2.2 h A B A' B' h1 h2
      · rw [he] at h2
        exact absurd h2 (hNotOwn0U A' B')
  · -- index correctness
    intro A dA hA
    rw [hfn] at hA
    by_cases hAT : A = T
    · rw [hAT, alookup_aput_self] at hA
      obtain rfl := Option.some.inj hA
      refine ⟨?_, ?_, ?_, ?_⟩
      · intro B
        rw [hAT, hD T B, if_neg (fun hc => hst hc.1), List.append_nil]
        exact entryOk_heap_fresh ((hIdx T td htd).1 B) _ hFresh _
      · intro B
        rw [hAT, hU T B]
        exact entryOk_heap_fresh ((hIdx T td htd).2.1 B) _ hFresh _
      · rw [hfn, hAT]
        intro B
        dsimp only
        by_cases hBT : B = T
        · rw [if_pos hBT, hBT, alookup_aput_ne hts]
          have hold := (hIdx T td htd).2.2.1 T
          rw [if_pos rfl] at hold
          exact hold
        · rw [if_neg hBT]
          by_cases hBS : B = S
          · rw [hBS, alookup_aput_self, alookup_aput_ne hst, alookup_aput_self]
            dsimp only
            rw [alookup_aput_self]
          · rw [alookup_aput_ne hBS, alookup_aput_ne hBT, alookup_aput_ne hBS]
            have hold := (hIdx T td htd).2.2.1 B
            rw [if_neg hBT] at hold
            exact hold
      · rw [hfn, hAT]
        intro B hBT
        dsimp only
        by_cases hBS : B = S
        · rw [hBS, alookup_aput_ne hst, alookup_aput_self]
          dsimp only
          have hold := (hIdx T td htd).2.2.2 S hst
          rw [hsd] at hold
          dsimp only at hold
          exact hold
        · rw [alookup_aput_ne hBT, alookup_aput_ne hBS]
          exact (hIdx T td htd).2.2.2 B hBT
    · rw [alookup_aput_ne hAT] at hA
      by_cases hAS : A = S
      · rw [hAS, alookup_aput_self] at hA
        obtain rfl := Option.some.inj hA
        refine ⟨?_, ?_, ?_, ?_⟩
        · intro B
          rw [hAS, hD S B]
          dsimp only
          by_cases hBT : B = T
          · rw [hBT, if_pos ⟨rfl, rfl⟩, hest, List.nil_append, alookup_aput_self]
            exact entryOk_new_singleton _ _ _ _ (alookup_aput_self _ _ _)
          · rw [if_neg (fun hc => hBT hc.2.symm), List.append_nil, alookup_aput_ne hBT]
            exact entryOk_heap_fresh ((hIdx S sd hsd).1 B) _ hFresh _
        · intro B
          rw [hAS, hU S B]
          exact entryOk_heap_fresh ((hIdx S sd hsd).2.1 B) _ hFresh _
        · rw [hfn, hAS]
          intro B
          dsimp only
          by_cases hBS : B = S
          · rw [if_pos hBS]
            have hold := (hIdx S sd hsd).2.2.1 B
            rw [if_pos hBS] at hold
            exact hold
          · rw [if_neg hBS]
            have hold := (hIdx S sd hsd).2.2.1 B
            rw [if_neg hBS] at hold
            by_cases hBT : B = T
            · rw [hBT, alookup_aput_self]
              dsimp only
              rw [hBT, htd] at hold
              dsimp only at hold
              exact hold
            · rw [alookup_aput_ne hBT, alookup_aput_ne hBS]
              exact hold
        · rw [hfn, hAS]
          intro B hBS
          dsimp only
          by_cases hBT : B = T
          · rw [hBT, alookup_aput_self]
            dsimp only
            have hold := (hIdx S sd hsd).2.2.2 B hBS
            rw [hBT, htd] at hold
            dsimp only at hold
            exact hold
          · rw [alookup_aput_ne hBT, alookup_aput_ne hBS]
            exact (hIdx S sd hsd).2.2.2 B hBS
      · rw [alookup_aput_ne hAS] at hA
        obtain ⟨hOutA, hUndA, hInA, hUMA⟩ := hIdx A dA hA
        refine ⟨?_, ?_, ?_, ?_⟩
        · intro B
          rw [hD A B, if_neg (fun hc => hAS hc.1.symm), List.append_nil]
          exact entryOk_heap_fresh (hOutA B) _ hFresh _
        · intro B
          rw [hU A B]
          exact entryOk_heap_fresh (hUndA B) _ hFresh _
        · rw [hfn]
          intro B
          have hold := hInA B
          by_cases hBA : B = A
          · rw [if_pos hBA]
            rw [if_pos hBA] at hold
            exact hold
          · rw [if_neg hBA]
            rw [if_neg hBA] at hold
            by_cases hBT : B = T
            · rw [hBT, alookup_aput_self]
              dsimp only
              rw [hBT, htd] at hold
              dsimp only at hold
              exact hold
            · by_cases hBS : B = S
              · rw [hBS, alookup_aput_ne hst, alookup_aput_self]
                dsimp only
                rw [hBS, hsd] at hold
                dsimp only at hold
                rw [alookup_aput_ne hAT]
                exact hold
              · rw [alookup_aput_ne hBT, alookup_aput_ne hBS]
                exact hold
        · rw [hfn]
          intro B hBA
          have hold := hUMA B hBA
          by_cases hBT : B = T
          · rw [hBT, alookup_aput_self]
            dsimp only
            rw [hBT, htd] at hold
            dsimp only at hold
            exact hold
          · by_cases hBS : B = S
            · rw [hBS, alookup_aput_ne hst, alookup_aput_self]
              dsimp only
              rw [hBS, hsd] at hold
              dsimp only at hold
              exact hold
            · rw [alookup_aput_ne hBT, alookup_aput_ne hBS]
              exact hold

theorem idxInv_update_directed_alloc (g : Graph) (E : List (String × EdgeData))
    (k : String) (att : Nat) (S T : String) (sd td : NodeData)
    (hndN : keysND g.nodes)
    (hndS : ∀ A dA, alookup g.nodes A = some dA →
      keysND dA.out ∧ keysND dA.«in» ∧ keysND dA.undirected)
    (hFresh : ∀ h, (alookup g.heap h).isSome = true → h < g.nextRef)
    (hSep : HandleSep g)
    (hIdx : IndexOkOn g E)
    ( _hkE : k ∉ E.map Prod.fst)
    (hsd : alookup g.nodes S = some sd)
    (htd : alookup g.nodes T = some td)
    (hslot : alookup sd.out T = none)
    (hD : ∀ A B, dKeys (E ++ [(k,
        ({ undirected := false, attributes := att, source := S, target := T } : EdgeData))]) A B
      = dKeys E A B ++ (if S = A ∧ T = B then [k] else []))
    (hU : ∀ A B, uKeys (E ++ [(k,
        ({ undirected := false, attributes := att, source := S, target := T } : EdgeData))]) A B
      = uKeys E A B)
    ( _hkdk : ∀ A B, k ∉ dKeys E A B) :
    IdxInv (updateStructureIndex g false k S T)
      (E ++ [(k,
        ({ undirected := false, attributes := att, source := S, target := T } : EdgeData))]) := by
  rw [updateStructureIndex_allocD hsd hslot]
  by_cases hst : S = T
  · rw [if_pos hst]
    rw [← hst] at hslot hD hU ⊢
    exact idxInv_updAllocD_self g E k att S sd hndN hndS hFresh hSep hIdx hsd hslot hD hU
  · rw [if_neg hst]
    have hts : ¬ T = S := fun hE => hst hE.symm
    have htd1 : alookup (updAllocD g k S T sd).nodes T = some td := by
      show alookup (aput g.nodes S { sd with out := aput sd.out T g.nextRef }) T = some td
      rw [alookup_aput_ne hts]
      exact htd
    have habs : (alookup td.«in» S).isSome = false := by
      have hinm := (hIdx T td htd).2.2.1 S
      rw [if_neg hst, hsd] at hinm
      dsimp only at hinm
      rw [hinm, hslot]
      rfl
    have hmir : mirrorIfAbsent (updAllocD g k S T sd) false S T g.nextRef
        = updAllocDM g k S T sd td := by
      rw [mirrorIfAbsent_absentD htd1 (by rw [habs])]
      rfl
    rw [hmir]
    exact idxInv_updAllocD_mirror g E k att S T sd td hst hndN hndS hFresh hSep hIdx
      hsd htd hslot hD hU

theorem idxInv_update_directed (g : Graph) (E : List (String × EdgeData))
    (k : String) (att : Nat) (S T : String)
    (hInv : IdxInv g E)
    (hkE : k ∉ E.map Prod.fst)
    (hs : (alookup g.nodes S).isSome = true)
    (ht : (alookup g.nodes T).isSome = true)
    (hSimple : g.multi = false → dKeys E S T = []) :
    IdxInv (updateStructureIndex g false k S T)
      (E ++ [(k, { undirected := false, attributes := att, source := S, target := T })]) := by
  obtain ⟨hndN, hndS, hFresh, hSep, hIdx⟩ := hInv
  obtain ⟨sd, hsd⟩ := Option.isSome_iff_exists.mp hs
  obtain ⟨td, htd⟩ := Option.isSome_iff_exists.mp ht
  have hD : ∀ A B, dKeys (E ++ [(k,
      ({ undirected := false, attributes := att, source := S, target := T } : EdgeData))]) A B
      = dKeys E A B ++ (if S = A ∧ T = B then [k] else []) := by
    intro A B
    rw [dKeys_append_single]
    by_cases hc : S = A ∧ T = B
    · rw [if_pos (by rw [dPred_iff]; exact ⟨rfl, hc.1, hc.2⟩), if_pos hc]
    · rw [if_neg ?_, if_neg hc]
      rw [dPred_iff]
      dsimp only
      intro hcc
      exact hc ⟨hcc.2.1, hcc.2.2⟩
  have hU : ∀ A B, uKeys (E ++ [(k,
      ({ undirected := false, attributes := att, source := S, target := T } : EdgeData))]) A B
      = uKeys E A B := by
    intro A B
    rw [uKeys_append_single]
    rw [if_neg ?_, List.append_nil]
    rw [uPred_iff]
    dsimp only
    intro hcc
    exact absurd hcc.1 (by simp)
  have hkdk : ∀ A B, k ∉ dKeys E A B := fun A B => not_mem_fKeys_of_not_mem_keys hkE
  cases hslot : alookup sd.out T with
  | some h =>
      have hout := (hIdx S sd hsd).1 T
      rw [hslot] at hout
      by_cases hm : g.multi = true
      · -- existing shared set: add the edge to it
        have hl : ∃ s, alookup g.heap h = some (EntryVal.multi s) ∧ s.Nodup ∧
            ∀ x, x ∈ s ↔ x ∈ dKeys E S T := by
          unfold entryOk at hout
          dsimp only at hout
          obtain ⟨-, hrest⟩ := hout
          cases hl : alookup g.heap h with
          | none => rw [hl] at hrest; exact absurd hrest (by simp)
          | some v =>
              rw [hl] at hrest
              cases v with
              | simple e' =>
                  exact absurd hrest.1 (by rw [hm]; simp)
              | multi s => exact ⟨s, rfl, hrest.2.1, hrest.2.2⟩
        obtain ⟨s, hl, hsnd, hmem⟩ := hl
        have hkns : k ∉ s := fun hk => (hkdk S T) ((hmem k).mp hk)
        rw [updateStructureIndex_existingD hsd hslot, if_pos hm,
            heapAdd_eq hl k hkns]
        have hfinal :
            (if S = T then ({ g with heap := aput g.heap h (EntryVal.multi (s ++ [k])) } : Graph)
             else mirrorIfAbsent { g with heap := aput g.heap h (EntryVal.multi (s ++ [k])) }
               false S T h) =
            { g with heap := aput g.heap h (EntryVal.multi (s ++ [k])) } := by
        -- the mirrored side already holds the same shared entry
          by_cases hst : S = T
          · rw [if_pos hst]
          · rw [if_neg hst]
            have hinm := (hIdx T td htd).2.2.1 S
            rw [if_neg hst, hsd] at hinm
            refine mirrorIfAbsent_presentD htd ?_
            rw [hinm]
            dsimp only
            rw [hslot]
            rfl
        rw [hfinal]
        unfold IdxInv
        refine ⟨hndN, hndS, ?_, ?_, ?_⟩
        · intro x hx
          show x < g.nextRef
          by_cases hxh : x = h
          · subst hxh
            exact hFresh x (by rw [hl]; rfl)
          · rw [show ({ g with heap := aput g.heap h (EntryVal.multi (s ++ [k])) } : Graph).heap
                  = aput g.heap h (EntryVal.multi (s ++ [k])) from rfl,
                alookup_aput, if_neg hxh] at hx
            exact hFresh x hx
        · exact hSep
        · intro A dA hA
          obtain ⟨hOutA, hUndA, hInA, hUMA⟩ := hIdx A dA hA
          refine ⟨?_, ?_, hInA, hUMA⟩
          · intro B
            rw [hD A B]
            by_cases hc : S = A ∧ T = B
            · obtain ⟨h1, h2⟩ := hc
              subst h1
              subst h2
              have hdA : dA = sd := by
                rw [hA] at hsd
                exact Option.some.inj hsd
              subst hdA
              rw [hslot, if_pos ⟨rfl, rfl⟩]
              unfold entryOk
              dsimp only
              rw [show alookup ({ g with heap := aput g.heap h (EntryVal.multi (s ++ [k])) } : Graph).heap h
                    = some (EntryVal.multi (s ++ [k])) by
                  rw [show ({ g with heap := aput g.heap h (EntryVal.multi (s ++ [k])) } : Graph).heap
                        = aput g.heap h (EntryVal.multi (s ++ [k])) from rfl]
                  rw [alookup_aput, if_pos rfl]]
              refine ⟨by simp, hm, ?_, ?_⟩
              · rw [List.nodup_append]
                exact ⟨hsnd, List.nodup_singleton k, by simpa using hkns⟩
              · intro x
                rw [List.mem_append, List.mem_append, hmem x]
            · rw [if_neg hc, List.append_nil]
              refine entryOk_heap_congr ?_ (hOutA B)
              intro x hx
              have hxh : ¬ x = h := by
                intro hE
                subst hE
                obtain ⟨h1, h2⟩ := hSep.1 x A B S T ⟨dA, hA, hx⟩ ⟨sd, hsd, hslot⟩
                exact hc ⟨h1.symm, h2.symm⟩
              rw [show ({ g with heap := aput g.heap h (EntryVal.multi (s ++ [k])) } : Graph).heap
                    = aput g.heap h (EntryVal.multi (s ++ [k])) from rfl,
                  alookup_aput, if_neg hxh]
          · intro B
            rw [hU A B]
            refine entryOk_heap_congr ?_ (hUndA B)
            intro x hx
            have hxh : ¬ x = h :=
              fun hE => hSep.2.2 h S T A B ⟨sd, hsd, hslot⟩ (hE ▸ ⟨dA, hA, hx⟩)
            rw [show ({ g with heap := aput g.heap h (EntryVal.multi (s ++ [k])) } : Graph).heap
                  = aput g.heap h (EntryVal.multi (s ++ [k])) from rfl,
                alookup_aput, if_neg hxh]
      · -- simple mode: an existing entry contradicts the duplicate guard
        exfalso
        have hms : g.multi = false := by
          cases hmm : g.multi
          · rfl
          · exact absurd hmm hm
        exact absurd (hSimple hms) (entryOk_some_ne_nil hout)
  | none =>
      exact idxInv_update_directed_alloc g E k att S T sd td hndN hndS hFresh hSep hIdx
        hkE hsd htd hslot hD hU hkdk

theorem idxInv_updAllocU_self (g : Graph) (E : List (String × EdgeData))
    (k : String) (att : Nat) (S : String) (sd : NodeData)
    (hndN : keysND g.nodes)
    (hndS : ∀ A dA, alookup g.nodes A = some dA →
      keysND dA.out ∧ keysND dA.«in» ∧ keysND dA.undirected)
    (hFresh : ∀ h, (alookup g.heap h).isSome = true → h < g.nextRef)
    (hSep : HandleSep g)
    (hIdx : IndexOkOn g E)
    (hsd : alookup g.nodes S = some sd)
    (hslot : alookup sd.undirected S = none)
    (hD : ∀ A B, dKeys (E ++ [(k,
        ({ undirected := true, attributes := att, source := S, target := S } : EdgeData))]) A B
      = dKeys E A B)
    (hU : ∀ A B, uKeys (E ++ [(k,
        ({ undirected := true, attributes := att, source := S, target := S } : EdgeData))]) A B
      = uKeys E A B ++ (if (S = A ∧ S = B) ∨ (S = B ∧ S = A) then [k] else [])) :
    IdxInv (updAllocU g k S S sd)
      (E ++ [(k,
        ({ undirected := true, attributes := att, source := S, target := S } : EdgeData))]) := by
  have hest : uKeys E S S = [] := by
    have h1 := (hIdx S sd hsd).2.1 S
    rw [hslot] at h1
    exact h1
  have hfn : (updAllocU g k S S sd).nodes
      = aput g.nodes S { sd with undirected := aput sd.undirected S g.nextRef } := rfl
  have hNotOwn0D : ∀ A B, ¬ OwnerD g g.nextRef A B := fun A B ho =>
    absurd (hFresh _ (ownerD_heap_isSome hIdx ho)) (lt_irrefl _)
  have hNotOwn0U : ∀ A B, ¬ OwnerU g g.nextRef A B := fun A B ho =>
    absurd (hFresh _ (ownerU_heap_isSome hIdx ho)) (lt_irrefl _)
  unfold IdxInv
  refine ⟨?_, ?_, ?_, ?_, ?_⟩
  · unfold keysND
    rw [hfn, map_fst_aput_of_lookup hsd]
    exact hndN
  · intro A dA hA
    rw [hfn] at hA
    by_cases hAS : A = S
    · rw [hAS, alookup_aput_self] at hA
      obtain rfl := Option.some.inj hA
      obtain ⟨ho, hi, hu2⟩ := hndS S sd hsd
      exact ⟨ho, hi, keysND_aput hu2 S g.nextRef⟩
    · rw [alookup_aput_ne hAS] at hA
      exact hndS A dA hA
  · intro x hx
    show x < g.nextRef + 1
    rw [show (updAllocU g k S S sd).heap = aput g.heap g.nextRef
        (if g.multi then EntryVal.multi [k] else EntryVal.simple k) from rfl] at hx
    by_cases hxh : x = g.nextRef
    · omega
    · rw [alookup_aput_ne hxh] at hx
      exact lt_trans (hFresh x hx) (Nat.lt_succ_self _)
  · -- handle separation
    have hOwnD : ∀ h A B, OwnerD (updAllocU g k S S sd) h A B ↔ OwnerD g h A B := by
      intro h A B
      unfold OwnerD
      rw [hfn]
      constructor
      · rintro ⟨dA, hA, hB⟩
        by_cases hAS : A = S
        · rw [hAS, alookup_aput_self] at hA
          obtain rfl := Option.some.inj hA
          exact ⟨sd, by rw [hAS]; exact hsd, hB⟩
        · rw [alookup_aput_ne hAS] at hA
          exact ⟨dA, hA, hB⟩
      · rintro ⟨dA, hA, hB⟩
        by_cases hAS : A = S
        · have hA' : alookup g.nodes S = some dA := by rw [← hAS]; exact hA
          rw [hsd] at hA'
          obtain rfl := Option.some.inj hA'
          refine ⟨{ sd with undirected := aput sd.undirected S g.nextRef }, ?_, hB⟩
          rw [hAS]
          exact alookup_aput_self _ _ _
        · exact ⟨dA, by rw [alookup_aput_ne hAS]; exact hA, hB⟩
    have hOwnU : ∀ h A B, OwnerU (updAllocU g k S S sd) h A B ↔
        (OwnerU g h A B ∨ (h = g.nextRef ∧ A = S ∧ B = S)) := by
      intro h A B
      unfold OwnerU
      rw [hfn]
      constructor
      · rintro ⟨dA, hA, hB⟩
        by_cases hAS : A = S
        · rw [hAS, alookup_aput_self] at hA
          obtain rfl := Option.some.inj hA
          have hB' : alookup (aput sd.undirected S g.nextRef) B = some h := hB
          by_cases hBS : B = S
          · rw [hBS, alookup_aput_self] at hB'
            exact Or.inr ⟨(Option.some.inj hB').symm, hAS, hBS⟩
          · rw [alookup_aput_ne hBS] at hB'
            exact Or.inl ⟨sd, by rw [hAS]; exact hsd, hB'⟩
        · rw [alookup_aput_ne hAS] at hA
          exact Or.inl ⟨dA, hA, hB⟩
      · rintro (⟨dA, hA, hB⟩ | ⟨he, hA2, hB2⟩)
        · by_cases hAS : A = S
          · have hA' : alookup g.nodes S = some dA := by rw [← hAS]; exact hA
            rw [hsd] at hA'
            obtain rfl := Option.some.inj hA'
            have hBS : ¬ B = S := fun hE => by
              rw [hE, hslot] at hB
              exact absurd hB (by simp)
            refine ⟨{ sd with undirected := aput sd.undirected S g.nextRef }, ?_, ?_⟩
            · rw [hAS]
              exact alookup_aput_self _ _ _
            · show alookup (aput sd.undirected S g.nextRef) B = some h
              rw [alookup_aput_ne hBS]
              exact hB
          · exact ⟨dA, by rw [alookup_aput_ne hAS]; exact hA, hB⟩
        · refine ⟨{ sd with undirected := aput sd.undirected S g.nextRef }, ?_, ?_⟩
          · rw [hA2]
            exact alookup_aput_self _ _ _
          · show alookup (aput sd.undirected S g.nextRef) B = some h
            rw [hB2, he]
            exact alookup_aput_self _ _ _
    refine ⟨?_, ?_, ?_⟩
    · intro h A B A' B' h1 h2
      rw [hOwnD h A B] at h1
      rw [hOwnD h A' B'] at h2
      exact hSep.1 h A B A' B' h1 h2
    · intro h A B A' B' h1 h2
      rw [hOwnU h A B] at h1
      rw [hOwnU h A' B'] at h2
      rcases h1 with h1 | ⟨he, hA2, hB2⟩ <;> rcases h2 with h2 | ⟨he', hA2', hB2'⟩
      · exact hSep.2.1 h A B A' B' h1 h2
      · rw [he'] at h1
        exact absurd h1 (hNotOwn0U A B)
      · rw [he] at h2
        exact absurd h2 (hNotOwn0U A' B')
      · rw [hA2, hB2, hA2', hB2']
        exact Or.inl ⟨rfl, rfl⟩
    · intro h A B A' B' h1 h2
      rw [hOwnD h A B] at h1
      rw [hOwnU h A' B'] at h2
      rcases h2 with h2 | ⟨he', hA2', hB2'⟩
      · exact hSep.2.2 h A B A' B' h1 h2
      · rw [he'] at h1
        exact absurd h1 (hNotOwn0D A B)
  · -- index correctness
    intro A dA hA
    rw [hfn] at hA
    by_cases hAS : A = S
    · rw [hAS, alookup_aput_self] at hA
      obtain rfl := Option.some.inj hA
      refine ⟨?_, ?_, ?_, ?_⟩
      · intro B
        rw [hAS, hD S B]
        exact entryOk_heap_fresh ((hIdx S sd hsd).1 B) _ hFresh _
      · intro B
        rw [hAS, hU S B]
        dsimp only
        by_cases hBS : B = S
        · rw [hBS, if_pos (Or.inl ⟨rfl, rfl⟩), hest, List.nil_append, alookup_aput_self]
          exact entryOk_new_singleton _ _ _ _ (alookup_aput_self _ _ _)
        · have hcond : ¬ ((S = S ∧ S = B) ∨ (S = B ∧ S = S)) := fun hc => by
            rcases hc with ⟨-, h2⟩ | ⟨h2, -⟩ <;> exact hBS h2.symm
          rw [if_neg hcond, List.append_nil, alookup_aput_ne hBS]
          exact entryOk_heap_fresh ((hIdx S sd hsd).2.1 B) _ hFresh _
      · rw [hfn, hAS]
        intro B
        dsimp only
        by_cases hBS : B = S
        · rw [if_pos hBS]
          have hold := (hIdx S sd hsd).2.2.1 B
          rw [if_pos hBS] at hold
          exact hold
        · rw [if_neg hBS, alookup_aput_ne hBS]
          have hold := (hIdx S sd hsd).2.2.1 B
          rw [if_neg hBS] at hold
          exact hold
      · rw [hfn, hAS]
        intro B hBS
        dsimp only
        rw [alookup_aput_ne hBS, alookup_aput_ne hBS]
        exact (hIdx S sd hsd).2.2.2 B hBS
    · rw [alookup_aput_ne hAS] at hA
      obtain ⟨hOutA, hUndA, hInA, hUMA⟩ := hIdx A dA hA
      refine ⟨?_, ?_, ?_, ?_⟩
      · intro B
        rw [hD A B]
        exact entryOk_heap_fresh (hOutA B) _ hFresh _
      · intro B
        rw [hU A B]
        have hcond : ¬ ((S = A ∧ S = B) ∨ (S = B ∧ S = A)) := fun hc => by
          rcases hc with ⟨h1, -⟩ | ⟨-, h1⟩ <;> exact hAS h1.symm
        rw [if_neg hcond, List.append_nil]
        exact entryOk_heap_fresh (hUndA B) _ hFresh _
      · rw [hfn]
        intro B
        have hold := hInA B
        by_cases hBA : B = A
        · rw [if_pos hBA]
          rw [if_pos hBA] at hold
          exact hold
        · rw [if_neg hBA]
          rw [if_neg hBA] at hold
          by_cases hBS : B = S
          · rw [hBS, alookup_aput_self]
            dsimp only
            rw [hBS, hsd] at hold
            dsimp only at hold
            exact hold
          · rw [alookup_aput_ne hBS]
            exact hold
      · rw [hfn]
        intro B hBA
        have hold := hUMA B hBA
        by_cases hBS : B = S
        · rw [hBS, alookup_aput_self]
          dsimp only
          rw [hBS, hsd] at hold
          dsimp only at hold
          rw [alookup_aput_ne hAS]
          exact hold
        · rw [alookup_aput_ne hBS]
          exact hold

theorem idxInv_updAllocU_mirror (g : Graph) (E : List (String × EdgeData))
    (k : String) (att : Nat) (S T : String) (sd td : NodeData)
    (hst : ¬ S = T)
    (hndN : keysND g.nodes)
    (hndS : ∀ A dA, alookup g.nodes A = some dA →
      keysND dA.out ∧ keysND dA.«in» ∧ keysND dA.undirected)
    (hFresh : ∀ h, (alookup g.heap h).isSome = true → h < g.nextRef)
    (hSep : HandleSep g)
    (hIdx : IndexOkOn g E)
    (hsd : alookup g.nodes S = some sd)
    (htd : alookup g.nodes T = some td)
    (hslot : alookup sd.undirected T = none)
    (hD : ∀ A B, dKeys (E ++ [(k,
        ({ undirected := true, attributes := att, source := S, target := T } : EdgeData))]) A B
      = dKeys E A B)
    (hU : ∀ A B, uKeys (E ++ [(k,
        ({ undirected := true, attributes := att, source := S, target := T } : EdgeData))]) A B
      = uKeys E A B ++ (if (S = A ∧ T = B) ∨ (S = B ∧ T = A) then [k] else [])) :
    IdxInv (updAllocUM g k S T sd td)
      (E ++ [(k,
        ({ undirected := true, attributes := att, source := S, target := T } : EdgeData))]) := by
  have hts : ¬ T = S := fun hE => hst hE.symm
  have hest : uKeys E S T = [] := by
    have h1 := (hIdx S sd hsd).2.1 T
    rw [hslot] at h1
    exact h1
  have hestTS : uKeys E T S = [] := by
    rw [uKeys_symm E T S]
    exact hest
  have hTSnone : alookup td.undirected S = none := by
    have hmirr := (hIdx T td htd).2.2.2 S hst
    rw [hsd] at hmirr
    dsimp only at hmirr
    rw [hmirr]
    exact hslot
  have hfn : (updAllocUM g k S T sd td).nodes
      = aput (aput g.nodes S { sd with undirected := aput sd.undirected T g.nextRef })
          T { td with undirected := aput td.undirected S g.nextRef } := rfl
  have htd1 : alookup (aput g.nodes S
      { sd with undirected := aput sd.undirected T g.nextRef }) T = some td := by
    rw [alookup_aput_ne hts]
    exact htd
  have hNotOwn0D : ∀ A B, ¬ OwnerD g g.nextRef A B := fun A B ho =>
    absurd (hFresh _ (ownerD_heap_isSome hIdx ho)) (lt_irrefl _)
  have hNotOwn0U : ∀ A B, ¬ OwnerU g g.nextRef A B := fun A B ho =>
    absurd (hFresh _ (ownerU_heap_isSome hIdx ho)) (lt_irrefl _)
  unfold IdxInv
  refine ⟨?_, ?_, ?_, ?_, ?_⟩
  · unfold keysND
    rw [hfn, map_fst_aput_of_lookup htd1, map_fst_aput_of_lookup hsd]
    exact hndN
  · intro A dA hA
    rw [hfn] at hA
    by_cases hAT : A = T
    · rw [hAT, alookup_aput_self] at hA
      obtain rfl := Option.some.inj hA
      obtain ⟨ho, hi, hu2⟩ := hndS T td htd
      exact ⟨ho, hi, keysND_aput hu2 S g.nextRef⟩
    · rw [alookup_aput_ne hAT] at hA
      by_cases hAS : A = S
      · rw [hAS, alookup_aput_self] at hA
        obtain rfl := Option.some.inj hA
        obtain ⟨ho, hi, hu2⟩ := hndS S sd hsd
        exact ⟨ho, hi, keysND_aput hu2 T g.nextRef⟩
      · rw [alookup_aput_ne hAS] at hA
        exact hndS A dA hA
  · intro x hx
    show x < g.nextRef + 1
    rw [show (updAllocUM g k S T sd td).heap = aput g.heap g.nextRef
        (if g.multi then EntryVal.multi [k] else EntryVal.simple k) from rfl] at hx
    by_cases hxh : x = g.nextRef
    · omega
    · rw [alookup_aput_ne hxh] at hx
      exact lt_trans (hFresh x hx) (Nat.lt_succ_self _)
  · -- handle separation
    have hOwnD : ∀ h A B, OwnerD (updAllocUM g k S T sd td) h A B ↔ OwnerD g h A B := by
      intro h A B
      unfold OwnerD
      rw [hfn]
      constructor
      · rintro ⟨dA, hA, hB⟩
        by_cases hAT : A = T
        · rw [hAT, alookup_aput_self] at hA
          obtain rfl := Option.some.inj hA
          exact ⟨td, by rw [hAT]; exact htd, hB⟩
        · rw [alookup_aput_ne hAT] at hA
          by_cases hAS : A = S
          · rw [hAS, alookup_aput_self] at hA
            obtain rfl := Option.some.inj hA
            exact ⟨sd, by rw [hAS]; exact hsd, hB⟩
          · rw [alookup_aput_ne hAS] at hA
            exact ⟨dA, hA, hB⟩
      · rintro ⟨dA, hA, hB⟩
        by_cases hAT : A = T
        · have hA' : alookup g.nodes T = some dA := by rw [← hAT]; exact hA
          rw [htd] at hA'
          obtain rfl := Option.some.inj hA'
          refine ⟨{ td with undirected := aput td.undirected S g.nextRef }, ?_, hB⟩
          rw [hAT]
          exact alookup_aput_self _ _ _
        · by_cases hAS : A = S
          · have hA' : alookup g.nodes S = some dA := by rw [← hAS]; exact hA
            rw [hsd] at hA'
            obtain rfl := Option.some.inj hA'
            refine ⟨{ sd with undirected := aput sd.undirected T g.nextRef }, ?_, hB⟩
            rw [hAS, alookup_aput_ne hst]
            exact alookup_aput_self _ _ _
          · refine ⟨dA, ?_, hB⟩
            rw [alookup_aput_ne hAT, alookup_aput_ne hAS]
            exact hA
    have hOwnU : ∀ h A B, OwnerU (updAllocUM g k S T sd td) h A B ↔
        (OwnerU g h A B ∨
          (h = g.nextRef ∧ ((A = S ∧ B = T) ∨ (A = T ∧ B = S)))) := by
      intro h A B
      unfold OwnerU
      rw [hfn]
      constructor
      · rintro ⟨dA, hA, hB⟩
        by_cases hAT : A = T
        · rw [hAT, alookup_aput_self] at hA
          obtain rfl := Option.some.inj hA
          have hB' : alookup (aput td.undirected S g.nextRef) B = some h := hB
          by_cases hBS : B = S
          · rw [hBS, alookup_aput_self] at hB'
            exact Or.inr ⟨(Option.some.inj hB').symm, Or.inr ⟨hAT, hBS⟩⟩
          · rw [alookup_aput_ne hBS] at hB'
            exact Or.inl ⟨td, by rw [hAT]; exact htd, hB'⟩
        · rw [alookup_aput_ne hAT] at hA
          by_cases hAS : A = S
          · rw [hAS, alookup_aput_self] at hA
            obtain rfl := Option.some.inj hA
            have hB' : alookup (aput sd.undirected T g.nextRef) B = some h := hB
            by_cases hBT : B = T
            · rw [hBT, alookup_aput_self] at hB'
              exact Or.inr ⟨(Option.some.inj hB').symm, Or.inl ⟨hAS, hBT⟩⟩
            · rw [alookup_aput_ne hBT] at hB'
              exact Or.inl ⟨sd, by rw [hAS]; exact hsd, hB'⟩
          · rw [alookup_aput_ne hAS] at hA
            exact Or.inl ⟨dA, hA, hB⟩
      · rintro (⟨dA, hA, hB⟩ | ⟨he, hor⟩)
        · by_cases hAT : A = T
          · have hA' : alookup g.nodes T = some dA := by rw [← hAT]; exact hA
            rw [htd] at hA'
            obtain rfl := Option.some.inj hA'
            have hBS : ¬ B = S := fun hE => by
              rw [hE, hTSnone] at hB
              exact absurd hB (by simp)
            refine ⟨{ td with undirected := aput td.undirected S g.nextRef }, ?_, ?_⟩
            · rw [hAT]
              exact alookup_aput_self _ _ _
            · show alookup (aput td.undirected S g.nextRef) B = some h
              rw [alookup_aput_ne hBS]
              exact hB
          · by_cases hAS : A = S
            · have hA' : alookup g.nodes S = some dA := by rw [← hAS]; exact hA
              rw [hsd] at hA'
              obtain rfl := Option.some.inj hA'
              have hBT : ¬ B = T := fun hE => by
                rw [hE, hslot] at hB
                exact absurd hB (by simp)
              refine ⟨{ sd with undirected := aput sd.undirected T g.nextRef }, ?_, ?_⟩
              · rw [hAS, alookup_aput_ne hst]
                exact alookup_aput_self _ _ _
              · show alookup (aput sd.undirected T g.nextRef) B = some h
                rw [alookup_aput_ne hBT]
                exact hB
            · refine ⟨dA, ?_, hB⟩
              rw [alookup_aput_ne hAT, alookup_aput_ne hAS]
              exact hA
        · rcases hor with ⟨hA2, hB2⟩ | ⟨hA2, hB2⟩
          · refine ⟨{ sd with undirected := aput sd.undirected T g.nextRef }, ?_, ?_⟩
            · rw [hA2, alookup_aput_ne hst]
              exact alookup_aput_self _ _ _
            · show alookup (aput sd.undirected T g.nextRef) B = some h
              rw [hB2, he]
              exact alookup_aput_self _ _ _
          · refine ⟨{ td with undirected := aput td.undirected S g.nextRef }, ?_, ?_⟩
            · rw [hA2]
              exact alookup_aput_self _ _ _
            · show alookup (aput td.undirected S g.nextRef) B = some h
              rw [hB2, he]
              exact alookup_aput_self _ _ _
    refine ⟨?_, ?_, ?_⟩
    · intro h A B A' B' h1 h2
      rw [hOwnD h A B] at h1
      rw [hOwnD h A' B'] at h2
      exact hSep.1 h A B A' B' h1 h2
    · intro h A B A' B' h1 h2
      rw [hOwnU h A B] at h1
      rw [hOwnU h A' B'] at h2
      rcases h1 with h1 | ⟨he, hor⟩ <;> rcases h2 with h2 | ⟨he', hor'⟩
      · exact hSep.2.1 h A B A' B' h1 h2
      · rw [he'] at h1
        exact absurd h1 (hNotOwn0U A B)
      · rw [he] at h2
        exact absurd h2 (hNotOwn0U A' B')
      · rcases hor with ⟨a1, b1⟩ | ⟨a1, b1⟩ <;> rcases hor' with ⟨a2, b2⟩ | ⟨a2, b2⟩
        · rw [a1, b1, a2, b2]
          exact Or.inl ⟨rfl, rfl⟩
        · rw [a1, b1, a2, b2]
          exact Or.inr ⟨rfl, rfl⟩
        · rw [a1, b1, a2, b2]
          exact Or.inr ⟨rfl, rfl⟩
        · rw [a1, b1, a2, b2]
          exact Or.inl ⟨rfl, rfl⟩
    · intro h A B A' B' h1 h2
      rw [hOwnD h A B] at h1
      rw [hOwnU h A' B'] at h2
      rcases h2 with h2 | ⟨he', hor'⟩
      · exact hSep.2.2 h A B A' B' h1 h2
      · rw [he'] at h1
        exact absurd h1 (hNotOwn0D A B)
  · -- index correctness
    intro A dA hA
    rw [hfn] at hA
    by_cases hAT : A = T
    · rw [hAT, alookup_aput_self] at hA
      obtain rfl := Option.some.inj hA
      refine ⟨?_, ?_, ?_, ?_⟩
      · intro B
        rw [hAT, hD T B]
        exact entryOk_heap_fresh ((hIdx T td htd).1 B) _ hFresh _
      · intro B
        rw [hAT, hU T B]
        dsimp only
        by_cases hBS : B = S
        · rw [hBS, if_pos (Or.inr ⟨rfl, rfl⟩), hestTS, List.nil_append, alookup_aput_self]
          exact entryOk_new_singleton _ _ _ _ (alookup_aput_self _ _ _)
        · have hcond : ¬ ((S = T ∧ T = B) ∨ (S = B ∧ T = T)) := fun hc => by
            rcases hc with ⟨h1, -⟩ | ⟨h1, -⟩
            · exact hst h1
            · exact hBS h1.symm
          rw [if_neg hcond, List.append_nil, alookup_aput_ne hBS]
          exact entryOk_heap_fresh ((hIdx T td htd).2.1 B) _ hFresh _
      · rw [hfn, hAT]
        intro B
        dsimp only
        by_cases hBT : B = T
        · rw [if_pos hBT]
          have hold := (hIdx T td htd).2.2.1 B
          rw [if_pos hBT] at hold
          exact hold
        · rw [if_neg hBT]
          have hold := (hIdx T td htd).2.2.1 B
          rw [if_neg hBT] at hold
          by_cases hBS : B = S
          · rw [hBS, alookup_aput_ne hst, alookup_aput_self]
            dsimp only
            rw [hBS, hsd] at hold
            dsimp only at hold
            exact hold
          · rw [alookup_aput_ne hBT, alookup_aput_ne hBS]
            exact hold
      · rw [hfn, hAT]
        intro B hBT
        dsimp only
        by_cases hBS : B = S
        · rw [hBS, alookup_aput_self, alookup_aput_ne hst, alookup_aput_self]
          dsimp only
          rw [alookup_aput_self]
        · rw [alookup_aput_ne hBS, alookup_aput_ne hBT, alookup_aput_ne hBS]
          exact (hIdx T td htd).2.2.2 B hBT
    · rw [alookup_aput_ne hAT] at hA
      by_cases hAS : A = S
      · rw [hAS, alookup_aput_self] at hA
        obtain rfl := Option.some.inj hA
        refine ⟨?_, ?_, ?_, ?_⟩
        · intro B
          rw [hAS, hD S B]
          exact entryOk_heap_fresh ((hIdx S sd hsd).1 B) _ hFresh _
        · intro B
          rw [hAS, hU S B]
          dsimp only
          by_cases hBT : B = T
          · rw [hBT, if_pos (Or.inl ⟨rfl, rfl⟩), hest, List.nil_append, alookup_aput_self]
            exact entryOk_new_singleton _ _ _ _ (alookup_aput_self _ _ _)
          · have hcond : ¬ ((S = S ∧ T = B) ∨ (S = B ∧ T = S)) := fun hc => by
              rcases hc with ⟨-, h2⟩ | ⟨-, h2⟩
              · exact hBT h2.symm
              · exact hts h2
            rw [if_neg hcond, List.append_nil, alookup_aput_ne hBT]
            exact entryOk_heap_fresh ((hIdx S sd hsd).2.1 B) _ hFresh _
        · rw [hfn, hAS]
          intro B
          dsimp only
          by_cases hBS : B = S
          · rw [if_pos hBS]
            have hold := (hIdx S sd hsd).2.2.1 B
            rw [if_pos hBS] at hold
            exact hold
          · rw [if_neg hBS]
            have hold := (hIdx S sd hsd).2.2.1 B
            rw [if_neg hBS] at hold
            by_cases hBT : B = T
            · rw [hBT, alookup_aput_self]
              dsimp only
              rw [hBT, htd] at hold
              dsimp only at hold
              exact hold
            · rw [alookup_aput_ne hBT, alookup_aput_ne hBS]
              exact hold
        · rw [hfn, hAS]
          intro B hBS
          dsimp only
          by_cases hBT : B = T
          · rw [hBT, alookup_aput_self, alookup_aput_self]
            dsimp only
            rw [alookup_aput_self]
          · rw [alookup_aput_ne hBT, alookup_aput_ne hBT, alookup_aput_ne hBS]
            exact (hIdx S sd hsd).2.2.2 B hBS
      · rw [alookup_aput_ne hAS] at hA
        obtain ⟨hOutA, hUndA, hInA, hUMA⟩ := hIdx A dA hA
        refine ⟨?_, ?_, ?_, ?_⟩
        · intro B
          rw [hD A B]
          exact entryOk_heap_fresh (hOutA B) _ hFresh _
        · intro B
          rw [hU A B]
          have hcond : ¬ ((S = A ∧ T = B) ∨ (S = B ∧ T = A)) := fun hc => by
            rcases hc with ⟨h1, -⟩ | ⟨-, h2⟩
            · exact hAS h1.symm
            · exact hAT h2.symm
          rw [if_neg hcond, List.append_nil]
          exact entryOk_heap_fresh (hUndA B) _ hFresh _
        · rw [hfn]
          intro B
          have hold := hInA B
          by_cases hBA : B = A
          · rw [if_pos hBA]
            rw [if_pos hBA] at hold
            exact hold
          · rw [if_neg hBA]
            rw [if_neg hBA] at hold
            by_cases hBT : B = T
            · rw [hBT, alookup_aput_self]
              dsimp only
              rw [hBT, htd] at hold
              dsimp only at hold
              exact hold
            · by_cases hBS : B = S
              · rw [hBS, alookup_aput_ne hst, alookup_aput_self]
                dsimp only
                rw [hBS, hsd] at hold
                dsimp only at hold
                exact hold
              · rw [alookup_aput_ne hBT, alookup_aput_ne hBS]
                exact hold
        · rw [hfn]
          intro B hBA
          have hold := hUMA B hBA
          by_cases hBT : B = T
          · rw [hBT, alookup_aput_self]
            dsimp only
            rw [hBT, htd] at hold
            dsimp only at hold
            rw [alookup_aput_ne hAS]
            exact hold
          · by_cases hBS : B = S
            · rw [hBS, alookup_aput_ne hst, alookup_aput_self]
              dsimp only
              rw [hBS, hsd] at hold
              dsimp only at hold
              rw [alookup_aput_ne hAT]
              exact hold
            · rw [alookup_aput_ne hBT, alookup_aput_ne hBS]
              exact hold

theorem idxInv_update_undirected_alloc (g : Graph) (E : List (String × EdgeData))
    (k : String) (att : Nat) (S T : String) (sd td : NodeData)
    (hndN : keysND g.nodes)
    (hndS : ∀ A dA, alookup g.nodes A = some dA →
      keysND dA.out ∧ keysND dA.«in» ∧ keysND dA.undirected)
    (hFresh : ∀ h, (alookup g.heap h).isSome = true → h < g.nextRef)
    (hSep : HandleSep g)
    (hIdx : IndexOkOn g E)
    ( _hkE : k ∉ E.map Prod.fst)
    (hsd : alookup g.nodes S = some sd)
    (htd : alookup g.nodes T = some td)
    (hslot : alookup sd.undirected T = none)
    (hD : ∀ A B, dKeys (E ++ [(k,
        ({ undirected := true, attributes := att, source := S, target := T } : EdgeData))]) A B
      = dKeys E A B)
    (hU : ∀ A B, uKeys (E ++ [(k,
        ({ undirected := true, attributes := att, source := S, target := T } : EdgeData))]) A B
      = uKeys E A B ++ (if (S = A ∧ T = B) ∨ (S = B ∧ T = A) then [k] else []))
    ( _hkuk : ∀ A B, k ∉ uKeys E A B) :
    IdxInv (updateStructureIndex g true k S T)
      (E ++ [(k,
        ({ undirected := true, attributes := att, source := S, target := T } : EdgeData))]) := by
  rw [updateStructureIndex_allocU hsd hslot]
  by_cases hst : S = T
  · rw [if_pos hst]
    rw [← hst] at hslot hD hU ⊢
    exact idxInv_updAllocU_self g E k att S sd hndN hndS hFresh hSep hIdx hsd hslot hD hU
  · rw [if_neg hst]
    have hts : ¬ T = S := fun hE => hst hE.symm
    have htd1 : alookup (updAllocU g k S T sd).nodes T = some td := by
      show alookup (aput g.nodes S
        { sd with undirected := aput sd.undirected T g.nextRef }) T = some td
      rw [alookup_aput_ne hts]
      exact htd
    have habs : (alookup td.undirected S).isSome = false := by
      have hmirr := (hIdx T td htd).2.2.2 S hst
      rw [hsd] at hmirr
      dsimp only at hmirr
      rw [hmirr, hslot]
      rfl
    have hmir : mirrorIfAbsent (updAllocU g k S T sd) true S T g.nextRef
        = updAllocUM g k S T sd td := by
      rw [mirrorIfAbsent_absentU htd1 (by rw [habs])]
      rfl
    rw [hmir]
    exact idxInv_updAllocU_mirror g E k att S T sd td hst hndN hndS hFresh hSep hIdx
      hsd htd hslot hD hU

theorem idxInv_update_undirected (g : Graph) (E : List (String × EdgeData))
    (k : String) (att : Nat) (S T : String)
    (hInv : IdxInv g E)
    (hkE : k ∉ E.map Prod.fst)
    (hs : (alookup g.nodes S).isSome = true)
    (ht : (alookup g.nodes T).isSome = true)
    (hSimple : g.multi = false → uKeys E S T = []) :
    IdxInv (updateStructureIndex g true k S T)
      (E ++ [(k, { undirected := true, attributes := att, source := S, target := T })]) := by
  obtain ⟨hndN, hndS, hFresh, hSep, hIdx⟩ := hInv
  obtain ⟨sd, hsd⟩ := Option.isSome_iff_exists.mp hs
  obtain ⟨td, htd⟩ := Option.isSome_iff_exists.mp ht
  have hD : ∀ A B, dKeys (E ++ [(k,
      ({ undirected := true, attributes := att, source := S, target := T } : EdgeData))]) A B
      = dKeys E A B := by
    intro A B
    rw [dKeys_append_single, if_neg ?_, List.append_nil]
    rw [dPred_iff]
    dsimp only
    intro hcc
    exact absurd hcc.1 (by simp)
  have hU : ∀ A B, uKeys (E ++ [(k,
      ({ undirected := true, attributes := att, source := S, target := T } : EdgeData))]) A B
      = uKeys E A B ++ (if (S = A ∧ T = B) ∨ (S = B ∧ T = A) then [k] else []) := by
    intro A B
    rw [uKeys_append_single]
    by_cases hc : (S = A ∧ T = B) ∨ (S = B ∧ T = A)
    · rw [if_pos (by rw [uPred_iff]; exact ⟨rfl, hc⟩), if_pos hc]
    · rw [if_neg ?_, if_neg hc]
      rw [uPred_iff]
      dsimp only
      intro hcc
      exact hc hcc.2
  have hkuk : ∀ A B, k ∉ uKeys E A B := fun A B => not_mem_fKeys_of_not_mem_keys hkE
  cases hslot : alookup sd.undirected T with
  | some h =>
      have hout := (hIdx S sd hsd).2.1 T
      rw [hslot] at hout
      by_cases hm : g.multi = true
      · -- existing shared set: add the edge to it on both logical sides
        have hl : ∃ s, alookup g.heap h = some (EntryVal.multi s) ∧ s.Nodup ∧
            ∀ x, x ∈ s ↔ x ∈ uKeys E S T := by
          unfold entryOk at hout
          dsimp only at hout
          obtain ⟨-, hrest⟩ := hout
          cases hl : alookup g.heap h with
          | none => rw [hl] at hrest; exact absurd hrest (by simp)
          | some v =>
              rw [hl] at hrest
              cases v with
              | simple e' =>
                  exact absurd hrest.1 (by rw [hm]; simp)
              | multi s => exact ⟨s, rfl, hrest.2.1, hrest.2.2⟩
        obtain ⟨s, hl, hsnd, hmem⟩ := hl
        have hkns : k ∉ s := fun hk => (hkuk S T) ((hmem k).mp hk)
        have hundTS : alookup td.undirected S = some h := by
          by_cases hst : S = T
          · have htd2 : alookup g.nodes S = some td := by rw [hst]; exact htd
            rw [hsd] at htd2
            obtain rfl := Option.some.inj htd2
            rw [← hst] at hslot
            exact hslot
          · have hmirr := (hIdx T td htd).2.2.2 S hst
            rw [hsd] at hmirr
            dsimp only at hmirr
            rw [hmirr]
            exact hslot
        rw [updateStructureIndex_existingU hsd hslot, if_pos hm,
            heapAdd_eq hl k hkns]
        have hfinal :
            (if S = T then ({ g with heap := aput g.heap h (EntryVal.multi (s ++ [k])) } : Graph)
             else mirrorIfAbsent { g with heap := aput g.heap h (EntryVal.multi (s ++ [k])) }
               true S T h) =
            { g with heap := aput g.heap h (EntryVal.multi (s ++ [k])) } := by
        -- the mirrored side already holds the same shared entry
          by_cases hst : S = T
          · rw [if_pos hst]
          · rw [if_neg hst]
            refine mirrorIfAbsent_presentU htd ?_
            rw [hundTS]
            rfl
        rw [hfinal]
        unfold IdxInv
        refine ⟨hndN, hndS, ?_, ?_, ?_⟩
        · intro x hx
          show x < g.nextRef
          by_cases hxh : x = h
          · subst hxh
            exact hFresh x (by rw [hl]; rfl)
          · rw [show ({ g with heap := aput g.heap h (EntryVal.multi (s ++ [k])) } : Graph).heap
                  = aput g.heap h (EntryVal.multi (s ++ [k])) from rfl,
                alookup_aput, if_neg hxh] at hx
            exact hFresh x hx
        · exact hSep
        · intro A dA hA
          obtain ⟨hOutA, hUndA, hInA, hUMA⟩ := hIdx A dA hA
          refine ⟨?_, ?_, hInA, hUMA⟩
          · intro B
            rw [hD A B]
            refine entryOk_heap_congr ?_ (hOutA B)
            intro x hx
            have hxh : ¬ x = h :=
              fun hE => hSep.2.2 h A B S T (hE ▸ ⟨dA, hA, hx⟩) ⟨sd, hsd, hslot⟩
            rw [show ({ g with heap := aput g.heap h (EntryVal.multi (s ++ [k])) } : Graph).heap
                  = aput g.heap h (EntryVal.multi (s ++ [k])) from rfl,
                alookup_aput, if_neg hxh]
          · intro B
            rw [hU A B]
            by_cases huc : (S = A ∧ T = B) ∨ (S = B ∧ T = A)
            · rw [if_pos huc]
              rcases huc with ⟨h1, h2⟩ | ⟨h1, h2⟩
              · subst h1
                subst h2
                have hdA : dA = sd := by
                  rw [hA] at hsd
                  exact Option.some.inj hsd
                subst hdA
                rw [hslot]
                unfold entryOk
                dsimp only
                rw [show alookup ({ g with heap := aput g.heap h (EntryVal.multi (s ++ [k])) } : Graph).heap h
                      = some (EntryVal.multi (s ++ [k])) by
                    rw [show ({ g with heap := aput g.heap h (EntryVal.multi (s ++ [k])) } : Graph).heap
                          = aput g.heap h (EntryVal.multi (s ++ [k])) from rfl]
                    rw [alookup_aput, if_pos rfl]]
                refine ⟨by simp, hm, ?_, ?_⟩
                · rw [List.nodup_append]
                  exact ⟨hsnd, List.nodup_singleton k, by simpa using hkns⟩
                · intro x
                  rw [List.mem_append, List.mem_append, hmem x]
              · subst h1
                subst h2
                have hdA : dA = td := by
                  rw [hA] at htd
                  exact Option.some.inj htd
                subst hdA
                rw [hundTS]
                unfold entryOk
                dsimp only
                rw [show alookup ({ g with heap := aput g.heap h (EntryVal.multi (s ++ [k])) } : Graph).heap h
                      = some (EntryVal.multi (s ++ [k])) by
                    rw [show ({ g with heap := aput g.heap h (EntryVal.multi (s ++ [k])) } : Graph).heap
                          = aput g.heap h (EntryVal.multi (s ++ [k])) from rfl]
                    rw [alookup_aput, if_pos rfl]]
                refine ⟨by simp, hm, ?_, ?_⟩
                · rw [List.nodup_append]
                  exact ⟨hsnd, List.nodup_singleton k, by simpa using hkns⟩
                · intro x
                  rw [List.mem_append, List.mem_append, hmem x, uKeys_symm E _ S]
            · rw [if_neg huc, List.append_nil]
              refine entryOk_heap_congr ?_ (hUndA B)
              intro x hx
              have hxh : ¬ x = h := by
                intro hE
                rcases hSep.2.1 x A B S T ⟨dA, hA, hx⟩ (hE ▸ ⟨sd, hsd, hslot⟩) with
                  ⟨e1, e2⟩ | ⟨e1, e2⟩
                · exact huc (Or.inl ⟨e1.symm, e2.symm⟩)
                · exact huc (Or.inr ⟨e2.symm, e1.symm⟩)
              rw [show ({ g with heap := aput g.heap h (EntryVal.multi (s ++ [k])) } : Graph).heap
                    = aput g.heap h (EntryVal.multi (s ++ [k])) from rfl,
                  alookup_aput, if_neg hxh]
      · -- simple mode: an existing entry contradicts the duplicate guard
        exfalso
        have hms : g.multi = false := by
          cases hmm : g.multi
          · rfl
          · exact absurd hmm hm
        exact absurd (hSimple hms) (entryOk_some_ne_nil hout)
  | none =>
      exact idxInv_update_undirected_alloc g E k att S T sd td hndN hndS hFresh hSep hIdx
        hkE hsd htd hslot hD hU hkuk

/-! ### Key-membership helpers for the drop lemmas -/

theorem entryOk_none (m : Bool) (heap : List (Nat × EntryVal)) :
    entryOk m heap none [] := rfl

theorem mem_dKeys_self {E : List (String × EdgeData)} {k : String} {att : Nat}
    {S T : String}
    (hkd : alookup E k = some
      ({ undirected := false, attributes := att, source := S, target := T } : EdgeData)) :
    k ∈ dKeys E S T := by
  unfold dKeys
  refine mem_fKeys.mpr ⟨_, alookup_mem hkd, ?_⟩
  rw [dPred_iff]
  exact ⟨rfl, rfl, rfl⟩

theorem mem_uKeys_self {E : List (String × EdgeData)} {k : String} {att : Nat}
    {S T : String}
    (hkd : alookup E k = some
      ({ undirected := true, attributes := att, source := S, target := T } : EdgeData)) :
    k ∈ uKeys E S T := by
  unfold uKeys
  refine mem_fKeys.mpr ⟨_, alookup_mem hkd, ?_⟩
  rw [uPred_iff]
  exact ⟨rfl, Or.inl ⟨rfl, rfl⟩⟩

theorem not_mem_dKeys_of_ne {E : List (String × EdgeData)} {k : String} {att : Nat}
    {S T : String} (hndE : keysND E)
    (hkd : alookup E k = some
      ({ undirected := false, attributes := att, source := S, target := T } : EdgeData))
    {A B : String} (hne : ¬ (S = A ∧ T = B)) : k ∉ dKeys E A B := by
  intro hk
  rcases mem_fKeys.mp hk with ⟨e, hmem, hP⟩
  have h2 := mem_alookup hndE hmem
  rw [hkd] at h2
  obtain rfl := Option.some.inj h2
  rw [dPred_iff] at hP
  dsimp only at hP
  exact hne ⟨hP.2.1, hP.2.2⟩

theorem not_mem_uKeys_of_dir {E : List (String × EdgeData)} {k : String} {att : Nat}
    {S T : String} (hndE : keysND E)
    (hkd : alookup E k = some
      ({ undirected := false, attributes := att, source := S, target := T } : EdgeData)) :
    ∀ A B, k ∉ uKeys E A B := by
  intro A B hk
  rcases mem_fKeys.mp hk with ⟨e, hmem, hP⟩
  have h2 := mem_alookup hndE hmem
  rw [hkd] at h2
  obtain rfl := Option.some.inj h2
  rw [uPred_iff] at hP
  dsimp only at hP
  exact absurd hP.1 (by simp)

theorem not_mem_uKeys_of_ne {E : List (String × EdgeData)} {k : String} {att : Nat}
    {S T : String} (hndE : keysND E)
    (hkd : alookup E k = some
      ({ undirected := true, attributes := att, source := S, target := T } : EdgeData))
    {A B : String} (hne : ¬ ((S = A ∧ T = B) ∨ (S = B ∧ T = A))) : k ∉ uKeys E A B := by
  intro hk
  rcases mem_fKeys.mp hk with ⟨e, hmem, hP⟩
  have h2 := mem_alookup hndE hmem
  rw [hkd] at h2
  obtain rfl := Option.some.inj h2
  rw [uPred_iff] at hP
  dsimp only at hP
  exact hne hP.2

theorem not_mem_dKeys_of_undir {E : List (String × EdgeData)} {k : String} {att : Nat}
    {S T : String} (hndE : keysND E)
    (hkd : alookup E k = some
      ({ undirected := true, attributes := att, source := S, target := T } : EdgeData)) :
    ∀ A B, k ∉ dKeys E A B := by
  intro A B hk
  rcases mem_fKeys.mp hk with ⟨e, hmem, hP⟩
  have h2 := mem_alookup hndE hmem
  rw [hkd] at h2
  obtain rfl := Option.some.inj h2
  rw [dPred_iff] at hP
  dsimp only at hP
  exact absurd hP.1 (by simp)

theorem dKeys_aerase {E : List (String × EdgeData)} (hndE : keysND E) (k : String)
    (A B : String) : dKeys (aerase E k) A B = (dKeys E A B).erase k :=
  fKeys_aerase hndE k

theorem uKeys_aerase {E : List (String × EdgeData)} (hndE : keysND E) (k : String)
    (A B : String) : uKeys (aerase E k) A B = (uKeys E A B).erase k :=
  fKeys_aerase hndE k

theorem eq_singleton_of_unique_mem {l : List String} {k : String} (hnd : l.Nodup)
    (hk : k ∈ l) (huniq : ∀ x ∈ l, x = k) : l = [k] := by
  cases l with
  | nil => simp at hk
  | cons a t =>
      have ha : a = k := huniq a (by simp)
      cases t with
      | nil => rw [ha]
      | cons b t2 =>
          exfalso
          have hb : b = k := huniq b (by simp)
          exact (List.nodup_cons.mp hnd).1 (by rw [ha, ← hb]; exact List.mem_cons_self b t2)

theorem exists_other_of_length_ne_one {s : List String} {k : String}
    (hnd : s.Nodup) (hk : k ∈ s) (hlen : ¬ s.length = 1) :
    ∃ x, x ∈ s ∧ ¬ x = k := by
  cases s with
  | nil => simp at hk
  | cons a t =>
      cases t with
      | nil => simp at hlen
      | cons b t2 =>
          by_cases hak : a = k
          · refine ⟨b, by simp, ?_⟩
            intro hbk
            have hab : a = b := hak.trans hbk.symm
            exact (List.nodup_cons.mp hnd).1 (by rw [hab]; exact List.mem_cons_self b t2)
          · exact ⟨a, by simp, hak⟩

/-! ### Branch equations for `clearEdgeSourceSide` and `deleteInSide` -/

theorem deleteInSide_someD {g : Graph} {S T : String} {td : NodeData}
    (htd : alookup g.nodes T = some td) :
    deleteInSide g false S T =
      { g with nodes := (aput g.nodes T { td with «in» := aerase td.«in» S }) } := by
  unfold deleteInSide
  rw [htd]
  rfl

theorem deleteInSide_someU {g : Graph} {S T : String} {td : NodeData}
    (htd : alookup g.nodes T = some td) :
    deleteInSide g true S T =
      { g with nodes := (aput g.nodes T
        { td with undirected := aerase td.undirected S }) } := by
  unfold deleteInSide
  rw [htd]
  rfl

theorem clearEdgeSourceSide_simple {g : Graph} {u : Bool} {k S T : String}
    {sd : NodeData} {h : Nat}
    (hm : g.multi = false) (hsd : alookup g.nodes S = some sd)
    (hslot : alookup (if u then sd.undirected else sd.out) T = some h) :
    clearEdgeSourceSide g u k S T =
      { g with nodes := (aput g.nodes S
          (if u then { sd with undirected := aerase sd.undirected T }
           else { sd with out := aerase sd.out T })) } := by
  unfold clearEdgeSourceSide
  rw [hsd]
  dsimp only
  rw [hslot]
  dsimp only
  rw [hm]
  rfl

theorem clearEdgeSourceSide_multiBig {g : Graph} {u : Bool} {k S T : String}
    {sd : NodeData} {h : Nat} {s : List String}
    (hm : g.multi = true) (hsd : alookup g.nodes S = some sd)
    (hslot : alookup (if u then sd.undirected else sd.out) T = some h)
    (hl : alookup g.heap h = some (EntryVal.multi s)) (hlen : ¬ s.length = 1) :
    clearEdgeSourceSide g u k S T =
      { g with heap := aput g.heap h (EntryVal.multi (s.erase k)) } := by
  unfold clearEdgeSourceSide
  rw [hsd]
  dsimp only
  rw [hslot]
  dsimp only
  rw [hm, if_pos rfl, hl]
  dsimp only
  rw [if_neg hlen]

theorem clearEdgeSourceSide_multiOne {g : Graph} {u : Bool} {k S T : String}
    {sd : NodeData} {h : Nat} {s : List String}
    (hm : g.multi = true) (hsd : alookup g.nodes S = some sd)
    (hslot : alookup (if u then sd.undirected else sd.out) T = some h)
    (hl : alookup g.heap h = some (EntryVal.multi s)) (hlen : s.length = 1) :
    clearEdgeSourceSide g u k S T =
      deleteInSide
        { g with nodes := (aput g.nodes S
            (if u then { sd with undirected := aerase sd.undirected T }
             else { sd with out := aerase sd.out T })) }
        u S T := by
  unfold clearEdgeSourceSide
  rw [hsd]
  dsimp only
  rw [hslot]
  dsimp only
  rw [hm, if_pos rfl, hl]
  dsimp only
  rw [if_pos hlen]

theorem idxInv_eraseD_self (g : Graph) (E : List (String × EdgeData))
    (k : String) (att : Nat) (S : String) (sd : NodeData)
    (hndE : keysND E)
    (hndN : keysND g.nodes)
    (hndS : ∀ A dA, alookup g.nodes A = some dA →
      keysND dA.out ∧ keysND dA.«in» ∧ keysND dA.undirected)
    (hFresh : ∀ h, (alookup g.heap h).isSome = true → h < g.nextRef)
    (hSep : HandleSep g)
    (hIdx : IndexOkOn g E)
    (hkd : alookup E k = some
      ({ undirected := false, attributes := att, source := S, target := S } : EdgeData))
    (hsd : alookup g.nodes S = some sd)
    (hDST : dKeys E S S = [k]) :
    IdxInv (deleteInSide
        { g with nodes := (aput g.nodes S { sd with out := aerase sd.out S }) } false S S)
      (aerase E k) := by
  obtain ⟨hoN, hiN, huN⟩ := hndS S sd hsd
  have hDe : ∀ A B, dKeys (aerase E k) A B = (dKeys E A B).erase k :=
    fun A B => dKeys_aerase hndE k A B
  have hUe : ∀ A B, uKeys (aerase E k) A B = uKeys E A B := fun A B => by
    rw [uKeys_aerase hndE]
    exact List.erase_of_not_mem (not_mem_uKeys_of_dir hndE hkd A B)
  have hDno : ∀ A B, ¬ (S = A ∧ S = B) → dKeys (aerase E k) A B = dKeys E A B := by
    intro A B hne
    rw [hDe]
    exact List.erase_of_not_mem (not_mem_dKeys_of_ne hndE hkd hne)
  have hD0 : dKeys (aerase E k) S S = [] := by
    rw [hDe, hDST]
    simp
  have hG2 : deleteInSide
      { g with nodes := (aput g.nodes S { sd with out := aerase sd.out S }) } false S S =
      { g with nodes := (aput (aput g.nodes S { sd with out := aerase sd.out S }) S
          { sd with out := aerase sd.out S, «in» := aerase sd.«in» S }) } := by
    rw [deleteInSide_someD (show alookup ({ g with nodes :=
        (aput g.nodes S { sd with out := aerase sd.out S }) } : Graph).nodes S
        = some { sd with out := aerase sd.out S } from alookup_aput_self _ _ _)]
  rw [hG2]
  have hfn : ({ g with nodes := (aput (aput g.nodes S { sd with out := aerase sd.out S }) S
      { sd with out := aerase sd.out S, «in» := aerase sd.«in» S }) } : Graph).nodes
      = aput (aput g.nodes S { sd with out := aerase sd.out S }) S
          { sd with out := aerase sd.out S, «in» := aerase sd.«in» S } := rfl
  unfold IdxInv
  refine ⟨?_, ?_, ?_, ?_, ?_⟩
  · unfold keysND
    rw [hfn, map_fst_aput_of_lookup (alookup_aput_self _ _ _),
        map_fst_aput_of_lookup hsd]
    exact hndN
  · intro A dA hA
    rw [hfn] at hA
    by_cases hAS : A = S
    · rw [hAS, alookup_aput_self] at hA
      obtain rfl := Option.some.inj hA
      exact ⟨keysND_aerase hoN S, keysND_aerase hiN S, huN⟩
    · rw [alookup_aput_ne hAS, alookup_aput_ne hAS] at hA
      exact hndS A dA hA
  · exact hFresh
  · -- handle separation: owners only shrink
    have hOwnD2 : ∀ h A B,
        OwnerD ({ g with nodes := (aput (aput g.nodes S { sd with out := aerase sd.out S }) S
          { sd with out := aerase sd.out S, «in» := aerase sd.«in» S }) } : Graph) h A B →
        OwnerD g h A B := by
      intro h A B ho
      obtain ⟨dA, hA, hB⟩ := ho
      rw [hfn] at hA
      by_cases hAS : A = S
      · rw [hAS, alookup_aput_self] at hA
        obtain rfl := Option.some.inj hA
        have hB' : alookup (aerase sd.out S) B = some h := hB
        rw [alookup_aerase hoN] at hB'
        by_cases hBS : B = S
        · rw [if_pos hBS] at hB'
          exact absurd hB' (by simp)
        · rw [if_neg hBS] at hB'
          exact ⟨sd, by rw [hAS]; exact hsd, hB'⟩
      · rw [alookup_aput_ne hAS, alookup_aput_ne hAS] at hA
        exact ⟨dA, hA, hB⟩
    have hOwnU2 : ∀ h A B,
        OwnerU ({ g with nodes := (aput (aput g.nodes S { sd with out := aerase sd.out S }) S
          { sd with out := aerase sd.out S, «in» := aerase sd.«in» S }) } : Graph) h A B →
        OwnerU g h A B := by
      intro h A B ho
      obtain ⟨dA, hA, hB⟩ := ho
      rw [hfn] at hA
      by_cases hAS : A = S
      · rw [hAS, alookup_aput_self] at hA
        obtain rfl := Option.some.inj hA
        exact ⟨sd, by rw [hAS]; exact hsd, hB⟩
      · rw [alookup_aput_ne hAS, alookup_aput_ne hAS] at hA
        exact ⟨dA, hA, hB⟩
    refine ⟨?_, ?_, ?_⟩
    · intro h A B A' B' h1 h2
      exact hSep.1 h A B A' B' (hOwnD2 h A B h1) (hOwnD2 h A' B' h2)
    · intro h A B A' B' h1 h2
      exact hSep.2.1 h A B A' B' (hOwnU2 h A B h1) (hOwnU2 h A' B' h2)
    · intro h A B A' B' h1 h2
      exact hSep.2.2 h A B A' B' (hOwnD2 h A B h1) (hOwnU2 h A' B' h2)
  · -- index correctness for the shrunken edge list
    intro A dA hA
    rw [hfn] at hA
    by_cases hAS : A = S
    · rw [hAS, alookup_aput_self] at hA
      obtain rfl := Option.some.inj hA
      refine ⟨?_, ?_, ?_, ?_⟩
      · intro B
        rw [hAS]
        dsimp only
        rw [alookup_aerase hoN]
        by_cases hBS : B = S
        · rw [if_pos hBS, hBS, hD0]
          exact entryOk_none _ _
        · rw [if_neg hBS, hDno S B (fun hc => hBS hc.2.symm)]
          exact (hIdx S sd hsd).1 B
      · intro B
        rw [hAS, hUe S B]
        exact (hIdx S sd hsd).2.1 B
      · rw [hfn, hAS]
        intro B
        dsimp only
        rw [alookup_aerase hiN]
        by_cases hBS : B = S
        · rw [if_pos hBS, if_pos hBS]
        · rw [if_neg hBS, if_neg hBS, alookup_aput_ne hBS, alookup_aput_ne hBS]
          have hold := (hIdx S sd hsd).2.2.1 B
          rw [if_neg hBS] at hold
          exact hold
      · rw [hfn, hAS]
        intro B hBS
        dsimp only
        rw [alookup_aput_ne hBS, alookup_aput_ne hBS]
        exact (hIdx S sd hsd).2.2.2 B hBS
    · rw [alookup_aput_ne hAS, alookup_aput_ne hAS] at hA
      obtain ⟨hOutA, hUndA, hInA, hUMA⟩ := hIdx A dA hA
      refine ⟨?_, ?_, ?_, ?_⟩
      · intro B
        rw [hDno A B (fun hc => hAS hc.1.symm)]
        exact hOutA B
      · intro B
        rw [hUe A B]
        exact hUndA B
      · rw [hfn]
        intro B
        have hold := hInA B
        by_cases hBA : B = A
        · rw [if_pos hBA]
          rw [if_pos hBA] at hold
          exact hold
        · rw [if_neg hBA]
          rw [if_neg hBA] at hold
          by_cases hBS : B = S
          · rw [hBS, alookup_aput_self]
            dsimp only
            rw [alookup_aerase hoN, if_neg hAS]
            rw [hBS, hsd] at hold
            dsimp only at hold
            exact hold
          · rw [alookup_aput_ne hBS, alookup_aput_ne hBS]
            exact hold
      · rw [hfn]
        intro B hBA
        have hold := hUMA B hBA
        by_cases hBS : B = S
        · rw [hBS, alookup_aput_self]
          dsimp only
          rw [hBS, hsd] at hold
          dsimp only at hold
          exact hold
        · rw [alookup_aput_ne hBS, alookup_aput_ne hBS]
          exact hold

theorem idxInv_eraseD_mirror (g : Graph) (E : List (String × EdgeData))
    (k : String) (att : Nat) (S T : String) (sd td : NodeData)
    (hst : ¬ S = T)
    (hndE : keysND E)
    (hndN : keysND g.nodes)
    (hndS : ∀ A dA, alookup g.nodes A = some dA →
      keysND dA.out ∧ keysND dA.«in» ∧ keysND dA.undirected)
    (hFresh : ∀ h, (alookup g.heap h).isSome = true → h < g.nextRef)
    (hSep : HandleSep g)
    (hIdx : IndexOkOn g E)
    (hkd : alookup E k = some
      ({ undirected := false, attributes := att, source := S, target := T } : EdgeData))
    (hsd : alookup g.nodes S = some sd)
    (htd : alookup g.nodes T = some td)
    (hDST : dKeys E S T = [k]) :
    IdxInv (deleteInSide
        { g with nodes := (aput g.nodes S { sd with out := aerase sd.out T }) } false S T)
      (aerase E k) := by
  have hts : ¬ T = S := fun hE => hst hE.symm
  obtain ⟨hoN, hiN, huN⟩ := hndS S sd hsd
  obtain ⟨hoT, hiT, huT⟩ := hndS T td htd
  have hDe : ∀ A B, dKeys (aerase E k) A B = (dKeys E A B).erase k :=
    fun A B => dKeys_aerase hndE k A B
  have hUe : ∀ A B, uKeys (aerase E k) A B = uKeys E A B := fun A B => by
    rw [uKeys_aerase hndE]
    exact List.erase_of_not_mem (not_mem_uKeys_of_dir hndE hkd A B)
  have hDno : ∀ A B, ¬ (S = A ∧ T = B) → dKeys (aerase E k) A B = dKeys E A B := by
    intro A B hne
    rw [hDe]
    exact List.erase_of_not_mem (not_mem_dKeys_of_ne hndE hkd hne)
  have hD0 : dKeys (aerase E k) S T = [] := by
    rw [hDe, hDST]
    simp
  have hG2 : deleteInSide
      { g with nodes := (aput g.nodes S { sd with out := aerase sd.out T }) } false S T =
      { g with nodes := (aput (aput g.nodes S { sd with out := aerase sd.out T }) T
          { td with «in» := aerase td.«in» S }) } := by
    rw [deleteInSide_someD (show alookup ({ g with nodes :=
        (aput g.nodes S { sd with out := aerase sd.out T }) } : Graph).nodes T
        = some td by rw [alookup_aput_ne hts]; exact htd)]
  rw [hG2]
  have hfn : ({ g with nodes := (aput (aput g.nodes S { sd with out := aerase sd.out T }) T
      { td with «in» := aerase td.«in» S }) } : Graph).nodes
      = aput (aput g.nodes S { sd with out := aerase sd.out T }) T
          { td with «in» := aerase td.«in» S } := rfl
  unfold IdxInv
  refine ⟨?_, ?_, ?_, ?_, ?_⟩
  · unfold keysND
    rw [hfn, map_fst_aput_of_lookup (show alookup
        (aput g.nodes S { sd with out := aerase sd.out T }) T = some td by
          rw [alookup_aput_ne hts]; exact htd),
        map_fst_aput_of_lookup hsd]
    exact hndN
  · intro A dA hA
    rw [hfn] at hA
    by_cases hAT : A = T
    · rw [hAT, alookup_aput_self] at hA
      obtain rfl := Option.some.inj hA
      exact ⟨hoT, keysND_aerase hiT S, huT⟩
    · rw [alookup_aput_ne hAT] at hA
      by_cases hAS : A = S
      · rw [hAS, alookup_aput_self] at hA
        obtain rfl := Option.some.inj hA
        exact ⟨keysND_aerase hoN T, hiN, huN⟩
      · rw [alookup_aput_ne hAS] at hA
        exact hndS A dA hA
  · exact hFresh
  · -- handle separation: owners only shrink
    have hOwnD2 : ∀ h A B,
        OwnerD ({ g with nodes := (aput (aput g.nodes S { sd with out := aerase sd.out T }) T
          { td with «in» := aerase td.«in» S }) } : Graph) h A B →
        OwnerD g h A B := by
      intro h A B ho
      obtain ⟨dA, hA, hB⟩ := ho
      rw [hfn] at hA
      by_cases hAT : A = T
      · rw [hAT, alookup_aput_self] at hA
        obtain rfl := Option.some.inj hA
        exact ⟨td, by rw [hAT]; exact htd, hB⟩
      · rw [alookup_aput_ne hAT] at hA
        by_cases hAS : A = S
        · rw [hAS, alookup_aput_self] at hA
          obtain rfl := Option.some.inj hA
          have hB' : alookup (aerase sd.out T) B = some h := hB
          rw [alookup_aerase hoN] at hB'
          by_cases hBT : B = T
          · rw [if_pos hBT] at hB'
            exact absurd hB' (by simp)
          · rw [if_neg hBT] at hB'
            exact ⟨sd, by rw [hAS]; exact hsd, hB'⟩
        · rw [alookup_aput_ne hAS] at hA
          exact ⟨dA, hA, hB⟩
    have hOwnU2 : ∀ h A B,
        OwnerU ({ g with nodes := (aput (aput g.nodes S { sd with out := aerase sd.out T }) T
          { td with «in» := aerase td.«in» S }) } : Graph) h A B →
        OwnerU g h A B := by
      intro h A B ho
      obtain ⟨dA, hA, hB⟩ := ho
      rw [hfn] at hA
      by_cases hAT : A = T
      · rw [hAT, alookup_aput_self] at hA
        obtain rfl := Option.some.inj hA
        exact ⟨td, by rw [hAT]; exact htd, hB⟩
      · rw [alookup_aput_ne hAT] at hA
        by_cases hAS : A = S
        · rw [hAS, alookup_aput_self] at hA
          obtain rfl := Option.some.inj hA
          exact ⟨sd, by rw [hAS]; exact hsd, hB⟩
        · rw [alookup_aput_ne hAS] at hA
          exact ⟨dA, hA, hB⟩
    refine ⟨?_, ?_, ?_⟩
    · intro h A B A' B' h1 h2
      exact hSep.1 h A B A' B' (hOwnD2 h A B h1) (hOwnD2 h A' B' h2)
    · intro h A B A' B' h1 h2
      exact hSep.2.1 h A B A' B' (hOwnU2 h A B h1) (hOwnU2 h A' B' h2)
    · intro h A B A' B' h1 h2
      exact hSep.2.2 h A B A' B' (hOwnD2 h A B h1) (hOwnU2 h A' B' h2)
  · -- index correctness for the shrunken edge list
    intro A dA hA
    rw [hfn] at hA
    by_cases hAT : A = T
    · rw [hAT, alookup_aput_self] at hA
      obtain rfl := Option.some.inj hA
      refine ⟨?_, ?_, ?_, ?_⟩
      · intro B
        rw [hAT, hDno T B (fun hc => hst hc.1)]
        exact (hIdx T td htd).1 B
      · intro B
        rw [hAT, hUe T B]
        exact (hIdx T td htd).2.1 B
      · rw [hfn, hAT]
        intro B
        dsimp only
        rw [alookup_aerase hiT]
        by_cases hBT : B = T
        · rw [if_pos hBT]
          rw [show (if B = S then none else alookup td.«in» B) = alookup td.«in» B from
            if_neg (fun hE => hst (hBT ▸ hE).symm)]
          have hold := (hIdx T td htd).2.2.1 B
          rw [if_pos hBT] at hold
          rw [hold]
        · rw [if_neg hBT]
          by_cases hBS : B = S
          · rw [if_pos hBS, hBS, alookup_aput_ne hst, alookup_aput_self]
            dsimp only
            rw [alookup_aerase hoN, if_pos rfl]
          · rw [if_neg hBS, alookup_aput_ne hBT, alookup_aput_ne hBS]
            have hold := (hIdx T td htd).2.2.1 B
            rw [if_neg hBT] at hold
            exact hold
      · rw [hfn, hAT]
        intro B hBT
        dsimp only
        by_cases hBS : B = S
        · rw [hBS, alookup_aput_ne hst, alookup_aput_self]
          dsimp only
          have hold := (hIdx T td htd).2.2.2 B hBT
          rw [hBS, hsd] at hold
          dsimp only at hold
          exact hold
        · rw [alookup_aput_ne hBT, alookup_aput_ne hBS]
          exact (hIdx T td htd).2.2.2 B hBT
    · rw [alookup_aput_ne hAT] at hA
      by_cases hAS : A = S
      · rw [hAS, alookup_aput_self] at hA
        obtain rfl := Option.some.inj hA
        refine ⟨?_, ?_, ?_, ?_⟩
        · intro B
          rw [hAS]
          dsimp only
          rw [alookup_aerase hoN]
          by_cases hBT : B = T
          · rw [if_pos hBT, hBT, hD0]
            exact entryOk_none _ _
          · rw [if_neg hBT, hDno S B (fun hc => hBT hc.2.symm)]
            exact (hIdx S sd hsd).1 B
        · intro B
          rw [hAS, hUe S B]
          exact (hIdx S sd hsd).2.1 B
        · rw [hfn, hAS]
          intro B
          have hold := (hIdx S sd hsd).2.2.1 B
          by_cases hBS : B = S
          · rw [if_pos hBS]
            rw [if_pos hBS] at hold
            exact hold
          · rw [if_neg hBS]
            rw [if_neg hBS] at hold
            by_cases hBT : B = T
            · rw [hBT, alookup_aput_self]
              dsimp only
              rw [hBT, htd] at hold
              dsimp only at hold
              exact hold
            · rw [alookup_aput_ne hBT, alookup_aput_ne hBS]
              exact hold
        · rw [hfn, hAS]
          intro B hBS
          have hold := (hIdx S sd hsd).2.2.2 B hBS
          by_cases hBT : B = T
          · rw [hBT, alookup_aput_self]
            dsimp only
            rw [hBT, htd] at hold
            dsimp only at hold
            exact hold
          · rw [alookup_aput_ne hBT, alookup_aput_ne hBS]
            exact hold
      · rw [alookup_aput_ne hAS] at hA
        obtain ⟨hOutA, hUndA, hInA, hUMA⟩ := hIdx A dA hA
        refine ⟨?_, ?_, ?_, ?_⟩
        · intro B
          rw [hDno A B (fun hc => hAS hc.1.symm)]
          exact hOutA B
        · intro B
          rw [hUe A B]
          exact hUndA B
        · rw [hfn]
          intro B
          have hold := hInA B
          by_cases hBA : B = A
          · rw [if_pos hBA]
            rw [if_pos hBA] at hold
            exact hold
          · rw [if_neg hBA]
            rw [if_neg hBA] at hold
            by_cases hBT : B = T
            · rw [hBT, alookup_aput_self]
              dsimp only
              rw [hBT, htd] at hold
              dsimp only at hold
              exact hold
            · by_cases hBS : B = S
              · rw [hBS, alookup_aput_ne hst, alookup_aput_self]
                dsimp only
                rw [alookup_aerase hoN, if_neg hAT]
                rw [hBS, hsd] at hold
                dsimp only at hold
                exact hold
              · rw [alookup_aput_ne hBT, alookup_aput_ne hBS]
                exact hold
        · rw [hfn]
          intro B hBA
          have hold := hUMA B hBA
          by_cases hBT : B = T
          · rw [hBT, alookup_aput_self]
            dsimp only
            rw [hBT, htd] at hold
            dsimp only at hold
            exact hold
          · by_cases hBS : B = S
            · rw [hBS, alookup_aput_ne hst, alookup_aput_self]
              dsimp only
              rw [hBS, hsd] at hold
              dsimp only at hold
              exact hold
            · rw [alookup_aput_ne hBT, alookup_aput_ne hBS]
              exact hold

theorem idxInv_multiBigD (g : Graph) (E : List (String × EdgeData))
    (k : String) (att : Nat) (S T : String) (sd : NodeData) (h : Nat) (s : List String)
    (hm : g.multi = true)
    (hndE : keysND E)
    (hndN : keysND g.nodes)
    (hndS : ∀ A dA, alookup g.nodes A = some dA →
      keysND dA.out ∧ keysND dA.«in» ∧ keysND dA.undirected)
    (hFresh : ∀ h, (alookup g.heap h).isSome = true → h < g.nextRef)
    (hSep : HandleSep g)
    (hIdx : IndexOkOn g E)
    (hkd : alookup E k = some
      ({ undirected := false, attributes := att, source := S, target := T } : EdgeData))
    (hsd : alookup g.nodes S = some sd)
    (hslot : alookup sd.out T = some h)
    (hl : alookup g.heap h = some (EntryVal.multi s))
    (hsnd : s.Nodup)
    (hmem : ∀ x, x ∈ s ↔ x ∈ dKeys E S T)
    (hlen : ¬ s.length = 1) :
    IdxInv ({ g with heap := aput g.heap h (EntryVal.multi (s.erase k)) } : Graph)
      (aerase E k) := by
  have hks : k ∈ s := (hmem k).mpr (mem_dKeys_self hkd)
  have hDe : ∀ A B, dKeys (aerase E k) A B = (dKeys E A B).erase k :=
    fun A B => dKeys_aerase hndE k A B
  have hUe : ∀ A B, uKeys (aerase E k) A B = uKeys E A B := fun A B => by
    rw [uKeys_aerase hndE]
    exact List.erase_of_not_mem (not_mem_uKeys_of_dir hndE hkd A B)
  have hDno : ∀ A B, ¬ (S = A ∧ T = B) → dKeys (aerase E k) A B = dKeys E A B := by
    intro A B hne
    rw [hDe]
    exact List.erase_of_not_mem (not_mem_dKeys_of_ne hndE hkd hne)
  unfold IdxInv
  refine ⟨hndN, hndS, ?_, hSep, ?_⟩
  · intro x hx
    show x < g.nextRef
    by_cases hxh : x = h
    · subst hxh
      exact hFresh x (by rw [hl]; rfl)
    · rw [show ({ g with heap := aput g.heap h (EntryVal.multi (s.erase k)) } : Graph).heap
            = aput g.heap h (EntryVal.multi (s.erase k)) from rfl,
          alookup_aput, if_neg hxh] at hx
      exact hFresh x hx
  · intro A dA hA
    obtain ⟨hOutA, hUndA, hInA, hUMA⟩ := hIdx A dA hA
    refine ⟨?_, ?_, hInA, hUMA⟩
    · intro B
      by_cases hc : S = A ∧ T = B
      · obtain ⟨h1, h2⟩ := hc
        subst h1
        subst h2
        have hdA : dA = sd := by
          rw [hA] at hsd
          exact Option.some.inj hsd
        subst hdA
        rw [hDe S T, hslot]
        unfold entryOk
        dsimp only
        rw [show alookup ({ g with heap := aput g.heap h (EntryVal.multi (s.erase k)) } : Graph).heap h
              = some (EntryVal.multi (s.erase k)) by
            rw [show ({ g with heap := aput g.heap h (EntryVal.multi (s.erase k)) } : Graph).heap
                  = aput g.heap h (EntryVal.multi (s.erase k)) from rfl]
            rw [alookup_aput, if_pos rfl]]
        have hDnd : (dKeys E S T).Nodup := fKeys_nodup hndE
        refine ⟨?_, hm, hsnd.erase k, ?_⟩
        · obtain ⟨x, hxs, hxk⟩ := exists_other_of_length_ne_one hsnd hks hlen
          exact List.ne_nil_of_mem
            ((List.mem_erase_of_ne hxk).mpr ((hmem x).mp hxs))
        · intro x
          rw [hsnd.mem_erase_iff, hDnd.mem_erase_iff, hmem x]
      · rw [hDno A B hc]
        refine entryOk_heap_congr ?_ (hOutA B)
        intro x hx
        have hxh : ¬ x = h := by
          intro hE
          obtain ⟨e1, e2⟩ := hSep.1 x A B S T ⟨dA, hA, hx⟩ (hE ▸ ⟨sd, hsd, hslot⟩)
          exact hc ⟨e1.symm, e2.symm⟩
        rw [show ({ g with heap := aput g.heap h (EntryVal.multi (s.erase k)) } : Graph).heap
              = aput g.heap h (EntryVal.multi (s.erase k)) from rfl,
            alookup_aput, if_neg hxh]
    · intro B
      rw [hUe A B]
      refine entryOk_heap_congr ?_ (hUndA B)
      intro x hx
      have hxh : ¬ x = h :=
        fun hE => hSep.2.2 h S T A B ⟨sd, hsd, hslot⟩ (hE ▸ ⟨dA, hA, hx⟩)
      rw [show ({ g with heap := aput g.heap h (EntryVal.multi (s.erase k)) } : Graph).heap
            = aput g.heap h (EntryVal.multi (s.erase k)) from rfl,
          alookup_aput, if_neg hxh]

theorem idxInv_clear_directed (g : Graph) (E : List (String × EdgeData))
    (k : String) (att : Nat) (S T : String)
    (hInv : IdxInv g E)
    (hndE : keysND E)
    (hkd : alookup E k = some
      ({ undirected := false, attributes := att, source := S, target := T } : EdgeData))
    (hs : (alookup g.nodes S).isSome = true)
    (ht : (alookup g.nodes T).isSome = true)
    (hSimple : g.multi = false → dKeys E S T = [k]) :
    IdxInv (clearEdgeFromStructureIndex g false k S T) (aerase E k) := by
  obtain ⟨hndN, hndS, hFresh, hSep, hIdx⟩ := hInv
  obtain ⟨sd, hsd⟩ := Option.isSome_iff_exists.mp hs
  obtain ⟨td, htd⟩ := Option.isSome_iff_exists.mp ht
  have hkmem : k ∈ dKeys E S T := mem_dKeys_self hkd
  have hout := (hIdx S sd hsd).1 T
  cases hslot : alookup sd.out T with
  | none =>
      exfalso
      rw [hslot] at hout
      have hE2 : dKeys E S T = [] := hout
      rw [hE2] at hkmem
      simp at hkmem
  | some h =>
      rw [hslot] at hout
      by_cases hm : g.multi = true
      · have hl : ∃ s, alookup g.heap h = some (EntryVal.multi s) ∧ s.Nodup ∧
            ∀ x, x ∈ s ↔ x ∈ dKeys E S T := by
          unfold entryOk at hout
          dsimp only at hout
          obtain ⟨-, hrest⟩ := hout
          cases hl : alookup g.heap h with
          | none => rw [hl] at hrest; exact absurd hrest (by simp)
          | some v =>
              rw [hl] at hrest
              cases v with
              | simple e' =>
                  exact absurd hrest.1 (by rw [hm]; simp)
              | multi s => exact ⟨s, rfl, hrest.2.1, hrest.2.2⟩
        obtain ⟨s, hl, hsnd, hmem⟩ := hl
        unfold clearEdgeFromStructureIndex
        rw [hm, if_pos rfl]
        by_cases hlen : s.length = 1
        · rw [clearEdgeSourceSide_multiOne hm hsd (by simpa using hslot) hl hlen]
          have hsk : s = [k] := by
            obtain ⟨a, ha⟩ := List.length_eq_one.mp hlen
            have hka : k = a := by
              have := (hmem k).mpr hkmem
              rw [ha] at this
              simpa using this
            rw [ha, hka]
          have hDnd : (dKeys E S T).Nodup := fKeys_nodup hndE
          have hDST : dKeys E S T = [k] := by
            refine eq_singleton_of_unique_mem hDnd hkmem ?_
            intro x hx
            have := (hmem x).mpr hx
            rw [hsk] at this
            simpa using this
          show IdxInv (deleteInSide
              { g with nodes := (aput g.nodes S { sd with out := aerase sd.out T }) } false S T)
            (aerase E k)
          by_cases hst : S = T
          · rw [← hst] at hkd hDST ⊢
            exact idxInv_eraseD_self g E k att S sd hndE hndN hndS hFresh hSep hIdx
              hkd hsd hDST
          · exact idxInv_eraseD_mirror g E k att S T sd td hst hndE hndN hndS hFresh hSep
              hIdx hkd hsd htd hDST
        · rw [clearEdgeSourceSide_multiBig hm hsd (by simpa using hslot) hl hlen]
          exact idxInv_multiBigD g E k att S T sd h s hm hndE hndN hndS hFresh hSep hIdx
            hkd hsd hslot hl hsnd hmem hlen
      · have hms : g.multi = false := by
          cases hmm : g.multi
          · rfl
          · exact absurd hmm hm
        have hDST := hSimple hms
        unfold clearEdgeFromStructureIndex
        rw [hms, if_neg (show ¬ (false = true) by simp)]
        rw [clearEdgeSourceSide_simple hms hsd (by simpa using hslot)]
        show IdxInv (deleteInSide
            { g with nodes := (aput g.nodes S { sd with out := aerase sd.out T }) } false S T)
          (aerase E k)
        by_cases hst : S = T
        · rw [← hst] at hkd hDST ⊢
          exact idxInv_eraseD_self g E k att S sd hndE hndN hndS hFresh hSep hIdx
            hkd hsd hDST
        · exact idxInv_eraseD_mirror g E k att S T sd td hst hndE hndN hndS hFresh hSep
            hIdx hkd hsd htd hDST

theorem idxInv_eraseU_self (g : Graph) (E : List (String × EdgeData))
    (k : String) (att : Nat) (S : String) (sd : NodeData)
    (hndE : keysND E)
    (hndN : keysND g.nodes)
    (hndS : ∀ A dA, alookup g.nodes A = some dA →
      keysND dA.out ∧ keysND dA.«in» ∧ keysND dA.undirected)
    (hFresh : ∀ h, (alookup g.heap h).isSome = true → h < g.nextRef)
    (hSep : HandleSep g)
    (hIdx : IndexOkOn g E)
    (hkd : alookup E k = some
      ({ undirected := true, attributes := att, source := S, target := S } : EdgeData))
    (hsd : alookup g.nodes S = some sd)
    (hUST : uKeys E S S = [k]) :
    IdxInv (deleteInSide
        { g with nodes := (aput g.nodes S
          { sd with undirected := aerase sd.undirected S }) } true S S)
      (aerase E k) := by
  obtain ⟨hoN, hiN, huN⟩ := hndS S sd hsd
  have huN2 : keysND (aerase sd.undirected S) := keysND_aerase huN S
  have hDe : ∀ A B, dKeys (aerase E k) A B = dKeys E A B := fun A B => by
    rw [dKeys_aerase hndE]
    exact List.erase_of_not_mem (not_mem_dKeys_of_undir hndE hkd A B)
  have hUno : ∀ A B, ¬ ((S = A ∧ S = B) ∨ (S = B ∧ S = A)) →
      uKeys (aerase E k) A B = uKeys E A B := by
    intro A B hne
    rw [uKeys_aerase hndE]
    exact List.erase_of_not_mem (not_mem_uKeys_of_ne hndE hkd hne)
  have hU0 : uKeys (aerase E k) S S = [] := by
    rw [uKeys_aerase hndE, hUST]
    simp
  have hG2 : deleteInSide
      { g with nodes := (aput g.nodes S
        { sd with undirected := aerase sd.undirected S }) } true S S =
      { g with nodes := (aput (aput g.nodes S
          { sd with undirected := aerase sd.undirected S }) S
          { sd with undirected := aerase (aerase sd.undirected S) S }) } := by
    rw [deleteInSide_someU (show alookup ({ g with nodes :=
        (aput g.nodes S { sd with undirected := aerase sd.undirected S }) } : Graph).nodes S
        = some { sd with undirected := aerase sd.undirected S } from alookup_aput_self _ _ _)]
  rw [hG2]
  have hfn : ({ g with nodes := (aput (aput g.nodes S
      { sd with undirected := aerase sd.undirected S }) S
      { sd with undirected := aerase (aerase sd.undirected S) S }) } : Graph).nodes
      = aput (aput g.nodes S { sd with undirected := aerase sd.undirected S }) S
          { sd with undirected := aerase (aerase sd.undirected S) S } := rfl
  unfold IdxInv
  refine ⟨?_, ?_, ?_, ?_, ?_⟩
  · unfold keysND
    rw [hfn, map_fst_aput_of_lookup (alookup_aput_self _ _ _),
        map_fst_aput_of_lookup hsd]
    exact hndN
  · intro A dA hA
    rw [hfn] at hA
    by_cases hAS : A = S
    · rw [hAS, alookup_aput_self] at hA
      obtain rfl := Option.some.inj hA
      exact ⟨hoN, hiN, keysND_aerase huN2 S⟩
    · rw [alookup_aput_ne hAS, alookup_aput_ne hAS] at hA
      exact hndS A dA hA
  · exact hFresh
  · have hOwnD2 : ∀ h A B,
        OwnerD ({ g with nodes := (aput (aput g.nodes S
          { sd with undirected := aerase sd.undirected S }) S
          { sd with undirected := aerase (aerase sd.undirected S) S }) } : Graph) h A B →
        OwnerD g h A B := by
      intro h A B ho
      obtain ⟨dA, hA, hB⟩ := ho
      rw [hfn] at hA
      by_cases hAS : A = S
      · rw [hAS, alookup_aput_self] at hA
        obtain rfl := Option.some.inj hA
        exact ⟨sd, by rw [hAS]; exact hsd, hB⟩
      · rw [alookup_aput_ne hAS, alookup_aput_ne hAS] at hA
        exact ⟨dA, hA, hB⟩
    have hOwnU2 : ∀ h A B,
        OwnerU ({ g with nodes := (aput (aput g.nodes S
          { sd with undirected := aerase sd.undirected S }) S
          { sd with undirected := aerase (aerase sd.undirected S) S }) } : Graph) h A B →
        OwnerU g h A B := by
      intro h A B ho
      obtain ⟨dA, hA, hB⟩ := ho
      rw [hfn] at hA
      by_cases hAS : A = S
      · rw [hAS, alookup_aput_self] at hA
        obtain rfl := Option.some.inj hA
        have hB' : alookup (aerase (aerase sd.undirected S) S) B = some h := hB
        rw [alookup_aerase huN2] at hB'
        by_cases hBS : B = S
        · rw [if_pos hBS] at hB'
          exact absurd hB' (by simp)
        · rw [if_neg hBS, alookup_aerase huN, if_neg hBS] at hB'
          exact ⟨sd, by rw [hAS]; exact hsd, hB'⟩
      · rw [alookup_aput_ne hAS, alookup_aput_ne hAS] at hA
        exact ⟨dA, hA, hB⟩
    refine ⟨?_, ?_, ?_⟩
    · intro h A B A' B' h1 h2
      exact hSep.1 h A B A' B' (hOwnD2 h A B h1) (hOwnD2 h A' B' h2)
    · intro h A B A' B' h1 h2
      exact hSep.2.1 h A B A' B' (hOwnU2 h A B h1) (hOwnU2 h A' B' h2)
    · intro h A B A' B' h1 h2
      exact hSep.2.2 h A B A' B' (hOwnD2 h A B h1) (hOwnU2 h A' B' h2)
  · intro A dA hA
    rw [hfn] at hA
    by_cases hAS : A = S
    · rw [hAS, alookup_aput_self] at hA
      obtain rfl := Option.some.inj hA
      refine ⟨?_, ?_, ?_, ?_⟩
      · intro B
        rw [hAS, hDe S B]
        exact (hIdx S sd hsd).1 B
      · intro B
        rw [hAS]
        dsimp only
        rw [alookup_aerase huN2]
        by_cases hBS : B = S
        · rw [if_pos hBS, hBS, hU0]
          exact entryOk_none _ _
        · have hcond : ¬ ((S = S ∧ S = B) ∨ (S = B ∧ S = S)) := fun hc => by
            rcases hc with ⟨-, h2⟩ | ⟨h2, -⟩ <;> exact hBS h2.symm
          rw [if_neg hBS, alookup_aerase huN, if_neg hBS, hUno S B hcond]
          exact (hIdx S sd hsd).2.1 B
      · rw [hfn, hAS]
        intro B
        dsimp only
        have hold := (hIdx S sd hsd).2.2.1 B
        by_cases hBS : B = S
        · rw [if_pos hBS]
          rw [if_pos hBS] at hold
          exact hold
        · rw [if_neg hBS, alookup_aput_ne hBS, alookup_aput_ne hBS]
          rw [if_neg hBS] at hold
          exact hold
      · rw [hfn, hAS]
        intro B hBS
        dsimp only
        rw [alookup_aerase huN2, if_neg hBS, alookup_aerase huN, if_neg hBS,
            alookup_aput_ne hBS, alookup_aput_ne hBS]
        exact (hIdx S sd hsd).2.2.2 B hBS
    · rw [alookup_aput_ne hAS, alookup_aput_ne hAS] at hA
      obtain ⟨hOutA, hUndA, hInA, hUMA⟩ := hIdx A dA hA
      refine ⟨?_, ?_, ?_, ?_⟩
      · intro B
        rw [hDe A B]
        exact hOutA B
      · intro B
        have hcond : ¬ ((S = A ∧ S = B) ∨ (S = B ∧ S = A)) := fun hc => by
          rcases hc with ⟨h1, -⟩ | ⟨-, h1⟩ <;> exact hAS h1.symm
        rw [hUno A B hcond]
        exact hUndA B
      · rw [hfn]
        intro B
        have hold := hInA B
        by_cases hBA : B = A
        · rw [if_pos hBA]
          rw [if_pos hBA] at hold
          exact hold
        · rw [if_neg hBA]
          rw [if_neg hBA] at hold
          by_cases hBS : B = S
          · rw [hBS, alookup_aput_self]
            dsimp only
            rw [hBS, hsd] at hold
            dsimp only at hold
            exact hold
          · rw [alookup_aput_ne hBS, alookup_aput_ne hBS]
            exact hold
      · rw [hfn]
        intro B hBA
        have hold := hUMA B hBA
        by_cases hBS : B = S
        · rw [hBS, alookup_aput_self]
          dsimp only
          rw [alookup_aerase huN2, if_neg hAS, alookup_aerase huN, if_neg hAS]
          rw [hBS, hsd] at hold
          dsimp only at hold
          exact hold
        · rw [alookup_aput_ne hBS, alookup_aput_ne hBS]
          exact hold

theorem idxInv_eraseU_mirror (g : Graph) (E : List (String × EdgeData))
    (k : String) (att : Nat) (S T : String) (sd td : NodeData)
    (hst : ¬ S = T)
    (hndE : keysND E)
    (hndN : keysND g.nodes)
    (hndS : ∀ A dA, alookup g.nodes A = some dA →
      keysND dA.out ∧ keysND dA.«in» ∧ keysND dA.undirected)
    (hFresh : ∀ h, (alookup g.heap h).isSome = true → h < g.nextRef)
    (hSep : HandleSep g)
    (hIdx : IndexOkOn g E)
    (hkd : alookup E k = some
      ({ undirected := true, attributes := att, source := S, target := T } : EdgeData))
    (hsd : alookup g.nodes S = some sd)
    (htd : alookup g.nodes T = some td)
    (hUST : uKeys E S T = [k]) :
    IdxInv (deleteInSide
        { g with nodes := (aput g.nodes S
          { sd with undirected := aerase sd.undirected T }) } true S T)
      (aerase E k) := by
  have hts : ¬ T = S := fun hE => hst hE.symm
  obtain ⟨hoN, hiN, huN⟩ := hndS S sd hsd
  obtain ⟨hoT, hiT, huT⟩ := hndS T td htd
  have hDe : ∀ A B, dKeys (aerase E k) A B = dKeys E A B := fun A B => by
    rw [dKeys_aerase hndE]
    exact List.erase_of_not_mem (not_mem_dKeys_of_undir hndE hkd A B)
  have hUno : ∀ A B, ¬ ((S = A ∧ T = B) ∨ (S = B ∧ T = A)) →
      uKeys (aerase E k) A B = uKeys E A B := by
    intro A B hne
    rw [uKeys_aerase hndE]
    exact List.erase_of_not_mem (not_mem_uKeys_of_ne hndE hkd hne)
  have hU0 : uKeys (aerase E k) S T = [] := by
    rw [uKeys_aerase hndE, hUST]
    simp
  have hU0' : uKeys (aerase E k) T S = [] := by
    rw [uKeys_aerase hndE, uKeys_symm E T S, hUST]
    simp
  have hG2 : deleteInSide
      { g with nodes := (aput g.nodes S
        { sd with undirected := aerase sd.undirected T }) } true S T =
      { g with nodes := (aput (aput g.nodes S
          { sd with undirected := aerase sd.undirected T }) T
          { td with undirected := aerase td.undirected S }) } := by
    rw [deleteInSide_someU (show alookup ({ g with nodes :=
        (aput g.nodes S { sd with undirected := aerase sd.undirected T }) } : Graph).nodes T
        = some td by rw [alookup_aput_ne hts]; exact htd)]
  rw [hG2]
  have hfn : ({ g with nodes := (aput (aput g.nodes S
      { sd with undirected := aerase sd.undirected T }) T
      { td with undirected := aerase td.undirected S }) } : Graph).nodes
      = aput (aput g.nodes S { sd with undirected := aerase sd.undirected T }) T
          { td with undirected := aerase td.undirected S } := rfl
  unfold IdxInv
  refine ⟨?_, ?_, ?_, ?_, ?_⟩
  · unfold keysND
    rw [hfn, map_fst_aput_of_lookup (show alookup
        (aput g.nodes S { sd with undirected := aerase sd.undirected T }) T = some td by
          rw [alookup_aput_ne hts]; exact htd),
        map_fst_aput_of_lookup hsd]
    exact hndN
  · intro A dA hA
    rw [hfn] at hA
    by_cases hAT : A = T
    · rw [hAT, alookup_aput_self] at hA
      obtain rfl := Option.some.inj hA
      exact ⟨hoT, hiT, keysND_aerase huT S⟩
    · rw [alookup_aput_ne hAT] at hA
      by_cases hAS : A = S
      · rw [hAS, alookup_aput_self] at hA
        obtain rfl := Option.some.inj hA
        exact ⟨hoN, hiN, keysND_aerase huN T⟩
      · rw [alookup_aput_ne hAS] at hA
        exact hndS A dA hA
  · exact hFresh
  · have hOwnD2 : ∀ h A B,
        OwnerD ({ g with nodes := (aput (aput g.nodes S
          { sd with undirected := aerase sd.undirected T }) T
          { td with undirected := aerase td.undirected S }) } : Graph) h A B →
        OwnerD g h A B := by
      intro h A B ho
      obtain ⟨dA, hA, hB⟩ := ho
      rw [hfn] at hA
      by_cases hAT : A = T
      · rw [hAT, alookup_aput_self] at hA
        obtain rfl := Option.some.inj hA
        exact ⟨td, by rw [hAT]; exact htd, hB⟩
      · rw [alookup_aput_ne hAT] at hA
        by_cases hAS : A = S
        · rw [hAS, alookup_aput_self] at hA
          obtain rfl := Option.some.inj hA
          exact ⟨sd, by rw [hAS]; exact hsd, hB⟩
        · rw [alookup_aput_ne hAS] at hA
          exact ⟨dA, hA, hB⟩
    have hOwnU2 : ∀ h A B,
        OwnerU ({ g with nodes := (aput (aput g.nodes S
          { sd with undirected := aerase sd.undirected T }) T
          { td with undirected := aerase td.undirected S }) } : Graph) h A B →
        OwnerU g h A B := by
      intro h A B ho
      obtain ⟨dA, hA, hB⟩ := ho
      rw [hfn] at hA
      by_cases hAT : A = T
      · rw [hAT, alookup_aput_self] at hA
        obtain rfl := Option.some.inj hA
        have hB' : alookup (aerase td.undirected S) B = some h := hB
        rw [alookup_aerase huT] at hB'
        by_cases hBS : B = S
        · rw [if_pos hBS] at hB'
          exact absurd hB' (by simp)
        · rw [if_neg hBS] at hB'
          exact ⟨td, by rw [hAT]; exact htd, hB'⟩
      · rw [alookup_aput_ne hAT] at hA
        by_cases hAS : A = S
        · rw [hAS, alookup_aput_self] at hA
          obtain rfl := Option.some.inj hA
          have hB' : alookup (aerase sd.undirected T) B = some h := hB
          rw [alookup_aerase huN] at hB'
          by_cases hBT : B = T
          · rw [if_pos hBT] at hB'
            exact absurd hB' (by simp)
          · rw [if_neg hBT] at hB'
            exact ⟨sd, by rw [hAS]; exact hsd, hB'⟩
        · rw [alookup_aput_ne hAS] at hA
          exact ⟨dA, hA, hB⟩
    refine ⟨?_, ?_, ?_⟩
    · intro h A B A' B' h1 h2
      exact hSep.1 h A B A' B' (hOwnD2 h A B h1) (hOwnD2 h A' B' h2)
    · intro h A B A' B' h1 h2
      exact hSep.2.1 h A B A' B' (hOwnU2 h A B h1) (hOwnU2 h A' B' h2)
    · intro h A B A' B' h1 h2
      exact hSep.2.2 h A B A' B' (hOwnD2 h A B h1) (hOwnU2 h A' B' h2)
  · intro A dA hA
    rw [hfn] at hA
    by_cases hAT : A = T
    · rw [hAT, alookup_aput_self] at hA
      obtain rfl := Option.some.inj hA
      refine ⟨?_, ?_, ?_, ?_⟩
      · intro B
        rw [hAT, hDe T B]
        exact (hIdx T td htd).1 B
      · intro B
        rw [hAT]
        dsimp only
        rw [alookup_aerase huT]
        by_cases hBS : B = S
        · rw [if_pos hBS, hBS, hU0']
          exact entryOk_none _ _
        · have hcond : ¬ ((S = T ∧ T = B) ∨ (S = B ∧ T = T)) := fun hc => by
            rcases hc with ⟨h1, -⟩ | ⟨h1, -⟩
            · exact hst h1
            · exact hBS h1.symm
          rw [if_neg hBS, hUno T B hcond]
          exact (hIdx T td htd).2.1 B
      · rw [hfn, hAT]
        intro B
        have hold := (hIdx T td htd).2.2.1 B
        by_cases hBT : B = T
        · rw [if_pos hBT]
          rw [if_pos hBT] at hold
          exact hold
        · rw [if_neg hBT]
          rw [if_neg hBT] at hold
          by_cases hBS : B = S
          · rw [hBS, alookup_aput_ne hst, alookup_aput_self]
            dsimp only
            rw [hBS, hsd] at hold
            dsimp only at hold
            exact hold
          · rw [alookup_aput_ne hBT, alookup_aput_ne hBS]
            exact hold
      · rw [hfn, hAT]
        intro B hBT
        dsimp only
        rw [alookup_aerase huT]
        by_cases hBS : B = S
        · rw [if_pos hBS, hBS, alookup_aput_ne hst, alookup_aput_self]
          dsimp only
          rw [alookup_aerase huN, if_pos rfl]
        · rw [if_neg hBS, alookup_aput_ne hBT, alookup_aput_ne hBS]
          exact (hIdx T td htd).2.2.2 B hBT
    · rw [alookup_aput_ne hAT] at hA
      by_cases hAS : A = S
      · rw [hAS, alookup_aput_self] at hA
        obtain rfl := Option.some.inj hA
        refine ⟨?_, ?_, ?_, ?_⟩
        · intro B
          rw [hAS, hDe S B]
          exact (hIdx S sd hsd).1 B
        · intro B
          rw [hAS]
          dsimp only
          rw [alookup_aerase huN]
          by_cases hBT : B = T
          · rw [if_pos hBT, hBT, hU0]
            exact entryOk_none _ _
          · have hcond : ¬ ((S = S ∧ T = B) ∨ (S = B ∧ T = S)) := fun hc => by
              rcases hc with ⟨-, h2⟩ | ⟨-, h2⟩
              · exact hBT h2.symm
              · exact hts h2
            rw [if_neg hBT, hUno S B hcond]
            exact (hIdx S sd hsd).2.1 B
        · rw [hfn, hAS]
          intro B
          have hold := (hIdx S sd hsd).2.2.1 B
          by_cases hBS : B = S
          · rw [if_pos hBS]
            rw [if_pos hBS] at hold
            exact hold
          · rw [if_neg hBS]
            rw [if_neg hBS] at hold
            by_cases hBT : B = T
            · rw [hBT, alookup_aput_self]
              dsimp only
              rw [hBT, htd] at hold
              dsimp only at hold
              exact hold
            · rw [alookup_aput_ne hBT, alookup_aput_ne hBS]
              exact hold
        · rw [hfn, hAS]
          intro B hBS
          dsimp only
          rw [alookup_aerase huN]
          by_cases hBT : B = T
          · rw [if_pos hBT, hBT, alookup_aput_self]
            dsimp only
            rw [alookup_aerase huT, if_pos rfl]
          · rw [if_neg hBT, alookup_aput_ne hBT, alookup_aput_ne hBS]
            exact (hIdx S sd hsd).2.2.2 B hBS
      · rw [alookup_aput_ne hAS] at hA
        obtain ⟨hOutA, hUndA, hInA, hUMA⟩ := hIdx A dA hA
        refine ⟨?_, ?_, ?_, ?_⟩
        · intro B
          rw [hDe A B]
          exact hOutA B
        · intro B
          have hcond : ¬ ((S = A ∧ T = B) ∨ (S = B ∧ T = A)) := fun hc => by
            rcases hc with ⟨h1, -⟩ | ⟨-, h2⟩
            · exact hAS h1.symm
            · exact hAT h2.symm
          rw [hUno A B hcond]
          exact hUndA B
        · rw [hfn]
          intro B
          have hold := hInA B
          by_cases hBA : B = A
          · rw [if_pos hBA]
            rw [if_pos hBA] at hold
            exact hold
          · rw [if_neg hBA]
            rw [if_neg hBA] at hold
            by_cases hBT : B = T
            · rw [hBT, alookup_aput_self]
              dsimp only
              rw [hBT, htd] at hold
              dsimp only at hold
              exact hold
            · by_cases hBS : B = S
              · rw [hBS, alookup_aput_ne hst, alookup_aput_self]
                dsimp only
                rw [hBS, hsd] at hold
                dsimp only at hold
                exact hold
              · rw [alookup_aput_ne hBT, alookup_aput_ne hBS]
                exact hold
        · rw [hfn]
          intro B hBA
          have hold := hUMA B hBA
          by_cases hBT : B = T
          · rw [hBT, alookup_aput_self]
            dsimp only
            rw [alookup_aerase huT, if_neg hAS]
            rw [hBT, htd] at hold
            dsimp only at hold
            exact hold
          · by_cases hBS : B = S
            · rw [hBS, alookup_aput_ne hst, alookup_aput_self]
              dsimp only
              rw [alookup_aerase huN, if_neg hAT]
              rw [hBS, hsd] at hold
              dsimp only at hold
              exact hold
            · rw [alookup_aput_ne hBT, alookup_aput_ne hBS]
              exact hold

theorem idxInv_multiBigU (g : Graph) (E : List (String × EdgeData))
    (k : String) (att : Nat) (S T : String) (sd td : NodeData) (h : Nat) (s : List String)
    (hm : g.multi = true)
    (hndE : keysND E)
    (hndN : keysND g.nodes)
    (hndS : ∀ A dA, alookup g.nodes A = some dA →
      keysND dA.out ∧ keysND dA.«in» ∧ keysND dA.undirected)
    (hFresh : ∀ h, (alookup g.heap h).isSome = true → h < g.nextRef)
    (hSep : HandleSep g)
    (hIdx : IndexOkOn g E)
    (hkd : alookup E k = some
      ({ undirected := true, attributes := att, source := S, target := T } : EdgeData))
    (hsd : alookup g.nodes S = some sd)
    (htd : alookup g.nodes T = some td)
    (hslot : alookup sd.undirected T = some h)
    (hl : alookup g.heap h = some (EntryVal.multi s))
    (hsnd : s.Nodup)
    (hmem : ∀ x, x ∈ s ↔ x ∈ uKeys E S T)
    (hlen : ¬ s.length = 1) :
    IdxInv ({ g with heap := aput g.heap h (EntryVal.multi (s.erase k)) } : Graph)
      (aerase E k) := by
  have hks : k ∈ s := (hmem k).mpr (mem_uKeys_self hkd)
  have hundTS : alookup td.undirected S = some h := by
    by_cases hst : S = T
    · have htd2 : alookup g.nodes S = some td := by rw [hst]; exact htd
      rw [hsd] at htd2
      obtain rfl := Option.some.inj htd2
      rw [← hst] at hslot
      exact hslot
    · have hmirr := (hIdx T td htd).2.2.2 S hst
      rw [hsd] at hmirr
      dsimp only at hmirr
      rw [hmirr]
      exact hslot
  have hDe : ∀ A B, dKeys (aerase E k) A B = dKeys E A B := fun A B => by
    rw [dKeys_aerase hndE]
    exact List.erase_of_not_mem (not_mem_dKeys_of_undir hndE hkd A B)
  have hUe : ∀ A B, uKeys (aerase E k) A B = (uKeys E A B).erase k :=
    fun A B => uKeys_aerase hndE k A B
  have hUno : ∀ A B, ¬ ((S = A ∧ T = B) ∨ (S = B ∧ T = A)) →
      uKeys (aerase E k) A B = uKeys E A B := by
    intro A B hne
    rw [hUe]
    exact List.erase_of_not_mem (not_mem_uKeys_of_ne hndE hkd hne)
  unfold IdxInv
  refine ⟨hndN, hndS, ?_, hSep, ?_⟩
  · intro x hx
    show x < g.nextRef
    by_cases hxh : x = h
    · subst hxh
      exact hFresh x (by rw [hl]; rfl)
    · rw [show ({ g with heap := aput g.heap h (EntryVal.multi (s.erase k)) } : Graph).heap
            = aput g.heap h (EntryVal.multi (s.erase k)) from rfl,
          alookup_aput, if_neg hxh] at hx
      exact hFresh x hx
  · intro A dA hA
    obtain ⟨hOutA, hUndA, hInA, hUMA⟩ := hIdx A dA hA
    refine ⟨?_, ?_, hInA, hUMA⟩
    · intro B
      rw [hDe A B]
      refine entryOk_heap_congr ?_ (hOutA B)
      intro x hx
      have hxh : ¬ x = h :=
        fun hE => hSep.2.2 h A B S T (hE ▸ ⟨dA, hA, hx⟩) ⟨sd, hsd, hslot⟩
      rw [show ({ g with heap := aput g.heap h (EntryVal.multi (s.erase k)) } : Graph).heap
            = aput g.heap h (EntryVal.multi (s.erase k)) from rfl,
          alookup_aput, if_neg hxh]
    · intro B
      by_cases huc : (S = A ∧ T = B) ∨ (S = B ∧ T = A)
      · rcases huc with ⟨h1, h2⟩ | ⟨h1, h2⟩
        · subst h1
          subst h2
          have hdA : dA = sd := by
            rw [hA] at hsd
            exact Option.some.inj hsd
          subst hdA
          rw [hUe S T, hslot]
          unfold entryOk
          dsimp only
          rw [show alookup ({ g with heap := aput g.heap h (EntryVal.multi (s.erase k)) } : Graph).heap h
                = some (EntryVal.multi (s.erase k)) by
              rw [show ({ g with heap := aput g.heap h (EntryVal.multi (s.erase k)) } : Graph).heap
                    = aput g.heap h (EntryVal.multi (s.erase k)) from rfl]
              rw [alookup_aput, if_pos rfl]]
          have hUnd : (uKeys E S T).Nodup := fKeys_nodup hndE
          refine ⟨?_, hm, hsnd.erase k, ?_⟩
          · obtain ⟨x, hxs, hxk⟩ := exists_other_of_length_ne_one hsnd hks hlen
            exact List.ne_nil_of_mem
              ((List.mem_erase_of_ne hxk).mpr ((hmem x).mp hxs))
          · intro x
            rw [hsnd.mem_erase_iff, hUnd.mem_erase_iff, hmem x]
        · subst h1
          subst h2
          have hdA : dA = td := by
            rw [hA] at htd
            exact Option.some.inj htd
          subst hdA
          have hmem2 : ∀ x, x ∈ s ↔ x ∈ uKeys E T S := fun x => by
            rw [uKeys_symm E T S]
            exact hmem x
          rw [hUe T S, hundTS]
          unfold entryOk
          dsimp only
          rw [show alookup ({ g with heap := aput g.heap h (EntryVal.multi (s.erase k)) } : Graph).heap h
                = some (EntryVal.multi (s.erase k)) by
              rw [show ({ g with heap := aput g.heap h (EntryVal.multi (s.erase k)) } : Graph).heap
                    = aput g.heap h (EntryVal.multi (s.erase k)) from rfl]
              rw [alookup_aput, if_pos rfl]]
          have hUnd : (uKeys E T S).Nodup := fKeys_nodup hndE
          refine ⟨?_, hm, hsnd.erase k, ?_⟩
          · obtain ⟨x, hxs, hxk⟩ := exists_other_of_length_ne_one hsnd hks hlen
            exact List.ne_nil_of_mem
              ((List.mem_erase_of_ne hxk).mpr ((hmem2 x).mp hxs))
          · intro x
            rw [hsnd.mem_erase_iff, hUnd.mem_erase_iff, hmem2 x]
      · rw [hUno A B huc]
        refine entryOk_heap_congr ?_ (hUndA B)
        intro x hx
        have hxh : ¬ x = h := by
          intro hE
          rcases hSep.2.1 x A B S T ⟨dA, hA, hx⟩ (hE ▸ ⟨sd, hsd, hslot⟩) with
            ⟨e1, e2⟩ | ⟨e1, e2⟩
          · exact huc (Or.inl ⟨e1.symm, e2.symm⟩)
          · exact huc (Or.inr ⟨e2.symm, e1.symm⟩)
        rw [show ({ g with heap := aput g.heap h (EntryVal.multi (s.erase k)) } : Graph).heap
              = aput g.heap h (EntryVal.multi (s.erase k)) from rfl,
            alookup_aput, if_neg hxh]

theorem idxInv_clear_undirected (g : Graph) (E : List (String × EdgeData))
    (k : String) (att : Nat) (S T : String)
    (hInv : IdxInv g E)
    (hndE : keysND E)
    (hkd : alookup E k = some
      ({ undirected := true, attributes := att, source := S, target := T } : EdgeData))
    (hs : (alookup g.nodes S).isSome = true)
    (ht : (alookup g.nodes T).isSome = true)
    (hSimple : g.multi = false → uKeys E S T = [k]) :
    IdxInv (clearEdgeFromStructureIndex g true k S T) (aerase E k) := by
  obtain ⟨hndN, hndS, hFresh, hSep, hIdx⟩ := hInv
  obtain ⟨sd, hsd⟩ := Option.isSome_iff_exists.mp hs
  obtain ⟨td, htd⟩ := Option.isSome_iff_exists.mp ht
  have hkmem : k ∈ uKeys E S T := mem_uKeys_self hkd
  have hout := (hIdx S sd hsd).2.1 T
  cases hslot : alookup sd.undirected T with
  | none =>
      exfalso
      rw [hslot] at hout
      have hE2 : uKeys E S T = [] := hout
      rw [hE2] at hkmem
      simp at hkmem
  | some h =>
      rw [hslot] at hout
      by_cases hm : g.multi = true
      · have hl : ∃ s, alookup g.heap h = some (EntryVal.multi s) ∧ s.Nodup ∧
            ∀ x, x ∈ s ↔ x ∈ uKeys E S T := by
          unfold entryOk at hout
          dsimp only at hout
          obtain ⟨-, hrest⟩ := hout
          cases hl : alookup g.heap h with
          | none => rw [hl] at hrest; exact absurd hrest (by simp)
          | some v =>
              rw [hl] at hrest
              cases v with
              | simple e' =>
                  exact absurd hrest.1 (by rw [hm]; simp)
              | multi s => exact ⟨s, rfl, hrest.2.1, hrest.2.2⟩
        obtain ⟨s, hl, hsnd, hmem⟩ := hl
        unfold clearEdgeFromStructureIndex
        rw [hm, if_pos rfl]
        by_cases hlen : s.length = 1
        · rw [clearEdgeSourceSide_multiOne hm hsd (by simpa using hslot) hl hlen]
          have hsk : s = [k] := by
            obtain ⟨a, ha⟩ := List.length_eq_one.mp hlen
            have hka : k = a := by
              have := (hmem k).mpr hkmem
              rw [ha] at this
              simpa using this
            rw [ha, hka]
          have hUnd : (uKeys E S T).Nodup := fKeys_nodup hndE
          have hUST : uKeys E S T = [k] := by
            refine eq_singleton_of_unique_mem hUnd hkmem ?_
            intro x hx
            have := (hmem x).mpr hx
            rw [hsk] at this
            simpa using this
          show IdxInv (deleteInSide
              { g with nodes := (aput g.nodes S
                { sd with undirected := aerase sd.undirected T }) } true S T)
            (aerase E k)
          by_cases hst : S = T
          · rw [← hst] at hkd hUST ⊢
            exact idxInv_eraseU_self g E k att S sd hndE hndN hndS hFresh hSep hIdx
              hkd hsd hUST
          · exact idxInv_eraseU_mirror g E k att S T sd td hst hndE hndN hndS hFresh hSep
              hIdx hkd hsd htd hUST
        · rw [clearEdgeSourceSide_multiBig hm hsd (by simpa using hslot) hl hlen]
          exact idxInv_multiBigU g E k att S T sd td h s hm hndE hndN hndS hFresh hSep hIdx
            hkd hsd htd hslot hl hsnd hmem hlen
      · have hms : g.multi = false := by
          cases hmm : g.multi
          · rfl
          · exact absurd hmm hm
        have hUST := hSimple hms
        unfold clearEdgeFromStructureIndex
        rw [hms, if_neg (show ¬ (false = true) by simp)]
        rw [clearEdgeSourceSide_simple hms hsd (by simpa using hslot)]
        show IdxInv (deleteInSide
            { g with nodes := (aput g.nodes S
              { sd with undirected := aerase sd.undirected T }) } true S T)
          (aerase E k)
        by_cases hst : S = T
        · rw [← hst] at hkd hUST ⊢
          exact idxInv_eraseU_self g E k att S sd hndE hndN hndS hFresh hSep hIdx
            hkd hsd hUST
        · exact idxInv_eraseU_mirror g E k att S T sd td hst hndE hndN hndS hFresh hSep
            hIdx hkd hsd htd hUST

/-! ### The `structure` flag is untouched by the index and counter helpers -/

theorem structureComputed_mirrorIfAbsent (g : Graph) (u : Bool) (s t : String)
    (h : Nat) : (mirrorIfAbsent g u s t h).structureComputed = g.structureComputed := by
  unfold mirrorIfAbsent
  cases ht : alookup g.nodes t with
  | none => rfl
  | some td =>
      dsimp only
      by_cases hp : (alookup (if u = true then td.undirected else td.«in») s).isSome = true
      · rw [if_pos hp]
      · rw [if_neg hp]

theorem structureComputed_updateStructureIndex (g : Graph) (u : Bool)
    (k s t : String) :
    (updateStructureIndex g u k s t).structureComputed = g.structureComputed := by
  simp only [updateStructureIndex]
  cases hs : alookup g.nodes s with
  | none => rfl
  | some sd =>
      dsimp only
      cases hslot : alookup (if u = true then sd.undirected else sd.out) t with
      | some h =>
          dsimp only
          have hbase : (if g.multi = true then { g with heap := heapAdd g.heap h k }
              else g).structureComputed = g.structureComputed := by
            by_cases hm : g.multi = true
            · rw [if_pos hm]
            · rw [if_neg hm]
          by_cases hst : s = t
          · rw [if_pos hst]
            exact hbase
          · rw [if_neg hst, structureComputed_mirrorIfAbsent]
            exact hbase
      | none =>
          dsimp only
          by_cases hst : s = t
          · rw [if_pos hst]
          · rw [if_neg hst, structureComputed_mirrorIfAbsent]

theorem structureComputed_updateIndex (g : Graph) (k : String) (d : EdgeData) :
    (updateIndex g k d).structureComputed = g.structureComputed := by
  unfold updateIndex
  split
  · rfl
  · exact structureComputed_updateStructureIndex g d.undirected k d.source d.target

theorem structureComputed_foldl_updateIndex (E : List (String × EdgeData))
    (g : Graph) :
    (E.foldl (fun acc p => updateIndex acc p.1 p.2) g).structureComputed
      = g.structureComputed := by
  induction E generalizing g with
  | nil => rfl
  | cons p rest ih =>
      rw [List.foldl_cons, ih, structureComputed_updateIndex]

theorem computeIndex_structureComputed (g : Graph) :
    (computeIndex g).structureComputed = true := by
  unfold computeIndex
  by_cases hc : g.structureComputed = true
  · rw [if_pos hc]
    exact hc
  · rw [if_neg hc]
    dsimp only
    rw [structureComputed_foldl_updateIndex]

theorem structureComputed_deleteInSide (g : Graph) (u : Bool) (s t : String) :
    (deleteInSide g u s t).structureComputed = g.structureComputed := by
  unfold deleteInSide
  cases ht : alookup g.nodes t with
  | none => rfl
  | some td => rfl

theorem structureComputed_clearEdgeSourceSide (g : Graph) (u : Bool)
    (k s t : String) :
    (clearEdgeSourceSide g u k s t).structureComputed = g.structureComputed := by
  unfold clearEdgeSourceSide
  cases hs : alookup g.nodes s with
  | none => rfl
  | some sd =>
      dsimp only
      cases hslot : alookup (if u = true then sd.undirected else sd.out) t with
      | none => rfl
      | some h =>
          dsimp only
          by_cases hm : g.multi = true
          · rw [if_pos hm]
            cases hh : alookup g.heap h with
            | none => rfl
            | some ev =>
                cases ev with
                | simple e => rfl
                | multi ms =>
                    dsimp only
                    by_cases hlen : ms.length = 1
                    · rw [if_pos hlen, structureComputed_deleteInSide]
                    · rw [if_neg hlen]
          · rw [if_neg hm]

theorem structureComputed_clearEdgeFromStructureIndex (g : Graph) (u : Bool)
    (k s t : String) :
    (clearEdgeFromStructureIndex g u k s t).structureComputed
      = g.structureComputed := by
  unfold clearEdgeFromStructureIndex
  by_cases hm : g.multi = true
  · rw [if_pos hm, structureComputed_clearEdgeSourceSide]
  · rw [if_neg hm, structureComputed_deleteInSide,
        structureComputed_clearEdgeSourceSide]

theorem structureComputed_clearEdgeFromIndex (g : Graph) (k : String)
    (d : EdgeData) :
    (clearEdgeFromIndex g k d).structureComputed = g.structureComputed := by
  unfold clearEdgeFromIndex
  split
  · rfl
  · exact structureComputed_clearEdgeFromStructureIndex g d.undirected k d.source
      d.target

theorem structureComputed_bumpSelf (g : Graph) (d : Int) (s : String) :
    (bumpSelf g d s).structureComputed = g.structureComputed := by
  unfold bumpSelf
  cases hs : alookup g.nodes s with
  | none => rfl
  | some sd => rfl

theorem structureComputed_bumpSourceAdd (g : Graph) (u : Bool) (s : String) :
    (bumpSourceAdd g u s).structureComputed = g.structureComputed := by
  unfold bumpSourceAdd
  cases hs : alookup g.nodes s with
  | none => rfl
  | some sd => rfl

theorem structureComputed_bumpTargetAdd (g : Graph) (u : Bool) (s : String) :
    (bumpTargetAdd g u s).structureComputed = g.structureComputed := by
  unfold bumpTargetAdd
  cases hs : alookup g.nodes s with
  | none => rfl
  | some sd => rfl

theorem structureComputed_bumpSourceDrop (g : Graph) (u : Bool) (s : String) :
    (bumpSourceDrop g u s).structureComputed = g.structureComputed := by
  unfold bumpSourceDrop
  cases hs : alookup g.nodes s with
  | none => rfl
  | some sd => rfl

theorem structureComputed_bumpTargetDrop (g : Graph) (u : Bool) (s : String) :
    (bumpTargetDrop g u s).structureComputed = g.structureComputed := by
  unfold bumpTargetDrop
  cases hs : alookup g.nodes s with
  | none => rfl
  | some sd => rfl

theorem structureComputed_bumpDegreesAdd (g : Graph) (u : Bool) (s t : String) :
    (bumpDegreesAdd g u s t).structureComputed = g.structureComputed := by
  unfold bumpDegreesAdd
  by_cases hst : s = t
  · rw [if_pos hst, structureComputed_bumpSelf]
  · rw [if_neg hst, structureComputed_bumpTargetAdd, structureComputed_bumpSourceAdd]

theorem structureComputed_bumpDegreesDrop (g : Graph) (u : Bool) (s t : String) :
    (bumpDegreesDrop g u s t).structureComputed = g.structureComputed := by
  unfold bumpDegreesDrop
  by_cases hst : s = t
  · rw [if_pos hst, structureComputed_bumpSelf]
  · rw [if_neg hst, structureComputed_bumpTargetDrop, structureComputed_bumpSourceDrop]

/-! ### Small structural helpers for the invariant proofs -/

theorem aput_eq_append_of_not_mem {κ α : Type} [DecidableEq κ]
    {l : List (κ × α)} {k : κ} (h : k ∉ l.map Prod.fst) (v : α) :
    aput l k v = l ++ [(k, v)] := by
  induction l with
  | nil => rfl
  | cons p rest ih =>
      obtain ⟨a, b⟩ := p
      have hka : ¬ k = a := by
        intro hE
        exact h (by rw [hE]; simp)
      have hrest : k ∉ rest.map Prod.fst := by
        intro hE
        exact h (by simp [hE])
      unfold aput
      rw [if_neg hka, ih hrest]
      rw [List.cons_append]

theorem alookup_map_snd {κ α β : Type} [DecidableEq κ] (f : α → β)
    (l : List (κ × α)) (k : κ) :
    alookup (l.map (fun p => (p.1, f p.2))) k = (alookup l k).map f := by
  induction l with
  | nil => rfl
  | cons p rest ih =>
      obtain ⟨a, b⟩ := p
      by_cases hk : k = a
      · simp [alookup, hk]
      · simp [alookup, hk, ih]

theorem mem_incidentEdges {g : Graph} {n x : String} :
    x ∈ incidentEdges g n ↔
      ∃ e, (x, e) ∈ g.edges ∧ (e.source = n ∨ e.target = n) := by
  unfold incidentEdges
  constructor
  · intro hx
    rcases List.mem_map.mp hx with ⟨q, hq, hfst⟩
    rcases List.mem_filter.mp hq with ⟨hmem, hP⟩
    refine ⟨q.2, ?_, ?_⟩
    · rw [← hfst]
      exact hmem
    · exact of_decide_eq_true hP
  · rintro ⟨e, hmem, hP⟩
    exact List.mem_map.mpr ⟨(x, e), List.mem_filter.mpr ⟨hmem, decide_eq_true hP⟩, rfl⟩

theorem eq_singleton_of_mem_length_le {l : List String} {k : String}
    (hk : k ∈ l) (hlen : l.length ≤ 1) : l = [k] := by
  cases l with
  | nil => simp at hk
  | cons a t =>
      cases t with
      | nil =>
          have hak : k = a := by simpa using hk
          rw [← hak]
      | cons b t2 => simp at hlen

theorem dKeys_nil_of_no_source {E : List (String × EdgeData)}
    (hndE : keysND E)
    (hno : ∀ k e, alookup E k = some e → ¬ e.source = n) (B : String) :
    dKeys E n B = [] := by
  rw [List.eq_nil_iff_forall_not_mem]
  intro x hx
  rcases mem_fKeys.mp hx with ⟨e, hmem, hP⟩
  rw [dPred_iff] at hP
  exact hno x e (mem_alookup hndE hmem) hP.2.1

theorem dKeys_nil_of_no_target {E : List (String × EdgeData)}
    (hndE : keysND E)
    (hno : ∀ k e, alookup E k = some e → ¬ e.target = n) (B : String) :
    dKeys E B n = [] := by
  rw [List.eq_nil_iff_forall_not_mem]
  intro x hx
  rcases mem_fKeys.mp hx with ⟨e, hmem, hP⟩
  rw [dPred_iff] at hP
  exact hno x e (mem_alookup hndE hmem) hP.2.2

theorem uKeys_nil_of_no_endpoint {E : List (String × EdgeData)}
    (hndE : keysND E)
    (hno : ∀ k e, alookup E k = some e → ¬ e.source = n ∧ ¬ e.target = n)
    (B : String) : uKeys E n B = [] := by
  rw [List.eq_nil_iff_forall_not_mem]
  intro x hx
  rcases mem_fKeys.mp hx with ⟨e, hmem, hP⟩
  rw [uPred_iff] at hP
  obtain ⟨hs, ht⟩ := hno x e (mem_alookup hndE hmem)
  rcases hP.2 with ⟨h1, -⟩ | ⟨-, h2⟩
  · exact hs h1
  · exact ht h2

theorem indexOkOn_nil_of_slotsEmpty {g : Graph} (hse : SlotsEmpty g) :
    IndexOkOn g [] := by
  intro A dA hA
  obtain ⟨ho, hi, hu⟩ := hse A dA hA
  refine ⟨?_, ?_, ?_, ?_⟩
  · intro B
    rw [ho]
    exact entryOk_none _ _
  · intro B
    rw [hu]
    exact entryOk_none _ _
  · intro B
    rw [hi]
    by_cases hBA : B = A
    · rw [if_pos hBA]
      rfl
    · rw [if_neg hBA]
      cases hB : alookup g.nodes B with
      | none => rfl
      | some dB =>
          dsimp only
          rw [(hse B dB hB).1]
          rfl
  · intro B hBA
    rw [hu]
    cases hB : alookup g.nodes B with
    | none => rfl
    | some dB =>
        dsimp only
        rw [(hse B dB hB).2.2]
        rfl

/-! ### Counter-only node updates preserve the index invariants -/

theorem ownerD_aput_counters {g : Graph} {A0 : String} {d d' : NodeData}
    (hA0 : alookup g.nodes A0 = some d) (ho : d'.out = d.out) :
    ∀ h A B, OwnerD ({ g with nodes := aput g.nodes A0 d' } : Graph) h A B ↔
      OwnerD g h A B := by
  have hfn : ({ g with nodes := aput g.nodes A0 d' } : Graph).nodes
      = aput g.nodes A0 d' := rfl
  intro h A B
  unfold OwnerD
  rw [hfn]
  constructor
  · rintro ⟨dA, hA, hB⟩
    by_cases hA0' : A = A0
    · rw [hA0', alookup_aput_self] at hA
      obtain rfl := Option.some.inj hA
      rw [ho] at hB
      exact ⟨d, by rw [hA0']; exact hA0, hB⟩
    · rw [alookup_aput_ne hA0'] at hA
      exact ⟨dA, hA, hB⟩
  · rintro ⟨dA, hA, hB⟩
    by_cases hA0' : A = A0
    · have hA' : alookup g.nodes A0 = some dA := by rw [← hA0']; exact hA
      rw [hA0] at hA'
      obtain rfl := Option.some.inj hA'
      refine ⟨d', ?_, ?_⟩
      · rw [hA0']
        exact alookup_aput_self _ _ _
      · rw [ho]
        exact hB
    · exact ⟨dA, by rw [alookup_aput_ne hA0']; exact hA, hB⟩

theorem ownerU_aput_counters {g : Graph} {A0 : String} {d d' : NodeData}
    (hA0 : alookup g.nodes A0 = some d) (hu : d'.undirected = d.undirected) :
    ∀ h A B, OwnerU ({ g with nodes := aput g.nodes A0 d' } : Graph) h A B ↔
      OwnerU g h A B := by
  have hfn : ({ g with nodes := aput g.nodes A0 d' } : Graph).nodes
      = aput g.nodes A0 d' := rfl
  intro h A B
  unfold OwnerU
  rw [hfn]
  constructor
  · rintro ⟨dA, hA, hB⟩
    by_cases hA0' : A = A0
    · rw [hA0', alookup_aput_self] at hA
      obtain rfl := Option.some.inj hA
      rw [hu] at hB
      exact ⟨d, by rw [hA0']; exact hA0, hB⟩
    · rw [alookup_aput_ne hA0'] at hA
      exact ⟨dA, hA, hB⟩
  · rintro ⟨dA, hA, hB⟩
    by_cases hA0' : A = A0
    · have hA' : alookup g.nodes A0 = some dA := by rw [← hA0']; exact hA
      rw [hA0] at hA'
      obtain rfl := Option.some.inj hA'
      refine ⟨d', ?_, ?_⟩
      · rw [hA0']
        exact alookup_aput_self _ _ _
      · rw [hu]
        exact hB
    · exact ⟨dA, by rw [alookup_aput_ne hA0']; exact hA, hB⟩

theorem indexOkOn_aput_counters {g : Graph} {E : List (String × EdgeData)}
    {A0 : String} {d d' : NodeData}
    (hA0 : alookup g.nodes A0 = some d)
    (ho : d'.out = d.out) (hi : d'.«in» = d.«in») (hu : d'.undirected = d.undirected)
    (hIdx : IndexOkOn g E) :
    IndexOkOn ({ g with nodes := aput g.nodes A0 d' } : Graph) E := by
  have hfn : ({ g with nodes := aput g.nodes A0 d' } : Graph).nodes
      = aput g.nodes A0 d' := rfl
  intro A dA hA
  rw [hfn] at hA
  by_cases hA0' : A = A0
  · rw [hA0', alookup_aput_self] at hA
    obtain rfl := Option.some.inj hA
    obtain ⟨hOut, hUnd, hIn, hUM⟩ := hIdx A0 d hA0
    refine ⟨?_, ?_, ?_, ?_⟩
    · intro B
      rw [hA0', ho]
      exact hOut B
    · intro B
      rw [hA0', hu]
      exact hUnd B
    · rw [hfn, hA0']
      intro B
      rw [hi]
      have h2 := hIn B
      by_cases hBA : B = A0
      · rw [if_pos hBA]
        rw [if_pos hBA] at h2
        exact h2
      · rw [if_neg hBA, alookup_aput_ne hBA]
        rw [if_neg hBA] at h2
        exact h2
    · rw [hfn, hA0']
      intro B hBA
      rw [hu, alookup_aput_ne hBA]
      exact hUM B hBA
  · rw [alookup_aput_ne hA0'] at hA
    obtain ⟨hOut, hUnd, hIn, hUM⟩ := hIdx A dA hA
    refine ⟨hOut, hUnd, ?_, ?_⟩
    · rw [hfn]
      intro B
      have h2 := hIn B
      by_cases hBA : B = A
      · rw [if_pos hBA]
        rw [if_pos hBA] at h2
        exact h2
      · rw [if_neg hBA]
        rw [if_neg hBA] at h2
        by_cases hB0 : B = A0
        · rw [hB0, alookup_aput_self]
          dsimp only
          rw [ho]
          rw [hB0, hA0] at h2
          dsimp only at h2
          exact h2
        · rw [alookup_aput_ne hB0]
          exact h2
    · rw [hfn]
      intro B hBA
      have h2 := hUM B hBA
      by_cases hB0 : B = A0
      · rw [hB0, alookup_aput_self]
        dsimp only
        rw [hu]
        rw [hB0, hA0] at h2
        dsimp only at h2
        exact h2
      · rw [alookup_aput_ne hB0]
        exact h2

theorem slotsEmpty_aput_counters {g : Graph} {A0 : String} {d d' : NodeData}
    (hA0 : alookup g.nodes A0 = some d)
    (ho : d'.out = d.out) (hi : d'.«in» = d.«in») (hu : d'.undirected = d.undirected)
    (hse : SlotsEmpty g) :
    SlotsEmpty ({ g with nodes := aput g.nodes A0 d' } : Graph) := by
  intro A dA hA
  have hfn : ({ g with nodes := aput g.nodes A0 d' } : Graph).nodes
      = aput g.nodes A0 d' := rfl
  rw [hfn] at hA
  by_cases hA0' : A = A0
  · rw [hA0', alookup_aput_self] at hA
    obtain rfl := Option.some.inj hA
    obtain ⟨h1, h2, h3⟩ := hse A0 d hA0
    exact ⟨ho.trans h1, hi.trans h2, hu.trans h3⟩
  · rw [alookup_aput_ne hA0'] at hA
    exact hse A dA hA

theorem idxInv_aput_counters {g : Graph} {E : List (String × EdgeData)}
    {A0 : String} {d d' : NodeData}
    (hA0 : alookup g.nodes A0 = some d)
    (ho : d'.out = d.out) (hi : d'.«in» = d.«in») (hu : d'.undirected = d.undirected)
    (hInv : IdxInv g E) :
    IdxInv ({ g with nodes := aput g.nodes A0 d' } : Graph) E := by
  obtain ⟨hndN, hndS, hFresh, hSep, hIdx⟩ := hInv
  have hfn : ({ g with nodes := aput g.nodes A0 d' } : Graph).nodes
      = aput g.nodes A0 d' := rfl
  have hD := ownerD_aput_counters hA0 ho
  have hU := ownerU_aput_counters hA0 hu
  refine ⟨?_, ?_, hFresh, ?_, ?_⟩
  · unfold keysND
    rw [hfn, map_fst_aput_of_lookup hA0]
    exact hndN
  · intro A dA hA
    rw [hfn] at hA
    by_cases hA0' : A = A0
    · rw [hA0', alookup_aput_self] at hA
      obtain rfl := Option.some.inj hA
      obtain ⟨h1, h2, h3⟩ := hndS A0 d hA0
      exact ⟨ho ▸ h1, hi ▸ h2, hu ▸ h3⟩
    · rw [alookup_aput_ne hA0'] at hA
      exact hndS A dA hA
  · exact ⟨fun h A B A' B' h1 h2 => hSep.1 h A B A' B' ((hD h A B).mp h1) ((hD h A' B').mp h2),
      fun h A B A' B' h1 h2 => hSep.2.1 h A B A' B' ((hU h A B).mp h1) ((hU h A' B').mp h2),
      fun h A B A' B' h1 h2 => hSep.2.2 h A B A' B' ((hD h A B).mp h1) ((hU h A' B').mp h2)⟩
  · exact indexOkOn_aput_counters hA0 ho hi hu hIdx

theorem ginv_aput_counters {g : Graph} {A0 : String} {d d' : NodeData}
    (hA0 : alookup g.nodes A0 = some d)
    (ho : d'.out = d.out) (hi : d'.«in» = d.«in») (hu : d'.undirected = d.undirected)
    (hInv : GInv g) :
    GInv ({ g with nodes := aput g.nodes A0 d' } : Graph) := by
  obtain ⟨hndN, hndE, hEnds, hndS, hFresh, hSep, hSimp, hIdx⟩ := hInv
  have hfn : ({ g with nodes := aput g.nodes A0 d' } : Graph).nodes
      = aput g.nodes A0 d' := rfl
  have hD := ownerD_aput_counters hA0 ho
  have hU := ownerU_aput_counters hA0 hu
  have hmono : ∀ x, (alookup g.nodes x).isSome = true →
      (alookup (aput g.nodes A0 d') x).isSome = true := by
    intro x hx
    by_cases hx0 : x = A0
    · rw [hx0, alookup_aput_self]
      rfl
    · rw [alookup_aput_ne hx0]
      exact hx
  refine ⟨?_, hndE, ?_, ?_, hFresh, ?_, hSimp, ?_⟩
  · unfold keysND
    rw [hfn, map_fst_aput_of_lookup hA0]
    exact hndN
  · intro k e hke
    obtain ⟨h1, h2⟩ := hEnds k e hke
    exact ⟨hmono _ h1, hmono _ h2⟩
  · intro A dA hA
    rw [hfn] at hA
    by_cases hA0' : A = A0
    · rw [hA0', alookup_aput_self] at hA
      obtain rfl := Option.some.inj hA
      obtain ⟨h1, h2, h3⟩ := hndS A0 d hA0
      exact ⟨ho ▸ h1, hi ▸ h2, hu ▸ h3⟩
    · rw [alookup_aput_ne hA0'] at hA
      exact hndS A dA hA
  · exact ⟨fun h A B A' B' h1 h2 => hSep.1 h A B A' B' ((hD h A B).mp h1) ((hD h A' B').mp h2),
      fun h A B A' B' h1 h2 => hSep.2.1 h A B A' B' ((hU h A B).mp h1) ((hU h A' B').mp h2),
      fun h A B A' B' h1 h2 => hSep.2.2 h A B A' B' ((hD h A B).mp h1) ((hU h A' B').mp h2)⟩
  · rw [show ({ g with nodes := aput g.nodes A0 d' } : Graph).structureComputed
        = g.structureComputed from rfl]
    by_cases hc : g.structureComputed = true
    · rw [if_pos hc]
      rw [if_pos hc] at hIdx
      exact indexOkOn_aput_counters hA0 ho hi hu hIdx
    · rw [if_neg hc]
      rw [if_neg hc] at hIdx
      exact slotsEmpty_aput_counters hA0 ho hi hu hIdx

theorem ginv_bumpSelf (g : Graph) (δ : Int) (n : String) (hInv : GInv g) :
    GInv (bumpSelf g δ n) := by
  unfold bumpSelf
  cases hs : alookup g.nodes n with
  | none => exact hInv
  | some sd =>
      dsimp only
      exact ginv_aput_counters hs rfl rfl rfl hInv

theorem ginv_bumpSourceAdd (g : Graph) (u : Bool) (n : String) (hInv : GInv g) :
    GInv (bumpSourceAdd g u n) := by
  unfold bumpSourceAdd
  cases hs : alookup g.nodes n with
  | none => exact hInv
  | some sd =>
      dsimp only
      exact ginv_aput_counters hs (by cases u <;> rfl) (by cases u <;> rfl)
        (by cases u <;> rfl) hInv

theorem ginv_bumpTargetAdd (g : Graph) (u : Bool) (n : String) (hInv : GInv g) :
    GInv (bumpTargetAdd g u n) := by
  unfold bumpTargetAdd
  cases hs : alookup g.nodes n with
  | none => exact hInv
  | some sd =>
      dsimp only
      exact ginv_aput_counters hs (by cases u <;> rfl) (by cases u <;> rfl)
        (by cases u <;> rfl) hInv

theorem ginv_bumpSourceDrop (g : Graph) (u : Bool) (n : String) (hInv : GInv g) :
    GInv (bumpSourceDrop g u n) := by
  unfold bumpSourceDrop
  cases hs : alookup g.nodes n with
  | none => exact hInv
  | some sd =>
      dsimp only
      exact ginv_aput_counters hs (by cases u <;> rfl) (by cases u <;> rfl)
        (by cases u <;> rfl) hInv

theorem ginv_bumpTargetDrop (g : Graph) (u : Bool) (n : String) (hInv : GInv g) :
    GInv (bumpTargetDrop g u n) := by
  unfold bumpTargetDrop
  cases hs : alookup g.nodes n with
  | none => exact hInv
  | some sd =>
      dsimp only
      exact ginv_aput_counters hs (by cases u <;> rfl) (by cases u <;> rfl)
        (by cases u <;> rfl) hInv

theorem ginv_bumpDegreesAdd (g : Graph) (u : Bool) (s t : String) (hInv : GInv g) :
    GInv (bumpDegreesAdd g u s t) := by
  unfold bumpDegreesAdd
  by_cases hst : s = t
  · rw [if_pos hst]
    exact ginv_bumpSelf _ _ _ hInv
  · rw [if_neg hst]
    exact ginv_bumpTargetAdd _ _ _ (ginv_bumpSourceAdd _ _ _ hInv)

theorem ginv_bumpDegreesDrop (g : Graph) (u : Bool) (s t : String) (hInv : GInv g) :
    GInv (bumpDegreesDrop g u s t) := by
  unfold bumpDegreesDrop
  by_cases hst : s = t
  · rw [if_pos hst]
    exact ginv_bumpSelf _ _ _ hInv
  · rw [if_neg hst]
    exact ginv_bumpTargetDrop _ _ _ (ginv_bumpSourceDrop _ _ _ hInv)

theorem idxInv_bumpSelf (g : Graph) (E : List (String × EdgeData)) (δ : Int)
    (n : String) (hInv : IdxInv g E) : IdxInv (bumpSelf g δ n) E := by
  unfold bumpSelf
  cases hs : alookup g.nodes n with
  | none => exact hInv
  | some sd =>
      dsimp only
      exact idxInv_aput_counters hs rfl rfl rfl hInv

theorem idxInv_bumpSourceDrop (g : Graph) (E : List (String × EdgeData)) (u : Bool)
    (n : String) (hInv : IdxInv g E) : IdxInv (bumpSourceDrop g u n) E := by
  unfold bumpSourceDrop
  cases hs : alookup g.nodes n with
  | none => exact hInv
  | some sd =>
      dsimp only
      exact idxInv_aput_counters hs (by cases u <;> rfl) (by cases u <;> rfl)
        (by cases u <;> rfl) hInv

theorem idxInv_bumpTargetDrop (g : Graph) (E : List (String × EdgeData)) (u : Bool)
    (n : String) (hInv : IdxInv g E) : IdxInv (bumpTargetDrop g u n) E := by
  unfold bumpTargetDrop
  cases hs : alookup g.nodes n with
  | none => exact hInv
  | some sd =>
      dsimp only
      exact idxInv_aput_counters hs (by cases u <;> rfl) (by cases u <;> rfl)
        (by cases u <;> rfl) hInv

theorem idxInv_bumpDegreesDrop (g : Graph) (E : List (String × EdgeData)) (u : Bool)
    (s t : String) (hInv : IdxInv g E) : IdxInv (bumpDegreesDrop g u s t) E := by
  unfold bumpDegreesDrop
  by_cases hst : s = t
  · rw [if_pos hst]
    exact idxInv_bumpSelf _ _ _ _ hInv
  · rw [if_neg hst]
    exact idxInv_bumpTargetDrop _ _ _ _ (idxInv_bumpSourceDrop _ _ _ _ hInv)

/-! ### The global invariant holds on reachable graphs: per-operation steps -/

theorem entryOk_none_of_nil {m : Bool} {heap : List (Nat × EntryVal)}
    {o : Option Nat} (h : entryOk m heap o []) : o = none := by
  cases o with
  | none => rfl
  | some x =>
      unfold entryOk at h
      exact absurd rfl h.1

theorem ginv_empty (t : GType) (m sl mp : Bool) : GInv (emptyGraph t m sl mp) := by
  refine ⟨?_, ?_, ?_, ?_, ?_, ⟨?_, ?_, ?_⟩, ?_, ?_⟩
  · simp [keysND, emptyGraph]
  · simp [keysND, emptyGraph]
  · intro k e h
    simp [emptyGraph, alookup] at h
  · intro A dA h
    simp [emptyGraph, alookup] at h
  · intro h hx
    simp [emptyGraph, alookup] at hx
  · intro h A B A' B' h1 h2
    obtain ⟨dA, hA, -⟩ := h1
    simp [emptyGraph, alookup] at hA
  · intro h A B A' B' h1 h2
    obtain ⟨dA, hA, -⟩ := h1
    simp [emptyGraph, alookup] at hA
  · intro h A B A' B' h1 h2
    obtain ⟨dA, hA, -⟩ := h1
    simp [emptyGraph, alookup] at hA
  · intro hm A B
    constructor <;> simp [emptyGraph, dKeys, uKeys, fKeys]
  · rw [if_neg (show ¬ ((emptyGraph t m sl mp).structureComputed = true) by
      simp [emptyGraph])]
    intro A dA h
    simp [emptyGraph, alookup] at h

theorem ginv_addNode (g : Graph) (n : String) (a : AttrArg) (hInv : GInv g) :
    GInv (addNode g n a).1 := by
  obtain ⟨hndN, hndE, hEnds, hndS, hFresh, hSep, hSimp, hIdx0⟩ := hInv
  by_cases hia : a = AttrArg.invalid
  · unfold addNode
    rw [if_pos hia]
    exact ⟨hndN, hndE, hEnds, hndS, hFresh, hSep, hSimp, hIdx0⟩
  by_cases hn : hasNode g n = true
  · unfold addNode
    rw [if_neg hia, if_pos hn]
    exact ⟨hndN, hndE, hEnds, hndS, hFresh, hSep, hSimp, hIdx0⟩
  have hnn : alookup g.nodes n = none := by
    unfold hasNode at hn
    cases ho : alookup g.nodes n with
    | none => rfl
    | some v =>
        rw [ho] at hn
        simp at hn
  have hG : (addNode g n a).1 = ({ g with
      attrHeap := aput g.attrHeap g.nextRef (attrContents g a),
      nextRef := g.nextRef + 1,
      nodes := (aput g.nodes n
        ({ attributes := g.nextRef, selfLoops := 0
           inDegree := if g.type = GType.mixed ∨ g.type = GType.directed then some 0 else none
           outDegree := if g.type = GType.mixed ∨ g.type = GType.directed then some 0 else none
           undirectedDegree := if g.type = GType.mixed ∨ g.type = GType.undirected then some 0 else none
           out := [], «in» := [], undirected := [] } : NodeData)),
      order := g.order + 1 } : Graph) := by
    unfold addNode
    rw [if_neg hia, if_neg hn]
  rw [hG]
  have hfn : ({ g with
      attrHeap := aput g.attrHeap g.nextRef (attrContents g a),
      nextRef := g.nextRef + 1,
      nodes := (aput g.nodes n
        ({ attributes := g.nextRef, selfLoops := 0
           inDegree := if g.type = GType.mixed ∨ g.type = GType.directed then some 0 else none
           outDegree := if g.type = GType.mixed ∨ g.type = GType.directed then some 0 else none
           undirectedDegree := if g.type = GType.mixed ∨ g.type = GType.undirected then some 0 else none
           out := [], «in» := [], undirected := [] } : NodeData)),
      order := g.order + 1 } : Graph).nodes
      = aput g.nodes n
        ({ attributes := g.nextRef, selfLoops := 0
           inDegree := if g.type = GType.mixed ∨ g.type = GType.directed then some 0 else none
           outDegree := if g.type = GType.mixed ∨ g.type = GType.directed then some 0 else none
           undirectedDegree := if g.type = GType.mixed ∨ g.type = GType.undirected then some 0 else none
           out := [], «in» := [], undirected := [] } : NodeData) := rfl
  have hnoS : ∀ k e, alookup g.edges k = some e → ¬ e.source = n := by
    intro k e hke hE
    have h1 := (hEnds k e hke).1
    rw [hE, hnn] at h1
    simp at h1
  have hnoT : ∀ k e, alookup g.edges k = some e → ¬ e.target = n := by
    intro k e hke hE
    have h1 := (hEnds k e hke).2
    rw [hE, hnn] at h1
    simp at h1
  have hD1 : ∀ B, dKeys g.edges n B = [] := dKeys_nil_of_no_source hndE hnoS
  have hD2 : ∀ B, dKeys g.edges B n = [] := dKeys_nil_of_no_target hndE hnoT
  have hU1 : ∀ B, uKeys g.edges n B = [] :=
    uKeys_nil_of_no_endpoint hndE (fun k e hke => ⟨hnoS k e hke, hnoT k e hke⟩)
  have hU2 : ∀ B, uKeys g.edges B n = [] := by
    intro B
    rw [uKeys_symm g.edges B n]
    exact hU1 B
  have hOwnD : ∀ h A B, OwnerD ({ g with
      attrHeap := aput g.attrHeap g.nextRef (attrContents g a),
      nextRef := g.nextRef + 1,
      nodes := (aput g.nodes n
        ({ attributes := g.nextRef, selfLoops := 0
           inDegree := if g.type = GType.mixed ∨ g.type = GType.directed then some 0 else none
           outDegree := if g.type = GType.mixed ∨ g.type = GType.directed then some 0 else none
           undirectedDegree := if g.type = GType.mixed ∨ g.type = GType.undirected then some 0 else none
           out := [], «in» := [], undirected := [] } : NodeData)),
      order := g.order + 1 } : Graph) h A B ↔ OwnerD g h A B := by
    intro h A B
    unfold OwnerD
    rw [hfn]
    constructor
    · rintro ⟨dA, hA, hB⟩
      by_cases hAn : A = n
      · rw [hAn, alookup_aput_self] at hA
        obtain rfl := Option.some.inj hA
        exact absurd hB (by simp [alookup])
      · rw [alookup_aput_ne hAn] at hA
        exact ⟨dA, hA, hB⟩
    · rintro ⟨dA, hA, hB⟩
      have hAn : ¬ A = n := by
        intro hE
        rw [hE, hnn] at hA
        exact absurd hA (by simp)
      exact ⟨dA, by rw [alookup_aput_ne hAn]; exact hA, hB⟩
  have hOwnU : ∀ h A B, OwnerU ({ g with
      attrHeap := aput g.attrHeap g.nextRef (attrContents g a),
      nextRef := g.nextRef + 1,
      nodes := (aput g.nodes n
        ({ attributes := g.nextRef, selfLoops := 0
           inDegree := if g.type = GType.mixed ∨ g.type = GType.directed then some 0 else none
           outDegree := if g.type = GType.mixed ∨ g.type = GType.directed then some 0 else none
           undirectedDegree := if g.type = GType.mixed ∨ g.type = GType.undirected then some 0 else none
           out := [], «in» := [], undirected := [] } : NodeData)),
      order := g.order + 1 } : Graph) h A B ↔ OwnerU g h A B := by
    intro h A B
    unfold OwnerU
    rw [hfn]
    constructor
    · rintro ⟨dA, hA, hB⟩
      by_cases hAn : A = n
      · rw [hAn, alookup_aput_self] at hA
        obtain rfl := Option.some.inj hA
        exact absurd hB (by simp [alookup])
      · rw [alookup_aput_ne hAn] at hA
        exact ⟨dA, hA, hB⟩
    · rintro ⟨dA, hA, hB⟩
      have hAn : ¬ A = n := by
        intro hE
        rw [hE, hnn] at hA
        exact absurd hA (by simp)
      exact ⟨dA, by rw [alookup_aput_ne hAn]; exact hA, hB⟩
  refine ⟨?_, hndE, ?_, ?_, ?_, ?_, hSimp, ?_⟩
  · unfold keysND
    rw [hfn]
    exact keysND_aput hndN n _
  · intro k e hke
    obtain ⟨h1, h2⟩ := hEnds k e hke
    constructor
    · by_cases hx : e.source = n
      · rw [hfn, hx, alookup_aput_self]
        rfl
      · rw [hfn, alookup_aput_ne hx]
        exact h1
    · by_cases hx : e.target = n
      · rw [hfn, hx, alookup_aput_self]
        rfl
      · rw [hfn, alookup_aput_ne hx]
        exact h2
  · intro A dA hA
    rw [hfn] at hA
    by_cases hAn : A = n
    · rw [hAn, alookup_aput_self] at hA
      obtain rfl := Option.some.inj hA
      exact ⟨by simp [keysND], by simp [keysND], by simp [keysND]⟩
    · rw [alookup_aput_ne hAn] at hA
      exact hndS A dA hA
  · intro x hx
    show x < g.nextRef + 1
    exact lt_trans (hFresh x hx) (Nat.lt_succ_self _)
  · refine ⟨?_, ?_, ?_⟩
    · intro h A B A' B' h1 h2
      exact hSep.1 h A B A' B' ((hOwnD h A B).mp h1) ((hOwnD h A' B').mp h2)
    · intro h A B A' B' h1 h2
      exact hSep.2.1 h A B A' B' ((hOwnU h A B).mp h1) ((hOwnU h A' B').mp h2)
    · intro h A B A' B' h1 h2
      exact hSep.2.2 h A B A' B' ((hOwnD h A B).mp h1) ((hOwnU h A' B').mp h2)
  · rw [show ({ g with
        attrHeap := aput g.attrHeap g.nextRef (attrContents g a),
        nextRef := g.nextRef + 1,
        nodes := (aput g.nodes n
          ({ attributes := g.nextRef, selfLoops := 0
             inDegree := if g.type = GType.mixed ∨ g.type = GType.directed then some 0 else none
             outDegree := if g.type = GType.mixed ∨ g.type = GType.directed then some 0 else none
             undirectedDegree := if g.type = GType.mixed ∨ g.type = GType.undirected then some 0 else none
             out := [], «in» := [], undirected := [] } : NodeData)),
        order := g.order + 1 } : Graph).structureComputed = g.structureComputed from rfl]
    by_cases hc : g.structureComputed = true
    · rw [if_pos hc]
      rw [if_pos hc] at hIdx0
      intro A dA hA
      rw [hfn] at hA
      by_cases hAn : A = n
      · rw [hAn, alookup_aput_self] at hA
        obtain rfl := Option.some.inj hA
        refine ⟨?_, ?_, ?_, ?_⟩
        · intro B
          rw [hAn, hD1 B]
          exact entryOk_none _ _
        · intro B
          rw [hAn, hU1 B]
          exact entryOk_none _ _
        · rw [hfn, hAn]
          intro B
          by_cases hBn : B = n
          · rw [if_pos hBn]
            rfl
          · rw [if_neg hBn, alookup_aput_ne hBn]
            cases hB : alookup g.nodes B with
            | none => rfl
            | some dB =>
                dsimp only
                have h2 := (hIdx0 B dB hB).1 n
                rw [hD2 B] at h2
                rw [entryOk_none_of_nil h2]
                rfl
        · rw [hfn, hAn]
          intro B hBn
          rw [alookup_aput_ne hBn]
          cases hB : alookup g.nodes B with
          | none => rfl
          | some dB =>
              dsimp only
              have h2 := (hIdx0 B dB hB).2.1 n
              rw [hU2 B] at h2
              rw [entryOk_none_of_nil h2]
              rfl
      · rw [alookup_aput_ne hAn] at hA
        obtain ⟨hOutA, hUndA, hInA, hUMA⟩ := hIdx0 A dA hA
        refine ⟨hOutA, hUndA, ?_, ?_⟩
        · rw [hfn]
          intro B
          have hold := hInA B
          by_cases hBA : B = A
          · rw [if_pos hBA]
            rw [if_pos hBA] at hold
            exact hold
          · rw [if_neg hBA]
            rw [if_neg hBA] at hold
            by_cases hBn : B = n
            · rw [hBn, alookup_aput_self]
              dsimp only
              rw [hBn, hnn] at hold
              dsimp only at hold
              exact hold
            · rw [alookup_aput_ne hBn]
              exact hold
        · rw [hfn]
          intro B hBA
          have hold := hUMA B hBA
          by_cases hBn : B = n
          · rw [hBn, alookup_aput_self]
            dsimp only
            rw [hBn, hnn] at hold
            dsimp only at hold
            exact hold
          · rw [alookup_aput_ne hBn]
            exact hold
    · rw [if_neg hc]
      rw [if_neg hc] at hIdx0
      intro A dA hA
      rw [hfn] at hA
      by_cases hAn : A = n
      · rw [hAn, alookup_aput_self] at hA
        obtain rfl := Option.some.inj hA
        exact ⟨rfl, rfl, rfl⟩
      · rw [alookup_aput_ne hAn] at hA
        exact hIdx0 A dA hA

theorem idxInv_foldl_update (R : List (String × EdgeData)) :
    ∀ (P : List (String × EdgeData)) (gP : Graph),
    gP.structureComputed = true →
    keysND (P ++ R) →
    (∀ k d, (k, d) ∈ R → (alookup gP.nodes d.source).isSome = true ∧
      (alookup gP.nodes d.target).isSome = true) →
    (gP.multi = false → ∀ A B, (dKeys (P ++ R) A B).length ≤ 1 ∧
      (uKeys (P ++ R) A B).length ≤ 1) →
    IdxInv gP P →
    IdxInv (R.foldl (fun acc p => updateIndex acc p.1 p.2) gP) (P ++ R) := by
  induction R with
  | nil =>
      intro P gP hComp hndPR hEndsR hSimpAll hIdx
      rw [List.append_nil]
      exact hIdx
  | cons p R' ih =>
      intro P gP hComp hndPR hEndsR hSimpAll hIdx
      obtain ⟨k, d⟩ := p
      obtain ⟨u, att, S, T⟩ := d
      rw [List.foldl_cons]
      have hupd : updateIndex gP k
            ({ undirected := u, attributes := att, source := S, target := T } : EdgeData)
          = updateStructureIndex gP u k S T := by
        unfold updateIndex
        rw [hComp]
        rfl
      have hassoc : P ++ (k,
          ({ undirected := u, attributes := att, source := S, target := T } : EdgeData)) :: R'
          = (P ++ [(k,
          ({ undirected := u, attributes := att, source := S, target := T } : EdgeData))]) ++ R' := by
        rw [List.append_assoc]
        rfl
      have hkE : k ∉ P.map Prod.fst := by
        have hnd2 : keysND (P ++ (k,
            ({ undirected := u, attributes := att, source := S, target := T } : EdgeData)) :: R') :=
          hndPR
        unfold keysND at hnd2
        rw [List.map_append] at hnd2
        have hdisj := List.disjoint_of_nodup_append hnd2
        intro hkP
        exact hdisj hkP (by simp)
      have hsht := hEndsR k
        ({ undirected := u, attributes := att, source := S, target := T } : EdgeData)
        (by simp)
      have hIdxStep : IdxInv (updateStructureIndex gP u k S T)
          (P ++ [(k,
          ({ undirected := u, attributes := att, source := S, target := T } : EdgeData))]) := by
        cases u with
        | false =>
            refine idxInv_update_directed gP P k att S T hIdx hkE hsht.1 hsht.2 ?_
            intro hm
            have hlen := (hSimpAll hm S T).1
            rw [hassoc] at hlen
            unfold dKeys at hlen
            rw [fKeys_append, fKeys_append, fKeys_singleton,
                if_pos (by rw [dPred_iff]; exact ⟨rfl, rfl, rfl⟩)] at hlen
            rw [List.length_append, List.length_append] at hlen
            simp only [List.length_singleton] at hlen
            have : (dKeys P S T).length = 0 := by
              unfold dKeys
              omega
            exact List.length_eq_zero.mp this
        | true =>
            refine idxInv_update_undirected gP P k att S T hIdx hkE hsht.1 hsht.2 ?_
            intro hm
            have hlen := (hSimpAll hm S T).2
            rw [hassoc] at hlen
            unfold uKeys at hlen
            rw [fKeys_append, fKeys_append, fKeys_singleton,
                if_pos (by rw [uPred_iff]; exact ⟨rfl, Or.inl ⟨rfl, rfl⟩⟩)] at hlen
            rw [List.length_append, List.length_append] at hlen
            simp only [List.length_singleton] at hlen
            have : (uKeys P S T).length = 0 := by
              unfold uKeys
              omega
            exact List.length_eq_zero.mp this
      have hshape := sameShape_updateStructureIndex gP u k S T
      have hisome : ∀ x, (alookup gP.nodes x).isSome = true →
          (alookup (updateStructureIndex gP u k S T).nodes x).isSome = true := by
        intro x hx
        rw [alookup_isSome_iff_mem_keys, hshape.nodesKeys]
        exact (alookup_isSome_iff_mem_keys _ _).mp hx
      rw [hassoc, hupd]
      refine ih (P ++ [(k,
          ({ undirected := u, attributes := att, source := S, target := T } : EdgeData))])
        (updateStructureIndex gP u k S T) ?_ ?_ ?_ ?_ hIdxStep
      · rw [structureComputed_updateStructureIndex]
        exact hComp
      · rw [← hassoc]
        exact hndPR
      · intro k2 d2 hmem
        obtain ⟨h1, h2⟩ := hEndsR k2 d2 (by simp [hmem])
        exact ⟨hisome _ h1, hisome _ h2⟩
      · rw [hshape.multi, ← hassoc]
        exact hSimpAll

theorem ginv_computeIndex (g : Graph) (hInv : GInv g) : GInv (computeIndex g) := by
  obtain ⟨hndN, hndE, hEnds, hndS, hFresh, hSep, hSimp, hIdx0⟩ := hInv
  unfold computeIndex
  by_cases hc : g.structureComputed = true
  · rw [if_pos hc]
    exact ⟨hndN, hndE, hEnds, hndS, hFresh, hSep, hSimp, hIdx0⟩
  · rw [if_neg hc]
    dsimp only
    rw [if_neg hc] at hIdx0
    have h0 : IdxInv ({ g with structureComputed := true } : Graph) [] := by
      refine ⟨hndN, hndS, hFresh, hSep, ?_⟩
      exact indexOkOn_nil_of_slotsEmpty (fun A dA hA => hIdx0 A dA hA)
    have hfold := idxInv_foldl_update g.edges [] { g with structureComputed := true }
      rfl (by rw [List.nil_append]; exact hndE)
      (fun k d hmem => hEnds k d (mem_alookup hndE hmem))
      (by
        intro hm A B
        rw [List.nil_append]
        exact hSimp hm A B)
      h0
    rw [List.nil_append] at hfold
    obtain ⟨hndN2, hndS2, hFresh2, hSep2, hIdx2⟩ := hfold
    have hshape := sameShape_foldl_updateIndex g.edges
      ({ g with structureComputed := true } : Graph)
    have hisome : ∀ x, (alookup g.nodes x).isSome = true →
        (alookup (g.edges.foldl (fun acc p => updateIndex acc p.1 p.2)
          { g with structureComputed := true }).nodes x).isSome = true := by
      intro x hx
      rw [alookup_isSome_iff_mem_keys, hshape.nodesKeys]
      exact (alookup_isSome_iff_mem_keys _ _).mp hx
    refine ⟨hndN2, ?_, ?_, hndS2, hFresh2, hSep2, ?_, ?_⟩
    · rw [hshape.edges]
      exact hndE
    · intro k e hke
      rw [hshape.edges] at hke
      obtain ⟨h1, h2⟩ := hEnds k e hke
      exact ⟨hisome _ h1, hisome _ h2⟩
    · rw [hshape.multi, hshape.edges]
      exact hSimp
    · rw [if_pos (by rw [structureComputed_foldl_updateIndex])]
      rw [hshape.edges]
      exact hIdx2

theorem ginv_dropEdge (g : Graph) (k : String) (hInv : GInv g) :
    GInv (dropEdge g k).1 := by
  obtain ⟨hndN, hndE, hEnds, hndS, hFresh, hSep, hSimp, hIdx0⟩ := hInv
  unfold dropEdge
  cases hkd : alookup g.edges k with
  | none => exact ⟨hndN, hndE, hEnds, hndS, hFresh, hSep, hSimp, hIdx0⟩
  | some d =>
      dsimp only
      obtain ⟨u, att, S, T⟩ := d
      set g1 : Graph := { g with edges := aerase g.edges k, size := g.size - 1 } with hg1
      set g2 : Graph := bumpDegreesDrop g1 u S T with hg2
      have hflag2 : g2.structureComputed = g.structureComputed :=
        structureComputed_bumpDegreesDrop g1 u S T
      have hshape12 := sameShape_bumpDegreesDrop g1 u S T
      have hedges2 : g2.edges = aerase g.edges k := hshape12.edges
      have hmulti2 : g2.multi = g.multi := hshape12.multi
      have hkeys2 : g2.nodes.map Prod.fst = g.nodes.map Prod.fst := hshape12.nodesKeys
      have hisome2 : ∀ x, (alookup g.nodes x).isSome = true →
          (alookup g2.nodes x).isSome = true := by
        intro x hx
        rw [alookup_isSome_iff_mem_keys, hkeys2]
        exact (alookup_isSome_iff_mem_keys _ _).mp hx
      have hsht := hEnds k _ hkd
      by_cases hc : g.structureComputed = true
      · -- materialized: run the structural clear and keep the invariant
        rw [if_pos hc] at hIdx0
        have hIdx1 : IdxInv g1 g.edges := ⟨hndN, hndS, hFresh, hSep, hIdx0⟩
        have hIdx2 : IdxInv g2 g.edges := idxInv_bumpDegreesDrop g1 g.edges u S T hIdx1
        have hflag2t : g2.structureComputed = true := hflag2.trans hc
        have hclear : clearEdgeFromIndex g2 k
            ({ undirected := u, attributes := att, source := S, target := T } : EdgeData)
            = clearEdgeFromStructureIndex g2 u k S T := by
          unfold clearEdgeFromIndex
          rw [hflag2t]
          rfl
        rw [hclear]
        have hIdx3 : IdxInv (clearEdgeFromStructureIndex g2 u k S T) (aerase g.edges k) := by
          cases u with
          | false =>
              refine idxInv_clear_directed g2 g.edges k att S T hIdx2 hndE hkd
                (hisome2 _ hsht.1) (hisome2 _ hsht.2) ?_
              intro hm
              exact eq_singleton_of_mem_length_le (mem_dKeys_self hkd)
                (hSimp (hmulti2 ▸ hm) S T).1
          | true =>
              refine idxInv_clear_undirected g2 g.edges k att S T hIdx2 hndE hkd
                (hisome2 _ hsht.1) (hisome2 _ hsht.2) ?_
              intro hm
              exact eq_singleton_of_mem_length_le (mem_uKeys_self hkd)
                (hSimp (hmulti2 ▸ hm) S T).2
        obtain ⟨hndN3, hndS3, hFresh3, hSep3, hIdxOk3⟩ := hIdx3
        have hshape23 := sameShape_clearEdgeFromStructureIndex g2 u k S T
        have hedges3 : (clearEdgeFromStructureIndex g2 u k S T).edges = aerase g.edges k :=
          hshape23.edges.trans hedges2
        have hisome3 : ∀ x, (alookup g2.nodes x).isSome = true →
            (alookup (clearEdgeFromStructureIndex g2 u k S T).nodes x).isSome = true := by
          intro x hx
          rw [alookup_isSome_iff_mem_keys, hshape23.nodesKeys]
          exact (alookup_isSome_iff_mem_keys _ _).mp hx
        refine ⟨hndN3, ?_, ?_, hndS3, hFresh3, hSep3, ?_, ?_⟩
        · rw [hedges3]
          exact keysND_aerase hndE k
        · intro k2 e hke
          rw [hedges3, alookup_aerase hndE] at hke
          by_cases hk2 : k2 = k
          · rw [if_pos hk2] at hke
            exact absurd hke (by simp)
          · rw [if_neg hk2] at hke
            obtain ⟨h1, h2⟩ := hEnds k2 e hke
            exact ⟨hisome3 _ (hisome2 _ h1), hisome3 _ (hisome2 _ h2)⟩
        · rw [hshape23.multi, hmulti2, hedges3]
          intro hm A B
          obtain ⟨h1, h2⟩ := hSimp hm A B
          constructor
          · rw [dKeys_aerase hndE]
            exact le_trans (List.erase_sublist _ _).length_le h1
          · rw [uKeys_aerase hndE]
            exact le_trans (List.erase_sublist _ _).length_le h2
        · rw [if_pos (by
            rw [structureComputed_clearEdgeFromStructureIndex]
            exact hflag2t)]
          rw [hedges3]
          exact hIdxOk3
      · -- dormant index: the clear step is a no-op
        rw [if_neg hc] at hIdx0
        have hflag2f : g2.structureComputed = false := by
          rw [hflag2]
          cases hcc : g.structureComputed
          · rfl
          · exact absurd hcc hc
        have hclear : clearEdgeFromIndex g2 k
            ({ undirected := u, attributes := att, source := S, target := T } : EdgeData)
            = g2 := by
          unfold clearEdgeFromIndex
          rw [hflag2f]
          rfl
        rw [hclear]
        have hInv1 : GInv g1 := by
          refine ⟨hndN, keysND_aerase hndE k, ?_, hndS, hFresh, hSep, ?_, ?_⟩
          · intro k2 e hke
            have hke2 : alookup (aerase g.edges k) k2 = some e := hke
            rw [alookup_aerase hndE] at hke2
            by_cases hk2 : k2 = k
            · rw [if_pos hk2] at hke2
              exact absurd hke2 (by simp)
            · rw [if_neg hk2] at hke2
              exact hEnds k2 e hke2
          · intro hm A B
            obtain ⟨h1, h2⟩ := hSimp hm A B
            constructor
            · show (dKeys (aerase g.edges k) A B).length ≤ 1
              rw [dKeys_aerase hndE]
              exact le_trans (List.erase_sublist _ _).length_le h1
            · show (uKeys (aerase g.edges k) A B).length ≤ 1
              rw [uKeys_aerase hndE]
              exact le_trans (List.erase_sublist _ _).length_le h2
          · rw [if_neg (show ¬ (g1.structureComputed = true) from hc)]
            exact hIdx0
        exact ginv_bumpDegreesDrop g1 u S T hInv1

theorem dropEdge_edges_sub (g : Graph) (k : String) (hndE : keysND g.edges) :
    ∀ k2 e, alookup (dropEdge g k).1.edges k2 = some e →
      alookup g.edges k2 = some e ∧ k2 ≠ k := by
  unfold dropEdge
  cases hkd : alookup g.edges k with
  | none =>
      dsimp only
      intro k2 e h
      refine ⟨h, ?_⟩
      intro hk
      rw [hk, hkd] at h
      exact Option.noConfusion h
  | some d =>
      dsimp only
      intro k2 e h
      have hshape :=
        sameShape_clearEdgeFromIndex
          (bumpDegreesDrop { g with edges := aerase g.edges k, size := g.size - 1 }
            d.undirected d.source d.target) k d
      have hshape2 :=
        sameShape_bumpDegreesDrop
          ({ g with edges := aerase g.edges k, size := g.size - 1 } : Graph)
          d.undirected d.source d.target
      have hE : (clearEdgeFromIndex
          (bumpDegreesDrop { g with edges := aerase g.edges k, size := g.size - 1 }
            d.undirected d.source d.target) k d).edges = aerase g.edges k :=
        (hshape.edges.trans hshape2.edges)
      rw [hE, alookup_aerase hndE] at h
      by_cases hk2 : k2 = k
      · rw [if_pos hk2] at h
        exact Option.noConfusion h
      · rw [if_neg hk2] at h
        exact ⟨h, hk2⟩

theorem ginv_foldDrop (L : List String) :
    ∀ g : Graph, GInv g →
      GInv (L.foldl (fun acc e => (dropEdge acc e).1) g) ∧
      (∀ k2 e, alookup (L.foldl (fun acc e => (dropEdge acc e).1) g).edges k2 = some e →
        alookup g.edges k2 = some e ∧ k2 ∉ L) := by
  induction L with
  | nil =>
      intro g hInv
      exact ⟨hInv, fun k2 e h => ⟨h, List.not_mem_nil _⟩⟩
  | cons a rest ih =>
      intro g hInv
      have hndE : keysND g.edges := hInv.2.1
      have hInv1 : GInv (dropEdge g a).1 := ginv_dropEdge g a hInv
      obtain ⟨hF, hchar⟩ := ih (dropEdge g a).1 hInv1
      refine ⟨hF, ?_⟩
      intro k2 e h
      obtain ⟨h1, hr⟩ := hchar k2 e h
      obtain ⟨h0, hka⟩ := dropEdge_edges_sub g a hndE k2 e h1
      refine ⟨h0, ?_⟩
      intro hmem
      rcases List.mem_cons.mp hmem with hx | hx
      · exact hka hx
      · exact hr hx

theorem ginv_dropNode (g : Graph) (n : String) (hInv : GInv g) :
    GInv (dropNode g n).1 := by
  unfold dropNode
  by_cases hn : hasNode g n
  · rw [if_neg (by rw [hn]; exact Bool.false_ne_true)]
    dsimp only
    obtain ⟨hG1, hchar⟩ := ginv_foldDrop (incidentEdges g n) g hInv
    set g1 : Graph :=
      (incidentEdges g n).foldl (fun acc e => (dropEdge acc e).1) g with hg1
    obtain ⟨hndN, hndE, hEnds, hndS, hFresh, hSep, hSimp, hIdx⟩ := hG1
    have hNoInc : ∀ k2 e, alookup g1.edges k2 = some e →
        ¬ e.source = n ∧ ¬ e.target = n := by
      intro k2 e hke
      obtain ⟨h0, hnm⟩ := hchar k2 e hke
      constructor
      · intro hs
        exact hnm (mem_incidentEdges.mpr ⟨e, alookup_mem h0, Or.inl hs⟩)
      · intro ht
        exact hnm (mem_incidentEdges.mpr ⟨e, alookup_mem h0, Or.inr ht⟩)
    have hlook : ∀ A, alookup (aerase g1.nodes n) A =
        if A = n then none else alookup g1.nodes A := fun A => alookup_aerase hndN n A
    refine ⟨keysND_aerase hndN n, hndE, ?_, ?_, hFresh, ?_, hSimp, ?_⟩
    · intro k2 e hke
      obtain ⟨h1, h2⟩ := hEnds k2 e hke
      obtain ⟨hs, ht⟩ := hNoInc k2 e hke
      constructor
      · show (alookup (aerase g1.nodes n) e.source).isSome = true
        rw [hlook, if_neg hs]
        exact h1
      · show (alookup (aerase g1.nodes n) e.target).isSome = true
        rw [hlook, if_neg ht]
        exact h2
    · intro A dA hA
      have hA' : alookup (aerase g1.nodes n) A = some dA := hA
      rw [hlook] at hA'
      by_cases hAn : A = n
      · rw [if_pos hAn] at hA'
        exact Option.noConfusion hA'
      · rw [if_neg hAn] at hA'
        exact hndS A dA hA'
    · obtain ⟨hD, hU, hDU⟩ := hSep
      have hOD : ∀ h A B,
          OwnerD { g1 with nodes := aerase g1.nodes n, order := g1.order - 1 } h A B →
          OwnerD g1 h A B := by
        intro h A B hod
        obtain ⟨dA, hA, ho⟩ := hod
        have hA' : alookup (aerase g1.nodes n) A = some dA := hA
        rw [hlook] at hA'
        by_cases hAn : A = n
        · rw [if_pos hAn] at hA'
          exact absurd hA' (by simp)
        · rw [if_neg hAn] at hA'
          exact ⟨dA, hA', ho⟩
      have hOU : ∀ h A B,
          OwnerU { g1 with nodes := aerase g1.nodes n, order := g1.order - 1 } h A B →
          OwnerU g1 h A B := by
        intro h A B hou
        obtain ⟨dA, hA, ho⟩ := hou
        have hA' : alookup (aerase g1.nodes n) A = some dA := hA
        rw [hlook] at hA'
        by_cases hAn : A = n
        · rw [if_pos hAn] at hA'
          exact absurd hA' (by simp)
        · rw [if_neg hAn] at hA'
          exact ⟨dA, hA', ho⟩
      exact ⟨fun h A B A' B' h1 h2 => hD h A B A' B' (hOD h A B h1) (hOD h A' B' h2),
        fun h A B A' B' h1 h2 => hU h A B A' B' (hOU h A B h1) (hOU h A' B' h2),
        fun h A B A' B' h1 h2 => hDU h A B A' B' (hOD h A B h1) (hOU h A' B' h2)⟩
    · by_cases hcc : g1.structureComputed = true
      · rw [if_pos hcc] at hIdx
        rw [if_pos (show ({ g1 with nodes := aerase g1.nodes n, order := g1.order - 1 } : Graph).structureComputed = true from hcc)]
        intro A dA hA
        have hA' : alookup (aerase g1.nodes n) A = some dA := hA
        rw [hlook] at hA'
        by_cases hAn : A = n
        · rw [if_pos hAn] at hA'
          exact absurd hA' (by simp)
        rw [if_neg hAn] at hA'
        obtain ⟨hOut, hUnd, hIn, hUmir⟩ := hIdx A dA hA'
        refine ⟨hOut, hUnd, ?_, ?_⟩
        · intro B
          show alookup dA.«in» B =
            (if B = A then none
             else match alookup (aerase g1.nodes n) B with
                  | some dB => alookup dB.out A
                  | none => none)
          rw [hlook]
          by_cases hBA : B = A
          · rw [if_pos hBA]
            rw [hIn B, if_pos hBA]
          · rw [if_neg hBA]
            by_cases hBn : B = n
            · rw [if_pos hBn]
              rw [hIn B, if_neg hBA, hBn]
              cases hnd2 : alookup g1.nodes n with
              | none => rfl
              | some dn =>
                  dsimp only
                  have hok := (hIdx n dn hnd2).1 A
                  rw [dKeys_nil_of_no_source hndE
                    (fun k e hk => (hNoInc k e hk).1) A] at hok
                  exact entryOk_none_of_nil hok
            · rw [if_neg hBn]
              rw [hIn B, if_neg hBA]
        · intro B hBA
          show alookup dA.undirected B =
            (match alookup (aerase g1.nodes n) B with
             | some dB => alookup dB.undirected A
             | none => none)
          rw [hlook]
          by_cases hBn : B = n
          · rw [if_pos hBn]
            rw [hUmir B hBA, hBn]
            cases hnd2 : alookup g1.nodes n with
            | none => rfl
            | some dn =>
                dsimp only
                have hok := (hIdx n dn hnd2).2.1 A
                rw [uKeys_nil_of_no_endpoint hndE
                  (fun k e hk => hNoInc k e hk) A] at hok
                exact entryOk_none_of_nil hok
          · rw [if_neg hBn]
            rw [hUmir B hBA]
      · rw [if_neg hcc] at hIdx
        rw [if_neg (show ¬ ({ g1 with nodes := aerase g1.nodes n, order := g1.order - 1 } : Graph).structureComputed = true from hcc)]
        intro A dA hA
        have hA' : alookup (aerase g1.nodes n) A = some dA := hA
        rw [hlook] at hA'
        by_cases hAn : A = n
        · rw [if_pos hAn] at hA'
          exact absurd hA' (by simp)
        · rw [if_neg hAn] at hA'
          exact hIdx A dA hA'
  · rw [if_pos (by
      cases hv : hasNode g n
      · rfl
      · exact absurd hv hn)]
    exact hInv

theorem ginv_clearGraph (g : Graph) (hInv : GInv g) : GInv (clearGraph g) := by
  obtain ⟨-, -, -, -, hFresh, -, -, -⟩ := hInv
  refine ⟨List.nodup_nil, List.nodup_nil, ?_, ?_, hFresh, ?_, ?_, ?_⟩
  · intro k e hke
    exact absurd hke (by simp [alookup])
  · intro A dA hA
    exact absurd hA (by simp [alookup])
  · refine ⟨?_, ?_, ?_⟩
    · intro h A B A' B' h1 _
      obtain ⟨dA, hA, -⟩ := h1
      exact absurd hA (by simp [alookup])
    · intro h A B A' B' h1 _
      obtain ⟨dA, hA, -⟩ := h1
      exact absurd hA (by simp [alookup])
    · intro h A B A' B' h1 _
      obtain ⟨dA, hA, -⟩ := h1
      exact absurd hA (by simp [alookup])
  · intro _ A B
    exact ⟨by simp [clearGraph, dKeys, fKeys], by simp [clearGraph, uKeys, fKeys]⟩
  · rw [if_neg (show ¬ ((clearGraph g).structureComputed = true) from
      Bool.false_ne_true)]
    intro A dA hA
    exact absurd hA (by simp [alookup])

theorem ginv_clearIndex (g : Graph) (hInv : GInv g) : GInv (clearIndex g) := by
  obtain ⟨hndN, hndE, hEnds, hndS, hFresh, hSep, hSimp, hIdx⟩ := hInv
  unfold clearIndex
  by_cases hcp : (!g.structureComputed) = true
  · rw [if_pos hcp]
    exact ⟨hndN, hndE, hEnds, hndS, hFresh, hSep, hSimp, hIdx⟩
  · rw [if_neg hcp]
    unfold clearStructureIndex
    have hlk : ∀ A : String,
        alookup (g.nodes.map (fun p =>
          (p.1, { p.2 with out := [], «in» := [], undirected := [] }))) A =
        (alookup g.nodes A).map
          (fun d => { d with out := [], «in» := [], undirected := [] }) := by
      intro A
      exact alookup_map_snd (fun d : NodeData =>
        { d with out := [], «in» := [], undirected := [] }) g.nodes A
    refine ⟨?_, hndE, ?_, ?_, hFresh, ?_, hSimp, ?_⟩
    · have hk2 : keysND (g.nodes.map (fun p : String × NodeData =>
        (p.1, ({ p.2 with out := [], «in» := [], undirected := [] } : NodeData)))) := by
        unfold keysND
        rw [List.map_map]
        exact hndN
      exact hk2
    · intro k e hke
      obtain ⟨h1, h2⟩ := hEnds k e hke
      constructor
      · show (alookup (g.nodes.map (fun p =>
          (p.1, { p.2 with out := [], «in» := [], undirected := [] }))) e.source).isSome = true
        cases ho : alookup g.nodes e.source with
        | none =>
            rw [ho] at h1
            exact absurd h1 (by simp)
        | some d =>
            rw [hlk, ho]
            rfl
      · show (alookup (g.nodes.map (fun p =>
          (p.1, { p.2 with out := [], «in» := [], undirected := [] }))) e.target).isSome = true
        cases ho : alookup g.nodes e.target with
        | none =>
            rw [ho] at h2
            exact absurd h2 (by simp)
        | some d =>
            rw [hlk, ho]
            rfl
    · intro A dA hA
      have hA' : alookup (g.nodes.map (fun p =>
          (p.1, { p.2 with out := [], «in» := [], undirected := [] }))) A = some dA := hA
      rw [hlk] at hA'
      cases ho : alookup g.nodes A with
      | none =>
          rw [ho] at hA'
          exact absurd hA' (by simp)
      | some d =>
          rw [ho] at hA'
          have hd : ({ d with out := [], «in» := [], undirected := [] } : NodeData) = dA :=
            Option.some.inj hA'
          rw [← hd]
          exact ⟨List.nodup_nil, List.nodup_nil, List.nodup_nil⟩
    · have hnoD : ∀ h A B, ¬ OwnerD { clearStructureIndex g with
        structureComputed := false } h A B := by
        intro h A B hod
        obtain ⟨dA, hA, ho⟩ := hod
        have hA' : alookup (g.nodes.map (fun p =>
            (p.1, { p.2 with out := [], «in» := [], undirected := [] }))) A = some dA := hA
        rw [hlk] at hA'
        cases hoo : alookup g.nodes A with
        | none =>
            rw [hoo] at hA'
            exact absurd hA' (by simp)
        | some d =>
            rw [hoo] at hA'
            have hd : ({ d with out := [], «in» := [], undirected := [] } : NodeData) = dA :=
              Option.some.inj hA'
            rw [← hd] at ho
            exact absurd ho (by simp [alookup])
      have hnoU : ∀ h A B, ¬ OwnerU { clearStructureIndex g with
        structureComputed := false } h A B := by
        intro h A B hou
        obtain ⟨dA, hA, ho⟩ := hou
        have hA' : alookup (g.nodes.map (fun p =>
            (p.1, { p.2 with out := [], «in» := [], undirected := [] }))) A = some dA := hA
        rw [hlk] at hA'
        cases hoo : alookup g.nodes A with
        | none =>
            rw [hoo] at hA'
            exact absurd hA' (by simp)
        | some d =>
            rw [hoo] at hA'
            have hd : ({ d with out := [], «in» := [], undirected := [] } : NodeData) = dA :=
              Option.some.inj hA'
            rw [← hd] at ho
            exact absurd ho (by simp [alookup])
      exact ⟨fun h A B A' B' h1 _ => absurd h1 (hnoD h A B),
        fun h A B A' B' h1 _ => absurd h1 (hnoU h A B),
        fun h A B A' B' h1 _ => absurd h1 (hnoD h A B)⟩
    · rw [if_neg (show ¬ (({ clearStructureIndex g with
        structureComputed := false } : Graph).structureComputed = true) from
        Bool.false_ne_true)]
      intro A dA hA
      have hA' : alookup (g.nodes.map (fun p =>
          (p.1, { p.2 with out := [], «in» := [], undirected := [] }))) A = some dA := hA
      rw [hlk] at hA'
      cases ho : alookup g.nodes A with
      | none =>
          rw [ho] at hA'
          exact absurd hA' (by simp)
      | some d =>
          rw [ho] at hA'
          have hd : ({ d with out := [], «in» := [], undirected := [] } : NodeData) = dA :=
            Option.some.inj hA'
          rw [← hd]
          exact ⟨rfl, rfl, rfl⟩

theorem idxInv_bumpSourceAdd (g : Graph) (E : List (String × EdgeData)) (u : Bool)
    (n : String) (hInv : IdxInv g E) : IdxInv (bumpSourceAdd g u n) E := by
  unfold bumpSourceAdd
  cases hs : alookup g.nodes n with
  | none => exact hInv
  | some sd =>
      dsimp only
      exact idxInv_aput_counters hs (by cases u <;> rfl) (by cases u <;> rfl)
        (by cases u <;> rfl) hInv

theorem idxInv_bumpTargetAdd (g : Graph) (E : List (String × EdgeData)) (u : Bool)
    (n : String) (hInv : IdxInv g E) : IdxInv (bumpTargetAdd g u n) E := by
  unfold bumpTargetAdd
  cases hs : alookup g.nodes n with
  | none => exact hInv
  | some td =>
      dsimp only
      exact idxInv_aput_counters hs (by cases u <;> rfl) (by cases u <;> rfl)
        (by cases u <;> rfl) hInv

theorem idxInv_bumpDegreesAdd (g : Graph) (E : List (String × EdgeData)) (u : Bool)
    (s t : String) (hInv : IdxInv g E) : IdxInv (bumpDegreesAdd g u s t) E := by
  unfold bumpDegreesAdd
  by_cases hst : s = t
  · rw [if_pos hst]
    exact idxInv_bumpSelf _ _ _ _ hInv
  · rw [if_neg hst]
    exact idxInv_bumpTargetAdd _ _ _ _ (idxInv_bumpSourceAdd _ _ _ _ hInv)

theorem uKeys_comm (E : List (String × EdgeData)) (A B : String) :
    uKeys E A B = uKeys E B A := by
  unfold uKeys fKeys
  congr 1
  apply List.filter_congr
  intro q _
  rw [show uPred A B q = uPred B A q from ?_]
  unfold uPred
  rw [decide_eq_decide]
  constructor
  · rintro ⟨h1, h2 | h2⟩
    · exact ⟨h1, Or.inr h2⟩
    · exact ⟨h1, Or.inl h2⟩
  · rintro ⟨h1, h2 | h2⟩
    · exact ⟨h1, Or.inr h2⟩
    · exact ⟨h1, Or.inl h2⟩

theorem ginv_addEdgeCommitD (g : Graph) (k s t : String) (a : AttrArg)
    (hInv : GInv g)
    (hs : (alookup g.nodes s).isSome = true)
    (ht : (alookup g.nodes t).isSome = true)
    (hkE : alookup g.edges k = none)
    (hdup : g.multi = false → dKeys g.edges s t = []) :
    GInv (addEdgeCommit g false k s t a) := by
  obtain ⟨hndN, hndE, hEnds, hndS, hFresh, hSep, hSimp, hIdx⟩ := hInv
  have hkm : k ∉ g.edges.map Prod.fst := by
    intro hm
    have h2 := (alookup_isSome_iff_mem_keys g.edges k).mpr hm
    rw [hkE] at h2
    exact absurd h2 (by simp)
  have hC : addEdgeCommit g false k s t a =
      updateIndex (bumpDegreesAdd { g with attrHeap := aput g.attrHeap g.nextRef (attrContents g a), nextRef := g.nextRef + 1, edges := aput g.edges k { undirected := false, attributes := g.nextRef, source := s, target := t }, size := g.size + 1 } false s t) k { undirected := false, attributes := g.nextRef, source := s, target := t } := rfl
  rw [hC]
  have hputE : ({ g with attrHeap := aput g.attrHeap g.nextRef (attrContents g a), nextRef := g.nextRef + 1, edges := aput g.edges k { undirected := false, attributes := g.nextRef, source := s, target := t }, size := g.size + 1 } : Graph).edges = g.edges ++ [(k, { undirected := false, attributes := g.nextRef, source := s, target := t })] :=
    aput_eq_append_of_not_mem hkm _
  have hndE2 : keysND (g.edges ++ [(k, ({ undirected := false, attributes := g.nextRef, source := s, target := t } : EdgeData))]) := by
    unfold keysND
    rw [List.map_append]
    refine List.Nodup.append hndE (List.nodup_singleton k) ?_
    intro x hx hx2
    have hxk : x = k := by simpa using hx2
    rw [hxk] at hx
    exact hkm hx
  have hEnds2 : ∀ k2 e, alookup (g.edges ++ [(k, ({ undirected := false, attributes := g.nextRef, source := s, target := t } : EdgeData))]) k2 = some e →
      (alookup g.nodes e.source).isSome = true ∧
      (alookup g.nodes e.target).isSome = true := by
    intro k2 e hke
    rcases List.mem_append.mp (alookup_mem hke) with hm | hm
    · exact hEnds k2 e (mem_alookup hndE hm)
    · have hpair : (k2, e) = (k, ({ undirected := false, attributes := g.nextRef, source := s, target := t } : EdgeData)) := by simpa using hm
      have he : e = { undirected := false, attributes := g.nextRef, source := s, target := t } := congrArg Prod.snd hpair
      rw [he]
      exact ⟨hs, ht⟩
  have hSimp2 : g.multi = false → ∀ A B,
      (dKeys (g.edges ++ [(k, ({ undirected := false, attributes := g.nextRef, source := s, target := t } : EdgeData))]) A B).length ≤ 1 ∧
      (uKeys (g.edges ++ [(k, ({ undirected := false, attributes := g.nextRef, source := s, target := t } : EdgeData))]) A B).length ≤ 1 := by
    intro hm A B
    obtain ⟨h1, h2⟩ := hSimp hm A B
    have hd0 := hdup hm
    constructor
    · rw [dKeys_append_single]
      by_cases hp : dPred A B (k, { undirected := false, attributes := g.nextRef, source := s, target := t }) = true
      · rw [if_pos hp]
        rw [dPred_iff] at hp
        obtain ⟨-, hsA, htB⟩ := hp
        have hsA' : s = A := hsA
        have htB' : t = B := htB
        rw [← hsA', ← htB', hd0]
        simp
      · rw [if_neg hp, List.append_nil]
        exact h1
    · have hnp : ¬ uPred A B (k, { undirected := false, attributes := g.nextRef, source := s, target := t }) = true := by
        rw [uPred_iff]
        rintro ⟨hfalse, -⟩
        exact absurd (show (false : Bool) = true from hfalse) Bool.false_ne_true
      rw [uKeys_append_single, if_neg hnp, List.append_nil]
      exact h2
  by_cases hc : g.structureComputed = true
  · rw [if_pos hc] at hIdx
    have hIdx3 : IdxInv { g with attrHeap := aput g.attrHeap g.nextRef (attrContents g a), nextRef := g.nextRef + 1, edges := aput g.edges k { undirected := false, attributes := g.nextRef, source := s, target := t }, size := g.size + 1 } g.edges := by
      refine ⟨hndN, hndS, ?_, hSep, hIdx⟩
      intro h hh
      exact Nat.lt_succ_of_lt (hFresh h hh)
    have hIdx4 : IdxInv (bumpDegreesAdd { g with attrHeap := aput g.attrHeap g.nextRef (attrContents g a), nextRef := g.nextRef + 1, edges := aput g.edges k { undirected := false, attributes := g.nextRef, source := s, target := t }, size := g.size + 1 } false s t) g.edges :=
      idxInv_bumpDegreesAdd _ _ _ _ _ hIdx3
    have hkeys4 : (bumpDegreesAdd { g with attrHeap := aput g.attrHeap g.nextRef (attrContents g a), nextRef := g.nextRef + 1, edges := aput g.edges k { undirected := false, attributes := g.nextRef, source := s, target := t }, size := g.size + 1 } false s t).nodes.map Prod.fst = g.nodes.map Prod.fst :=
      (sameShape_bumpDegreesAdd { g with attrHeap := aput g.attrHeap g.nextRef (attrContents g a), nextRef := g.nextRef + 1, edges := aput g.edges k { undirected := false, attributes := g.nextRef, source := s, target := t }, size := g.size + 1 } false s t).nodesKeys
    have hs4 : (alookup (bumpDegreesAdd { g with attrHeap := aput g.attrHeap g.nextRef (attrContents g a), nextRef := g.nextRef + 1, edges := aput g.edges k { undirected := false, attributes := g.nextRef, source := s, target := t }, size := g.size + 1 } false s t).nodes s).isSome = true := by
      rw [alookup_isSome_iff_mem_keys, hkeys4]
      exact (alookup_isSome_iff_mem_keys _ _).mp hs
    have ht4 : (alookup (bumpDegreesAdd { g with attrHeap := aput g.attrHeap g.nextRef (attrContents g a), nextRef := g.nextRef + 1, edges := aput g.edges k { undirected := false, attributes := g.nextRef, source := s, target := t }, size := g.size + 1 } false s t).nodes t).isSome = true := by
      rw [alookup_isSome_iff_mem_keys, hkeys4]
      exact (alookup_isSome_iff_mem_keys _ _).mp ht
    have hmulti4 : (bumpDegreesAdd { g with attrHeap := aput g.attrHeap g.nextRef (attrContents g a), nextRef := g.nextRef + 1, edges := aput g.edges k { undirected := false, attributes := g.nextRef, source := s, target := t }, size := g.size + 1 } false s t).multi = g.multi :=
      (sameShape_bumpDegreesAdd { g with attrHeap := aput g.attrHeap g.nextRef (attrContents g a), nextRef := g.nextRef + 1, edges := aput g.edges k { undirected := false, attributes := g.nextRef, source := s, target := t }, size := g.size + 1 } false s t).multi
    have hflag4 : (bumpDegreesAdd { g with attrHeap := aput g.attrHeap g.nextRef (attrContents g a), nextRef := g.nextRef + 1, edges := aput g.edges k { undirected := false, attributes := g.nextRef, source := s, target := t }, size := g.size + 1 } false s t).structureComputed = true := by
      rw [structureComputed_bumpDegreesAdd]
      exact hc
    have hupd : updateIndex (bumpDegreesAdd { g with attrHeap := aput g.attrHeap g.nextRef (attrContents g a), nextRef := g.nextRef + 1, edges := aput g.edges k { undirected := false, attributes := g.nextRef, source := s, target := t }, size := g.size + 1 } false s t) k { undirected := false, attributes := g.nextRef, source := s, target := t } =
        updateStructureIndex (bumpDegreesAdd { g with attrHeap := aput g.attrHeap g.nextRef (attrContents g a), nextRef := g.nextRef + 1, edges := aput g.edges k { undirected := false, attributes := g.nextRef, source := s, target := t }, size := g.size + 1 } false s t) false k s t := by
      unfold updateIndex
      rw [hflag4]
      rfl
    rw [hupd]
    have hfin : IdxInv (updateStructureIndex (bumpDegreesAdd { g with attrHeap := aput g.attrHeap g.nextRef (attrContents g a), nextRef := g.nextRef + 1, edges := aput g.edges k { undirected := false, attributes := g.nextRef, source := s, target := t }, size := g.size + 1 } false s t) false k s t)
        (g.edges ++ [(k, { undirected := false, attributes := g.nextRef, source := s, target := t })]) :=
      idxInv_update_directed _ g.edges k g.nextRef s t hIdx4 hkm hs4 ht4
        (fun hm4 => hdup (by rw [← hmulti4]; exact hm4))
    obtain ⟨hndN5, hndS5, hFresh5, hSep5, hIdxOk5⟩ := hfin
    have hshape5 := sameShape_updateStructureIndex (bumpDegreesAdd { g with attrHeap := aput g.attrHeap g.nextRef (attrContents g a), nextRef := g.nextRef + 1, edges := aput g.edges k { undirected := false, attributes := g.nextRef, source := s, target := t }, size := g.size + 1 } false s t) false k s t
    have hedges5 : (updateStructureIndex (bumpDegreesAdd { g with attrHeap := aput g.attrHeap g.nextRef (attrContents g a), nextRef := g.nextRef + 1, edges := aput g.edges k { undirected := false, attributes := g.nextRef, source := s, target := t }, size := g.size + 1 } false s t) false k s t).edges = g.edges ++ [(k, { undirected := false, attributes := g.nextRef, source := s, target := t })] := by
      rw [hshape5.edges, (sameShape_bumpDegreesAdd { g with attrHeap := aput g.attrHeap g.nextRef (attrContents g a), nextRef := g.nextRef + 1, edges := aput g.edges k { undirected := false, attributes := g.nextRef, source := s, target := t }, size := g.size + 1 } false s t).edges]
      exact hputE
    have hkeys5 : (updateStructureIndex (bumpDegreesAdd { g with attrHeap := aput g.attrHeap g.nextRef (attrContents g a), nextRef := g.nextRef + 1, edges := aput g.edges k { undirected := false, attributes := g.nextRef, source := s, target := t }, size := g.size + 1 } false s t) false k s t).nodes.map Prod.fst = g.nodes.map Prod.fst := by
      rw [hshape5.nodesKeys]
      exact hkeys4
    have hmulti5 : (updateStructureIndex (bumpDegreesAdd { g with attrHeap := aput g.attrHeap g.nextRef (attrContents g a), nextRef := g.nextRef + 1, edges := aput g.edges k { undirected := false, attributes := g.nextRef, source := s, target := t }, size := g.size + 1 } false s t) false k s t).multi = g.multi := by
      rw [hshape5.multi]
      exact hmulti4
    refine ⟨hndN5, ?_, ?_, hndS5, hFresh5, hSep5, ?_, ?_⟩
    · rw [hedges5]
      exact hndE2
    · intro k2 e hke
      rw [hedges5] at hke
      obtain ⟨h1, h2⟩ := hEnds2 k2 e hke
      constructor
      · rw [alookup_isSome_iff_mem_keys, hkeys5]
        exact (alookup_isSome_iff_mem_keys _ _).mp h1
      · rw [alookup_isSome_iff_mem_keys, hkeys5]
        exact (alookup_isSome_iff_mem_keys _ _).mp h2
    · rw [hmulti5, hedges5]
      exact hSimp2
    · rw [if_pos (by rw [structureComputed_updateStructureIndex]; exact hflag4)]
      rw [hedges5]
      exact hIdxOk5
  · rw [if_neg hc] at hIdx
    have hflagg : g.structureComputed = false := by
      cases hv : g.structureComputed
      · rfl
      · exact absurd hv hc
    have hG3 : GInv { g with attrHeap := aput g.attrHeap g.nextRef (attrContents g a), nextRef := g.nextRef + 1, edges := aput g.edges k { undirected := false, attributes := g.nextRef, source := s, target := t }, size := g.size + 1 } := by
      refine ⟨hndN, ?_, ?_, hndS, ?_, hSep, ?_, ?_⟩
      · rw [hputE]
        exact hndE2
      · intro k2 e hke
        have hke2 : alookup (g.edges ++ [(k, ({ undirected := false, attributes := g.nextRef, source := s, target := t } : EdgeData))]) k2 = some e := by
          rw [← hputE]
          exact hke
        exact hEnds2 k2 e hke2
      · intro h hh
        exact Nat.lt_succ_of_lt (hFresh h hh)
      · intro hm A B
        rw [hputE]
        exact hSimp2 hm A B
      · rw [if_neg (show ¬ (({ g with attrHeap := aput g.attrHeap g.nextRef (attrContents g a), nextRef := g.nextRef + 1, edges := aput g.edges k { undirected := false, attributes := g.nextRef, source := s, target := t }, size := g.size + 1 } : Graph).structureComputed = true) from hc)]
        exact hIdx
    have hG4 : GInv (bumpDegreesAdd { g with attrHeap := aput g.attrHeap g.nextRef (attrContents g a), nextRef := g.nextRef + 1, edges := aput g.edges k { undirected := false, attributes := g.nextRef, source := s, target := t }, size := g.size + 1 } false s t) := ginv_bumpDegreesAdd _ _ _ _ hG3
    have hf4 : (bumpDegreesAdd { g with attrHeap := aput g.attrHeap g.nextRef (attrContents g a), nextRef := g.nextRef + 1, edges := aput g.edges k { undirected := false, attributes := g.nextRef, source := s, target := t }, size := g.size + 1 } false s t).structureComputed = false :=
      (structureComputed_bumpDegreesAdd _ _ _ _).trans hflagg
    have hupd : updateIndex (bumpDegreesAdd { g with attrHeap := aput g.attrHeap g.nextRef (attrContents g a), nextRef := g.nextRef + 1, edges := aput g.edges k { undirected := false, attributes := g.nextRef, source := s, target := t }, size := g.size + 1 } false s t) k { undirected := false, attributes := g.nextRef, source := s, target := t } = bumpDegreesAdd { g with attrHeap := aput g.attrHeap g.nextRef (attrContents g a), nextRef := g.nextRef + 1, edges := aput g.edges k { undirected := false, attributes := g.nextRef, source := s, target := t }, size := g.size + 1 } false s t := by
      unfold updateIndex
      rw [hf4]
      rfl
    rw [hupd]
    exact hG4

theorem ginv_addEdgeCommitU (g : Graph) (k s t : String) (a : AttrArg)
    (hInv : GInv g)
    (hs : (alookup g.nodes s).isSome = true)
    (ht : (alookup g.nodes t).isSome = true)
    (hkE : alookup g.edges k = none)
    (hdup : g.multi = false → uKeys g.edges s t = []) :
    GInv (addEdgeCommit g true k s t a) := by
  obtain ⟨hndN, hndE, hEnds, hndS, hFresh, hSep, hSimp, hIdx⟩ := hInv
  have hkm : k ∉ g.edges.map Prod.fst := by
    intro hm
    have h2 := (alookup_isSome_iff_mem_keys g.edges k).mpr hm
    rw [hkE] at h2
    exact absurd h2 (by simp)
  have hC : addEdgeCommit g true k s t a =
      updateIndex (bumpDegreesAdd { g with attrHeap := aput g.attrHeap g.nextRef (attrContents g a), nextRef := g.nextRef + 1, edges := aput g.edges k { undirected := true, attributes := g.nextRef, source := s, target := t }, size := g.size + 1 } true s t) k { undirected := true, attributes := g.nextRef, source := s, target := t } := rfl
  rw [hC]
  have hputE : ({ g with attrHeap := aput g.attrHeap g.nextRef (attrContents g a), nextRef := g.nextRef + 1, edges := aput g.edges k { undirected := true, attributes := g.nextRef, source := s, target := t }, size := g.size + 1 } : Graph).edges = g.edges ++ [(k, { undirected := true, attributes := g.nextRef, source := s, target := t })] :=
    aput_eq_append_of_not_mem hkm _
  have hndE2 : keysND (g.edges ++ [(k, ({ undirected := true, attributes := g.nextRef, source := s, target := t } : EdgeData))]) := by
    unfold keysND
    rw [List.map_append]
    refine List.Nodup.append hndE (List.nodup_singleton k) ?_
    intro x hx hx2
    have hxk : x = k := by simpa using hx2
    rw [hxk] at hx
    exact hkm hx
  have hEnds2 : ∀ k2 e, alookup (g.edges ++ [(k, ({ undirected := true, attributes := g.nextRef, source := s, target := t } : EdgeData))]) k2 = some e →
      (alookup g.nodes e.source).isSome = true ∧
      (alookup g.nodes e.target).isSome = true := by
    intro k2 e hke
    rcases List.mem_append.mp (alookup_mem hke) with hm | hm
    · exact hEnds k2 e (mem_alookup hndE hm)
    · have hpair : (k2, e) = (k, ({ undirected := true, attributes := g.nextRef, source := s, target := t } : EdgeData)) := by simpa using hm
      have he : e = { undirected := true, attributes := g.nextRef, source := s, target := t } := congrArg Prod.snd hpair
      rw [he]
      exact ⟨hs, ht⟩
  have hSimp2 : g.multi = false → ∀ A B,
      (dKeys (g.edges ++ [(k, ({ undirected := true, attributes := g.nextRef, source := s, target := t } : EdgeData))]) A B).length ≤ 1 ∧
      (uKeys (g.edges ++ [(k, ({ undirected := true, attributes := g.nextRef, source := s, target := t } : EdgeData))]) A B).length ≤ 1 := by
    intro hm A B
    obtain ⟨h1, h2⟩ := hSimp hm A B
    have hd0 := hdup hm
    constructor
    · have hnp : ¬ dPred A B (k, { undirected := true, attributes := g.nextRef, source := s, target := t }) = true := by
        rw [dPred_iff]
        rintro ⟨htrue, -⟩
        exact absurd (show (true : Bool) = false from htrue) (by simp)
      rw [dKeys_append_single, if_neg hnp, List.append_nil]
      exact h1
    · rw [uKeys_append_single]
      by_cases hp : uPred A B (k, { undirected := true, attributes := g.nextRef, source := s, target := t }) = true
      · rw [if_pos hp]
        rw [uPred_iff] at hp
        obtain ⟨-, hor⟩ := hp
        rcases hor with ⟨hsA, htB⟩ | ⟨hsB, htA⟩
        · have hsA' : s = A := hsA
          have htB' : t = B := htB
          rw [← hsA', ← htB', hd0]
          simp
        · have hsB' : s = B := hsB
          have htA' : t = A := htA
          rw [uKeys_comm, ← hsB', ← htA', hd0]
          simp
      · rw [if_neg hp, List.append_nil]
        exact h2
  by_cases hc : g.structureComputed = true
  · rw [if_pos hc] at hIdx
    have hIdx3 : IdxInv { g with attrHeap := aput g.attrHeap g.nextRef (attrContents g a), nextRef := g.nextRef + 1, edges := aput g.edges k { undirected := true, attributes := g.nextRef, source := s, target := t }, size := g.size + 1 } g.edges := by
      refine ⟨hndN, hndS, ?_, hSep, hIdx⟩
      intro h hh
      exact Nat.lt_succ_of_lt (hFresh h hh)
    have hIdx4 : IdxInv (bumpDegreesAdd { g with attrHeap := aput g.attrHeap g.nextRef (attrContents g a), nextRef := g.nextRef + 1, edges := aput g.edges k { undirected := true, attributes := g.nextRef, source := s, target := t }, size := g.size + 1 } true s t) g.edges :=
      idxInv_bumpDegreesAdd _ _ _ _ _ hIdx3
    have hkeys4 : (bumpDegreesAdd { g with attrHeap := aput g.attrHeap g.nextRef (attrContents g a), nextRef := g.nextRef + 1, edges := aput g.edges k { undirected := true, attributes := g.nextRef, source := s, target := t }, size := g.size + 1 } true s t).nodes.map Prod.fst = g.nodes.map Prod.fst :=
      (sameShape_bumpDegreesAdd { g with attrHeap := aput g.attrHeap g.nextRef (attrContents g a), nextRef := g.nextRef + 1, edges := aput g.edges k { undirected := true, attributes := g.nextRef, source := s, target := t }, size := g.size + 1 } true s t).nodesKeys
    have hs4 : (alookup (bumpDegreesAdd { g with attrHeap := aput g.attrHeap g.nextRef (attrContents g a), nextRef := g.nextRef + 1, edges := aput g.edges k { undirected := true, attributes := g.nextRef, source := s, target := t }, size := g.size + 1 } true s t).nodes s).isSome = true := by
      rw [alookup_isSome_iff_mem_keys, hkeys4]
      exact (alookup_isSome_iff_mem_keys _ _).mp hs
    have ht4 : (alookup (bumpDegreesAdd { g with attrHeap := aput g.attrHeap g.nextRef (attrContents g a), nextRef := g.nextRef + 1, edges := aput g.edges k { undirected := true, attributes := g.nextRef, source := s, target := t }, size := g.size + 1 } true s t).nodes t).isSome = true := by
      rw [alookup_isSome_iff_mem_keys, hkeys4]
      exact (alookup_isSome_iff_mem_keys _ _).mp ht
    have hmulti4 : (bumpDegreesAdd { g with attrHeap := aput g.attrHeap g.nextRef (attrContents g a), nextRef := g.nextRef + 1, edges := aput g.edges k { undirected := true, attributes := g.nextRef, source := s, target := t }, size := g.size + 1 } true s t).multi = g.multi :=
      (sameShape_bumpDegreesAdd { g with attrHeap := aput g.attrHeap g.nextRef (attrContents g a), nextRef := g.nextRef + 1, edges := aput g.edges k { undirected := true, attributes := g.nextRef, source := s, target := t }, size := g.size + 1 } true s t).multi
    have hflag4 : (bumpDegreesAdd { g with attrHeap := aput g.attrHeap g.nextRef (attrContents g a), nextRef := g.nextRef + 1, edges := aput g.edges k { undirected := true, attributes := g.nextRef, source := s, target := t }, size := g.size + 1 } true s t).structureComputed = true := by
      rw [structureComputed_bumpDegreesAdd]
      exact hc
    have hupd : updateIndex (bumpDegreesAdd { g with attrHeap := aput g.attrHeap g.nextRef (attrContents g a), nextRef := g.nextRef + 1, edges := aput g.edges k { undirected := true, attributes := g.nextRef, source := s, target := t }, size := g.size + 1 } true s t) k { undirected := true, attributes := g.nextRef, source := s, target := t } =
        updateStructureIndex (bumpDegreesAdd { g with attrHeap := aput g.attrHeap g.nextRef (attrContents g a), nextRef := g.nextRef + 1, edges := aput g.edges k { undirected := true, attributes := g.nextRef, source := s, target := t }, size := g.size + 1 } true s t) true k s t := by
      unfold updateIndex
      rw [hflag4]
      rfl
    rw [hupd]
    have hfin : IdxInv (updateStructureIndex (bumpDegreesAdd { g with attrHeap := aput g.attrHeap g.nextRef (attrContents g a), nextRef := g.nextRef + 1, edges := aput g.edges k { undirected := true, attributes := g.nextRef, source := s, target := t }, size := g.size + 1 } true s t) true k s t)
        (g.edges ++ [(k, { undirected := true, attributes := g.nextRef, source := s, target := t })]) :=
      idxInv_update_undirected _ g.edges k g.nextRef s t hIdx4 hkm hs4 ht4
        (fun hm4 => hdup (by rw [← hmulti4]; exact hm4))
    obtain ⟨hndN5, hndS5, hFresh5, hSep5, hIdxOk5⟩ := hfin
    have hshape5 := sameShape_updateStructureIndex (bumpDegreesAdd { g with attrHeap := aput g.attrHeap g.nextRef (attrContents g a), nextRef := g.nextRef + 1, edges := aput g.edges k { undirected := true, attributes := g.nextRef, source := s, target := t }, size := g.size + 1 } true s t) true k s t
    have hedges5 : (updateStructureIndex (bumpDegreesAdd { g with attrHeap := aput g.attrHeap g.nextRef (attrContents g a), nextRef := g.nextRef + 1, edges := aput g.edges k { undirected := true, attributes := g.nextRef, source := s, target := t }, size := g.size + 1 } true s t) true k s t).edges = g.edges ++ [(k, { undirected := true, attributes := g.nextRef, source := s, target := t })] := by
      rw [hshape5.edges, (sameShape_bumpDegreesAdd { g with attrHeap := aput g.attrHeap g.nextRef (attrContents g a), nextRef := g.nextRef + 1, edges := aput g.edges k { undirected := true, attributes := g.nextRef, source := s, target := t }, size := g.size + 1 } true s t).edges]
      exact hputE
    have hkeys5 : (updateStructureIndex (bumpDegreesAdd { g with attrHeap := aput g.attrHeap g.nextRef (attrContents g a), nextRef := g.nextRef + 1, edges := aput g.edges k { undirected := true, attributes := g.nextRef, source := s, target := t }, size := g.size + 1 } true s t) true k s t).nodes.map Prod.fst = g.nodes.map Prod.fst := by
      rw [hshape5.nodesKeys]
      exact hkeys4
    have hmulti5 : (updateStructureIndex (bumpDegreesAdd { g with attrHeap := aput g.attrHeap g.nextRef (attrContents g a), nextRef := g.nextRef + 1, edges := aput g.edges k { undirected := true, attributes := g.nextRef, source := s, target := t }, size := g.size + 1 } true s t) true k s t).multi = g.multi := by
      rw [hshape5.multi]
      exact hmulti4
    refine ⟨hndN5, ?_, ?_, hndS5, hFresh5, hSep5, ?_, ?_⟩
    · rw [hedges5]
      exact hndE2
    · intro k2 e hke
      rw [hedges5] at hke
      obtain ⟨h1, h2⟩ := hEnds2 k2 e hke
      constructor
      · rw [alookup_isSome_iff_mem_keys, hkeys5]
        exact (alookup_isSome_iff_mem_keys _ _).mp h1
      · rw [alookup_isSome_iff_mem_keys, hkeys5]
        exact (alookup_isSome_iff_mem_keys _ _).mp h2
    · rw [hmulti5, hedges5]
      exact hSimp2
    · rw [if_pos (by rw [structureComputed_updateStructureIndex]; exact hflag4)]
      rw [hedges5]
      exact hIdxOk5
  · rw [if_neg hc] at hIdx
    have hflagg : g.structureComputed = false := by
      cases hv : g.structureComputed
      · rfl
      · exact absurd hv hc
    have hG3 : GInv { g with attrHeap := aput g.attrHeap g.nextRef (attrContents g a), nextRef := g.nextRef + 1, edges := aput g.edges k { undirected := true, attributes := g.nextRef, source := s, target := t }, size := g.size + 1 } := by
      refine ⟨hndN, ?_, ?_, hndS, ?_, hSep, ?_, ?_⟩
      · rw [hputE]
        exact hndE2
      · intro k2 e hke
        have hke2 : alookup (g.edges ++ [(k, ({ undirected := true, attributes := g.nextRef, source := s, target := t } : EdgeData))]) k2 = some e := by
          rw [← hputE]
          exact hke
        exact hEnds2 k2 e hke2
      · intro h hh
        exact Nat.lt_succ_of_lt (hFresh h hh)
      · intro hm A B
        rw [hputE]
        exact hSimp2 hm A B
      · rw [if_neg (show ¬ (({ g with attrHeap := aput g.attrHeap g.nextRef (attrContents g a), nextRef := g.nextRef + 1, edges := aput g.edges k { undirected := true, attributes := g.nextRef, source := s, target := t }, size := g.size + 1 } : Graph).structureComputed = true) from hc)]
        exact hIdx
    have hG4 : GInv (bumpDegreesAdd { g with attrHeap := aput g.attrHeap g.nextRef (attrContents g a), nextRef := g.nextRef + 1, edges := aput g.edges k { undirected := true, attributes := g.nextRef, source := s, target := t }, size := g.size + 1 } true s t) := ginv_bumpDegreesAdd _ _ _ _ hG3
    have hf4 : (bumpDegreesAdd { g with attrHeap := aput g.attrHeap g.nextRef (attrContents g a), nextRef := g.nextRef + 1, edges := aput g.edges k { undirected := true, attributes := g.nextRef, source := s, target := t }, size := g.size + 1 } true s t).structureComputed = false :=
      (structureComputed_bumpDegreesAdd _ _ _ _).trans hflagg
    have hupd : updateIndex (bumpDegreesAdd { g with attrHeap := aput g.attrHeap g.nextRef (attrContents g a), nextRef := g.nextRef + 1, edges := aput g.edges k { undirected := true, attributes := g.nextRef, source := s, target := t }, size := g.size + 1 } true s t) k { undirected := true, attributes := g.nextRef, source := s, target := t } = bumpDegreesAdd { g with attrHeap := aput g.attrHeap g.nextRef (attrContents g a), nextRef := g.nextRef + 1, edges := aput g.edges k { undirected := true, attributes := g.nextRef, source := s, target := t }, size := g.size + 1 } true s t := by
      unfold updateIndex
      rw [hf4]
      rfl
    rw [hupd]
    exact hG4

theorem hasDirectedEdgeP_snd (g : Graph) (s t : String) (hInv : GInv g) :
    (hasDirectedEdgeP g s t).2 = true ↔ dKeys g.edges s t ≠ [] := by
  obtain ⟨hndN, hndE, hEnds, hndS, hFresh, hSep, hSimp, hIdx⟩ := ginv_computeIndex g hInv
  rw [computeIndex_structureComputed] at hIdx
  rw [if_pos rfl] at hIdx
  rw [(sameShape_computeIndex g).edges] at hIdx hEnds hndE
  unfold hasDirectedEdgeP
  dsimp only
  cases hsl : alookup (computeIndex g).nodes s with
  | none =>
      dsimp only
      have hnil : dKeys g.edges s t = [] := by
        apply dKeys_nil_of_no_source hndE
        intro k2 e hke hsrc
        have h1 := (hEnds k2 e hke).1
        rw [hsrc, hsl] at h1
        exact absurd h1 (by simp)
      constructor
      · intro h0
        exact absurd h0 Bool.false_ne_true
      · intro hne
        exact absurd hnil hne
  | some sd =>
      cases htl : alookup (computeIndex g).nodes t with
      | none =>
          dsimp only
          have hnil : dKeys g.edges s t = [] := by
            apply dKeys_nil_of_no_target hndE
            intro k2 e hke htgt
            have h1 := (hEnds k2 e hke).2
            rw [htgt, htl] at h1
            exact absurd h1 (by simp)
          constructor
          · intro h0
            exact absurd h0 Bool.false_ne_true
          · intro hne
            exact absurd hnil hne
      | some td =>
          dsimp only
          have hok := (hIdx s sd hsl).1 t
          cases hol : alookup sd.out t with
          | none =>
              rw [hol] at hok
              have hnil : dKeys g.edges s t = [] := hok
              constructor
              · intro h0
                exact absurd h0 Bool.false_ne_true
              · intro hne
                exact absurd hnil hne
          | some hh =>
              rw [hol] at hok
              obtain ⟨hne0, hrest⟩ := hok
              dsimp only
              cases hhv : alookup (computeIndex g).heap hh with
              | none =>
                  rw [hhv] at hrest
                  exact False.elim hrest
              | some ev =>
                  cases ev with
                  | simple e0 =>
                      rw [hhv] at hrest
                      have hval : entryNonEmpty (computeIndex g) hh = true := by
                        unfold entryNonEmpty
                        rw [hhv]
                      rw [hval]
                      constructor
                      · intro _
                        exact hne0
                      · intro _
                        rfl
                  | multi s0 =>
                      rw [hhv] at hrest
                      obtain ⟨-, -, hmem⟩ := hrest
                      have hval : entryNonEmpty (computeIndex g) hh = !s0.isEmpty := by
                        unfold entryNonEmpty
                        rw [hhv]
                      rw [hval]
                      constructor
                      · intro _
                        exact hne0
                      · intro _
                        cases hs0 : s0 with
                        | nil =>
                            exfalso
                            apply hne0
                            rw [List.eq_nil_iff_forall_not_mem]
                            intro x hx
                            rw [hs0] at hmem
                            exact absurd ((hmem x).mpr hx) (List.not_mem_nil x)
                        | cons a0 tl0 => rfl

theorem hasUndirectedEdgeP_snd (g : Graph) (s t : String) (hInv : GInv g) :
    (hasUndirectedEdgeP g s t).2 = true ↔ uKeys g.edges s t ≠ [] := by
  obtain ⟨hndN, hndE, hEnds, hndS, hFresh, hSep, hSimp, hIdx⟩ := ginv_computeIndex g hInv
  rw [computeIndex_structureComputed] at hIdx
  rw [if_pos rfl] at hIdx
  rw [(sameShape_computeIndex g).edges] at hIdx hEnds hndE
  unfold hasUndirectedEdgeP
  dsimp only
  cases hsl : alookup (computeIndex g).nodes s with
  | none =>
      dsimp only
      have hnil : uKeys g.edges s t = [] := by
        apply uKeys_nil_of_no_endpoint hndE
        intro k2 e hke
        obtain ⟨h1, h2⟩ := hEnds k2 e hke
        constructor
        · intro hsrc
          rw [hsrc, hsl] at h1
          exact absurd h1 (by simp)
        · intro htgt
          rw [htgt, hsl] at h2
          exact absurd h2 (by simp)
      constructor
      · intro h0
        exact absurd h0 Bool.false_ne_true
      · intro hne
        exact absurd hnil hne
  | some sd =>
      cases htl : alookup (computeIndex g).nodes t with
      | none =>
          dsimp only
          have hnil : uKeys g.edges s t = [] := by
            rw [uKeys_comm]
            apply uKeys_nil_of_no_endpoint hndE
            intro k2 e hke
            obtain ⟨h1, h2⟩ := hEnds k2 e hke
            constructor
            · intro hsrc
              rw [hsrc, htl] at h1
              exact absurd h1 (by simp)
            · intro htgt
              rw [htgt, htl] at h2
              exact absurd h2 (by simp)
          constructor
          · intro h0
            exact absurd h0 Bool.false_ne_true
          · intro hne
            exact absurd hnil hne
      | some td =>
          dsimp only
          have hok := (hIdx s sd hsl).2.1 t
          cases hol : alookup sd.undirected t with
          | none =>
              rw [hol] at hok
              have hnil : uKeys g.edges s t = [] := hok
              constructor
              · intro h0
                exact absurd h0 Bool.false_ne_true
              · intro hne
                exact absurd hnil hne
          | some hh =>
              rw [hol] at hok
              obtain ⟨hne0, hrest⟩ := hok
              dsimp only
              cases hhv : alookup (computeIndex g).heap hh with
              | none =>
                  rw [hhv] at hrest
                  exact False.elim hrest
              | some ev =>
                  cases ev with
                  | simple e0 =>
                      rw [hhv] at hrest
                      have hval : entryNonEmpty (computeIndex g) hh = true := by
                        unfold entryNonEmpty
                        rw [hhv]
                      rw [hval]
                      constructor
                      · intro _
                        exact hne0
                      · intro _
                        rfl
                  | multi s0 =>
                      rw [hhv] at hrest
                      obtain ⟨-, -, hmem⟩ := hrest
                      have hval : entryNonEmpty (computeIndex g) hh = !s0.isEmpty := by
                        unfold entryNonEmpty
                        rw [hhv]
                      rw [hval]
                      constructor
                      · intro _
                        exact hne0
                      · intro _
                        cases hs0 : s0 with
                        | nil =>
                            exfalso
                            apply hne0
                            rw [List.eq_nil_iff_forall_not_mem]
                            intro x hx
                            rw [hs0] at hmem
                            exact absurd ((hmem x).mpr hx) (List.not_mem_nil x)
                        | cons a0 tl0 => rfl

theorem hasDirectedEdgeP_false_nil (g : Graph) (s t : String) (hInv : GInv g)
    (hq : (hasDirectedEdgeP g s t).2 = false) : dKeys g.edges s t = [] := by
  by_cases hne : dKeys g.edges s t = []
  · exact hne
  · have h0 := (hasDirectedEdgeP_snd g s t hInv).mpr hne
    rw [hq] at h0
    exact absurd h0 Bool.false_ne_true

theorem hasUndirectedEdgeP_false_nil (g : Graph) (s t : String) (hInv : GInv g)
    (hq : (hasUndirectedEdgeP g s t).2 = false) : uKeys g.edges s t = [] := by
  by_cases hne : uKeys g.edges s t = []
  · exact hne
  · have h0 := (hasUndirectedEdgeP_snd g s t hInv).mpr hne
    rw [hq] at h0
    exact absurd h0 Bool.false_ne_true

theorem ginv_addEdgeCore (g : Graph) (u : Bool) (k s t : String) (a : AttrArg)
    (hInv : GInv g) : GInv (addEdgeCore g u k s t a).1 := by
  unfold addEdgeCore
  cases hpc : addEdgePrecheck g u k s t a with
  | some e => exact hInv
  | none =>
      dsimp only
      obtain ⟨hsN, htN, hkF⟩ := addEdgePrecheck_none hpc
      have hs : (alookup g.nodes s).isSome = true := hsN
      have ht : (alookup g.nodes t).isSome = true := htN
      have hkE : alookup g.edges k = none := by
        cases hv : alookup g.edges k with
        | none => rfl
        | some e2 =>
            have h0 : hasEdgeKey g k = true := by
              unfold hasEdgeKey
              rw [hv]
              rfl
            rw [hkF] at h0
            exact absurd h0 Bool.false_ne_true
      by_cases hmu : g.multi = true
      · rw [if_pos hmu]
        dsimp only
        rw [if_neg Bool.false_ne_true]
        dsimp only
        cases u with
        | false =>
            exact ginv_addEdgeCommitD g k s t a hInv hs ht hkE
              (fun hm => absurd (hmu.symm.trans hm) (by simp))
        | true =>
            exact ginv_addEdgeCommitU g k s t a hInv hs ht hkE
              (fun hm => absurd (hmu.symm.trans hm) (by simp))
      · rw [if_neg hmu]
        have hciInv : GInv (computeIndex g) := ginv_computeIndex g hInv
        have hkeysCI : (computeIndex g).nodes.map Prod.fst = g.nodes.map Prod.fst :=
          (sameShape_computeIndex g).nodesKeys
        have hsCI : (alookup (computeIndex g).nodes s).isSome = true := by
          rw [alookup_isSome_iff_mem_keys, hkeysCI]
          exact (alookup_isSome_iff_mem_keys _ _).mp hs
        have htCI : (alookup (computeIndex g).nodes t).isSome = true := by
          rw [alookup_isSome_iff_mem_keys, hkeysCI]
          exact (alookup_isSome_iff_mem_keys _ _).mp ht
        have hkECI : alookup (computeIndex g).edges k = none := by
          rw [(sameShape_computeIndex g).edges]
          exact hkE
        cases u with
        | false =>
            rw [if_neg Bool.false_ne_true]
            cases hq : (hasDirectedEdgeP g s t).2 with
            | true =>
                rw [if_pos rfl]
                dsimp only
                rw [hasDirectedEdgeP_fst]
                exact hciInv
            | false =>
                rw [if_neg Bool.false_ne_true]
                dsimp only
                rw [hasDirectedEdgeP_fst]
                refine ginv_addEdgeCommitD (computeIndex g) k s t a hciInv hsCI htCI hkECI ?_
                intro _
                rw [(sameShape_computeIndex g).edges]
                exact hasDirectedEdgeP_false_nil g s t hInv hq
        | true =>
            rw [if_pos rfl]
            cases hq : (hasUndirectedEdgeP g s t).2 with
            | true =>
                rw [if_pos rfl]
                dsimp only
                rw [hasUndirectedEdgeP_fst]
                exact hciInv
            | false =>
                rw [if_neg Bool.false_ne_true]
                dsimp only
                rw [hasUndirectedEdgeP_fst]
                refine ginv_addEdgeCommitU (computeIndex g) k s t a hciInv hsCI htCI hkECI ?_
                intro _
                rw [(sameShape_computeIndex g).edges]
                exact hasUndirectedEdgeP_false_nil g s t hInv hq

theorem reachable_ginv {g : Graph} (h : Reachable g) : GInv g := by
  induction h with
  | empty t m sl mp => exact ginv_empty t m sl mp
  | addNode n a _ ih => exact ginv_addNode _ n a ih
  | addEdge u k s t a _ ih => exact ginv_addEdgeCore _ u k s t a ih
  | dropEdge k _ ih => exact ginv_dropEdge _ k ih
  | dropNode n _ ih => exact ginv_dropNode _ n ih
  | clear _ ih => exact ginv_clearGraph _ ih
  | computeIdx _ ih => exact ginv_computeIndex _ ih
  | clearIdx _ ih => exact ginv_clearIndex _ ih

theorem dropEdge_fst_edges {g : Graph} {k : String} {d : EdgeData}
    (hk : alookup g.edges k = some d) :
    (dropEdge g k).1.edges = aerase g.edges k := by
  unfold dropEdge
  rw [hk]
  dsimp only
  exact (sameShape_clearEdgeFromIndex _ k d).edges.trans
    (sameShape_bumpDegreesDrop _ d.undirected d.source d.target).edges

/-- C1 (amended).  After `computeIndex()` the matching-kind pair query is
true for every Edge Table record — that half of the claim holds as stated.
The post-`dropEdge` half holds only in simple (`multi:false`) graphs: in
general the query is true exactly when a same-kind edge on the pair remains
in the Edge Table, so dropping one of several parallel edges leaves it true
(see the counterexample). -/
theorem claim_C1 (g : Graph) (hg : Reachable g) (k : String) (e : EdgeData)
    (hk : alookup g.edges k = some e) :
    (matchKindQuery (computeIndex g) e).2 = true ∧
    ((matchKindQuery (dropEdge g k).1 e).2 = true ↔
      matchKindKeys (dropEdge g k).1.edges e ≠ []) ∧
    (g.multi = false → (matchKindQuery (dropEdge g k).1 e).2 = false) := by
  have hInv := reachable_ginv hg
  have hInvCI := ginv_computeIndex g hInv
  have hInvD : GInv (dropEdge g k).1 := ginv_dropEdge g k hInv
  have hndE : keysND g.edges := hInv.2.1
  have hedCI : (computeIndex g).edges = g.edges := (sameShape_computeIndex g).edges
  have hedD : (dropEdge g k).1.edges = aerase g.edges k := dropEdge_fst_edges hk
  obtain ⟨u, att, S, T⟩ := e
  cases u with
  | false =>
      refine ⟨?_, ?_, ?_⟩
      · show (hasDirectedEdgeP (computeIndex g) S T).2 = true
        rw [hasDirectedEdgeP_snd (computeIndex g) S T hInvCI, hedCI]
        exact List.ne_nil_of_mem (mem_dKeys_self hk)
      · show (hasDirectedEdgeP (dropEdge g k).1 S T).2 = true ↔
          dKeys (dropEdge g k).1.edges S T ≠ []
        exact hasDirectedEdgeP_snd _ S T hInvD
      · intro hm
        show (hasDirectedEdgeP (dropEdge g k).1 S T).2 = false
        have hsingle : dKeys g.edges S T = [k] :=
          eq_singleton_of_mem_length_le (mem_dKeys_self hk)
            (hInv.2.2.2.2.2.2.1 hm S T).1
        have hnil : dKeys (dropEdge g k).1.edges S T = [] := by
          rw [hedD, dKeys_aerase hndE, hsingle]
          simp
        cases hq : (hasDirectedEdgeP (dropEdge g k).1 S T).2 with
        | false => rfl
        | true =>
            exact absurd hnil ((hasDirectedEdgeP_snd _ S T hInvD).mp hq)
  | true =>
      refine ⟨?_, ?_, ?_⟩
      · show (hasUndirectedEdgeP (computeIndex g) S T).2 = true
        rw [hasUndirectedEdgeP_snd (computeIndex g) S T hInvCI, hedCI]
        exact List.ne_nil_of_mem (mem_uKeys_self hk)
      · show (hasUndirectedEdgeP (dropEdge g k).1 S T).2 = true ↔
          uKeys (dropEdge g k).1.edges S T ≠ []
        exact hasUndirectedEdgeP_snd _ S T hInvD
      · intro hm
        show (hasUndirectedEdgeP (dropEdge g k).1 S T).2 = false
        have hsingle : uKeys g.edges S T = [k] :=
          eq_singleton_of_mem_length_le (mem_uKeys_self hk)
            (hInv.2.2.2.2.2.2.1 hm S T).2
        have hnil : uKeys (dropEdge g k).1.edges S T = [] := by
          rw [hedD, uKeys_aerase hndE, hsingle]
          simp
        cases hq : (hasUndirectedEdgeP (dropEdge g k).1 S T).2 with
        | false => rfl
        | true =>
            exact absurd hnil ((hasUndirectedEdgeP_snd _ S T hInvD).mp hq)

/-- C1 witness: the amended statement evaluated on the simple directed C2
graph holding edge `e1` from `a` to `b`: the query is true after
`computeIndex`, and false after `dropEdge('e1')`. -/
theorem claim_C1_witness :
    alookup c2s3.1.edges "e1" =
      some ({ undirected := false, attributes := 2, source := "a", target := "b" } : EdgeData) ∧
    ((matchKindQuery (computeIndex c2s3.1)
        { undirected := false, attributes := 2, source := "a", target := "b" }).2 = true ∧
     ((matchKindQuery (dropEdge c2s3.1 "e1").1
        { undirected := false, attributes := 2, source := "a", target := "b" }).2 = true ↔
      matchKindKeys (dropEdge c2s3.1 "e1").1.edges
        { undirected := false, attributes := 2, source := "a", target := "b" } ≠ []) ∧
     (c2s3.1.multi = false →
      (matchKindQuery (dropEdge c2s3.1 "e1").1
        { undirected := false, attributes := 2, source := "a", target := "b" }).2 = false)) := by
  have hr : Reachable c2s3.1 :=
    Reachable.addEdge false "e1" "a" "b" AttrArg.missing
      (Reachable.addNode "b" AttrArg.missing
        (Reachable.addNode "a" AttrArg.missing
          (Reachable.empty GType.directed false false false)))
  exact ⟨by decide, claim_C1 c2s3.1 hr "e1" _ (by decide)⟩

/-- C1 counterexample: in the directed multigraph `c1g` with parallel edges
`e1`, `e2` from `a` to `b`, the index is materialized, `e1` is dropped, and
`hasDirectedEdge('a','b')` is still true — the claim's post-drop half fails
for multigraphs. -/
theorem claim_C1_counterexample :
    alookup c1g.edges "e1" =
      some ({ undirected := false, attributes := 2, source := "a", target := "b" } : EdgeData) ∧
    (hasDirectedEdgeP (dropEdge (computeIndex c1g) "e1").1 "a" "b").2 = true := by decide

/-- C3: on every reachable graph with a computed structure index, a
non-self-loop edge's entry is stored under the *same handle* on both sides
(`source.out`/`target.in` for a directed edge, both `undirected` slots for an
undirected one) — one owned value, not a copy; a directed self-loop has only
its source-side `out` entry, the `in` slot holding nothing at the node's own
key. -/
theorem claim_C3 (g : Graph) (hg : Reachable g) (hc : g.structureComputed = true)
    (k : String) (e : EdgeData) (hk : alookup g.edges k = some e) :
    ∃ dS, alookup g.nodes e.source = some dS ∧
      (e.source ≠ e.target →
        ∃ h dT, alookup g.nodes e.target = some dT ∧
          (if e.undirected
           then alookup dS.undirected e.target = some h ∧
                alookup dT.undirected e.source = some h
           else alookup dS.out e.target = some h ∧
                alookup dT.«in» e.source = some h)) ∧
      (e.source = e.target →
        (∃ h, (if e.undirected then alookup dS.undirected e.target
               else alookup dS.out e.target) = some h) ∧
        (e.undirected = false → alookup dS.«in» e.source = none)) := by
  obtain ⟨hndN, hndE, hEnds, hndS, hFresh, hSep, hSimp, hIdx⟩ := reachable_ginv hg
  rw [if_pos hc] at hIdx
  obtain ⟨u, att, S, T⟩ := e
  obtain ⟨hsi, hti⟩ := hEnds k _ hk
  have hsi' : (alookup g.nodes S).isSome = true := hsi
  have hti' : (alookup g.nodes T).isSome = true := hti
  obtain ⟨dS, hdS⟩ := Option.isSome_iff_exists.mp hsi'
  obtain ⟨dT, hdT⟩ := Option.isSome_iff_exists.mp hti'
  refine ⟨dS, hdS, ?_, ?_⟩
  · intro hne
    have hne' : S ≠ T := hne
    cases u with
    | false =>
        have hok := (hIdx S dS hdS).1 T
        have hkm : k ∈ dKeys g.edges S T := mem_dKeys_self hk
        cases hol : alookup dS.out T with
        | none =>
            rw [hol] at hok
            have hnil : dKeys g.edges S T = [] := hok
            rw [hnil] at hkm
            exact absurd hkm (List.not_mem_nil k)
        | some h =>
            refine ⟨h, dT, hdT, rfl, ?_⟩
            show alookup dT.«in» S = some h
            have hmir := (hIdx T dT hdT).2.2.1 S
            rw [if_neg hne', hdS] at hmir
            dsimp only at hmir
            rw [hmir]
            exact hol
    | true =>
        have hok := (hIdx S dS hdS).2.1 T
        have hkm : k ∈ uKeys g.edges S T := mem_uKeys_self hk
        cases hol : alookup dS.undirected T with
        | none =>
            rw [hol] at hok
            have hnil : uKeys g.edges S T = [] := hok
            rw [hnil] at hkm
            exact absurd hkm (List.not_mem_nil k)
        | some h =>
            refine ⟨h, dT, hdT, rfl, ?_⟩
            show alookup dT.undirected S = some h
            have hmir := (hIdx T dT hdT).2.2.2 S hne'
            rw [hdS] at hmir
            dsimp only at hmir
            rw [hmir]
            exact hol
  · intro hEq
    have hEq' : S = T := hEq
    cases u with
    | false =>
        constructor
        · have hok := (hIdx S dS hdS).1 T
          have hkm : k ∈ dKeys g.edges S T := mem_dKeys_self hk
          cases hol : alookup dS.out T with
          | none =>
              rw [hol] at hok
              have hnil : dKeys g.edges S T = [] := hok
              rw [hnil] at hkm
              exact absurd hkm (List.not_mem_nil k)
          | some h => exact ⟨h, rfl⟩
        · intro _
          have hmir := (hIdx S dS hdS).2.2.1 S
          rw [if_pos rfl] at hmir
          exact hmir
    | true =>
        constructor
        · have hok := (hIdx S dS hdS).2.1 T
          have hkm : k ∈ uKeys g.edges S T := mem_uKeys_self hk
          cases hol : alookup dS.undirected T with
          | none =>
              rw [hol] at hok
              have hnil : uKeys g.edges S T = [] := hok
              rw [hnil] at hkm
              exact absurd hkm (List.not_mem_nil k)
          | some h => exact ⟨h, rfl⟩
        · intro hff
          exact absurd (show (true : Bool) = false from hff) (by simp)

/-- C3 witness: the shared-handle conclusion evaluated on the computed index
of the C2 graph holding directed edge `e1` from `a` to `b`. -/
theorem claim_C3_witness :
    ∃ dS, alookup (computeIndex c2s3.1).nodes "a" = some dS ∧
      (("a" : String) ≠ "b" →
        ∃ h dT, alookup (computeIndex c2s3.1).nodes "b" = some dT ∧
          (alookup dS.out "b" = some h ∧ alookup dT.«in» "a" = some h)) ∧
      (("a" : String) = "b" →
        (∃ h, alookup dS.out "b" = some h) ∧
        ((false : Bool) = false → alookup dS.«in» "a" = none)) := by
  have hr : Reachable (computeIndex c2s3.1) :=
    Reachable.computeIdx
      (Reachable.addEdge false "e1" "a" "b" AttrArg.missing
        (Reachable.addNode "b" AttrArg.missing
          (Reachable.addNode "a" AttrArg.missing
            (Reachable.empty GType.directed false false false))))
  exact claim_C3 (computeIndex c2s3.1) hr (by decide) "e1"
    { undirected := false, attributes := 2, source := "a", target := "b" } (by decide)

/-- C8: `upgradeStructureIndexToMulti` processes each unordered undirected
pair from one side only (the per-pair step is the identity whenever
`node < neighbor`, so only the non-smaller side converts), and on the
computed simple index `c8g` (one undirected edge `u` and one directed edge
`d` between `a` and `b`) it yields exactly one singleton set `{u}` stored
under one shared handle in both `undirected` slots — no duplicate entry from
a second processing — and wraps the directed entry into a singleton set
`{d}` shared between `a.out` and `b.in`. -/
theorem claim_C8 :
    (∀ (n m : String) (G : Graph), jsStrLt n m = true → upgradeUndAt n m G = G) ∧
    (undEntry (upgradeStructureIndexToMulti c8g) "a" "b" =
       undEntry (upgradeStructureIndexToMulti c8g) "b" "a" ∧
     ∃ hu, undEntry (upgradeStructureIndexToMulti c8g) "a" "b" = some hu ∧
       alookup (upgradeStructureIndexToMulti c8g).heap hu =
         some (EntryVal.multi ["u"])) ∧
    (outEntry (upgradeStructureIndexToMulti c8g) "a" "b" =
       inEntry (upgradeStructureIndexToMulti c8g) "b" "a" ∧
     ∃ hd, outEntry (upgradeStructureIndexToMulti c8g) "a" "b" = some hd ∧
       alookup (upgradeStructureIndexToMulti c8g).heap hd =
         some (EntryVal.multi ["d"])) := by
  refine ⟨?_, ⟨by decide, 7, by decide, by decide⟩, ⟨by decide, 6, by decide, by decide⟩⟩
  intro n m G hnm
  unfold upgradeUndAt
  rw [if_pos hnm]

/-- C8 witness: the one-side-only rule applied at a concrete ordered pair —
processing the pair from the smaller key `a` is the identity. -/
theorem claim_C8_witness :
    jsStrLt "a" "b" = true ∧ upgradeUndAt "a" "b" c8g = c8g :=
  ⟨by decide, claim_C8.1 "a" "b" c8g (by decide)⟩

end Graphology
